import Mathlib

/-!
# Cleanflight cooperative scheduler (`src/main/scheduler/scheduler.c`)

A shallow embedding of the scheduler and a verification of its documented
properties.

Conventions of the embedding.

* `uint32_t` values are natural numbers; every arithmetic operation of the
  source that can wrap is followed by an explicit reduction modulo `2^32`
  (`wrap32`, `sub32`), `uint16_t` stores by a reduction modulo `2^16`.
* A pointer into the task table (`cfTask_t *`) is `Option Nat`: `none` is
  `NULL`, `some i` is `&cfTasks[i]`.
* A function pointer is `Option Nat`: `none` is `NULL`, `some f` is the
  address `f`; the meaning of the addresses is supplied by an `Env`.
* Undefined behaviour of the C program (out-of-bounds access, `NULL`
  dereference, division by zero) and divergence of the catch-up loop are the
  result `none`.
-/

namespace Scheduler

/-! ## Machine arithmetic -/

/-- Largest `uint32_t` value. -/
def UINT32_MAX : Nat := 4294967295

/-- Reduction of a natural number to `uint32_t`. -/
def wrap32 (x : Nat) : Nat := x % 4294967296

/-- Reduction of a natural number to `uint16_t`. -/
def wrap16 (x : Nat) : Nat := x % 65536

/-- Subtraction `a - b` in `uint32_t`. -/
def sub32 (a b : Nat) : Nat := (a % 4294967296 + 4294967296 - b % 4294967296) % 4294967296

/-- The test `(int32_t)x >= 0` on a `uint32_t` value `x`. -/
def int32NonNeg (x : Nat) : Bool := decide (x % 4294967296 < 2147483648)

/-- Modelled from the spec: `constrain` of `common/maths.h` (not under `src/`),
the clamp of `amt` to the interval `[low, high]`. -/
def constrain (amt low high : Nat) : Nat :=
  if amt < low then low else if amt > high then high else amt

/-! ## Data model -/

/-- Task descriptor `cfTask_t`; the fields are the ones `scheduler.c` reads or
writes. -/
structure cfTask_t where
  taskName : String
  checkFunc : Option Nat
  taskFunc : Option Nat
  isEnabled : Bool
  isWaitingToBeRan : Bool
  desiredPeriod : Nat
  priority : Nat
  lastExecutedAt : Nat
  lastIdealExecutionTime : Nat
  taskLatestDeltaTime : Nat
  averageExecutionTime : Nat
  maxExecutionTime : Nat
  totalExecutionTime : Nat
deriving DecidableEq, Repr

/-- Output record `cfTaskInfo_t` of `getTaskInfo`. -/
structure cfTaskInfo_t where
  taskName : String
  isEnabled : Bool
  desiredPeriod : Nat
  priority : Nat
  maxExecutionTime : Nat
  totalExecutionTime : Nat
  averageExecutionTime : Nat
  latestDeltaTime : Nat
deriving DecidableEq, Repr

/-- The variables of `scheduler.c` together with the task table `cfTasks`
(`taskCount` is the length of the table). -/
structure State where
  currentTask : Option Nat
  realtimeGuardInterval : Nat
  currentTime : Nat
  currentSchedulerExecutionPasses : Nat
  currentSchedulerExecutionPassesWithWork : Nat
  averageSystemLoadPercent : Nat
  cfTasks : List cfTask_t
deriving DecidableEq, Repr

/-- Number of entries of the task table. -/
def State.taskCount (s : State) : Nat := s.cfTasks.length

def REALTIME_GUARD_INTERVAL_MIN : Nat := 10

def REALTIME_GUARD_INTERVAL_MAX : Nat := 300

def REALTIME_GUARD_INTERVAL_MARGIN : Nat := 25

/-- The state given by the static initialisers of `scheduler.c` (lines 38-54)
for a task table `tasks`. -/
def initialState (tasks : List cfTask_t) : State :=
  { currentTask := none
    realtimeGuardInterval := REALTIME_GUARD_INTERVAL_MAX
    currentTime := 0
    currentSchedulerExecutionPasses := 0
    currentSchedulerExecutionPassesWithWork := 0
    averageSystemLoadPercent := 0
    cfTasks := tasks }

/-! ## The system task -/

/-- The loop of `taskSystem` (lines 67-74): running maximum of the
`averageExecutionTime` of the tasks whose priority is not realtime. -/
def maxNonRealtimeTaskTime (realtime : Nat) : List cfTask_t → Nat → Nat
  | [], acc => acc
  | task :: rest, acc =>
    if task.priority ≠ realtime then
      maxNonRealtimeTaskTime realtime rest (max acc task.averageExecutionTime)
    else
      maxNonRealtimeTaskTime realtime rest acc

/-- The function `taskSystem` (lines 57-81); `realtime` is the constant
`TASK_PRIORITY_REALTIME`. -/
def taskSystem (realtime : Nat) (s : State) : State :=
  let s1 : State :=
    if s.currentSchedulerExecutionPasses > 0 then
      { s with
        averageSystemLoadPercent :=
          wrap16 (wrap32 (100 * s.currentSchedulerExecutionPassesWithWork)
            / s.currentSchedulerExecutionPasses)
        currentSchedulerExecutionPasses := 0
        currentSchedulerExecutionPassesWithWork := 0 }
    else s
  { s1 with
    realtimeGuardInterval :=
      wrap32 (constrain (maxNonRealtimeTaskTime realtime s1.cfTasks 0)
        REALTIME_GUARD_INTERVAL_MIN REALTIME_GUARD_INTERVAL_MAX
        + REALTIME_GUARD_INTERVAL_MARGIN) }

/-! ## Control surface -/

/-- The guard shared by `updateTaskExecutionPeriod`, `setTaskEnabled` and
`getTaskDeltaTime` (lines 99, 107, 115); `self` is the constant `TASK_SELF`. -/
def taskIdAccepted (self : Int) (s : State) (taskId : Int) : Bool :=
  (taskId == self && s.currentTask.isSome)
    || (decide (taskId < (s.taskCount : Int)) && decide (taskId ≥ 0))

/-- The pointer `taskId == TASK_SELF ? currentTask : &cfTasks[taskId]`. -/
def taskPointer (self : Int) (s : State) (taskId : Int) : Option Nat :=
  if taskId = self then s.currentTask else some taskId.toNat

/-- A write through a task pointer: `none` when the pointer does not point into
the table. -/
def State.updateTask (s : State) (ptr : Option Nat) (f : cfTask_t → cfTask_t) :
    Option State :=
  match ptr with
  | none => none
  | some i =>
    match s.cfTasks[i]? with
    | none => none
    | some task => some { s with cfTasks := s.cfTasks.set i (f task) }

/-- The function `updateTaskExecutionPeriod` (lines 97-103). -/
def updateTaskExecutionPeriod (self : Int) (s : State) (taskId : Int)
    (newPeriodMicros : Nat) : Option State :=
  if taskIdAccepted self s taskId then
    s.updateTask (taskPointer self s taskId)
      (fun task => { task with desiredPeriod := max 100 (wrap32 newPeriodMicros) })
  else some s

/-- The function `setTaskEnabled` (lines 105-111). -/
def setTaskEnabled (self : Int) (s : State) (taskId : Int) (enabled : Bool) :
    Option State :=
  if taskIdAccepted self s taskId then
    s.updateTask (taskPointer self s taskId)
      (fun task => { task with isEnabled := enabled && task.taskFunc.isSome })
  else some s

/-- The function `getTaskDeltaTime` (lines 113-121). -/
def getTaskDeltaTime (self : Int) (s : State) (taskId : Int) : Option Nat :=
  if taskIdAccepted self s taskId then
    match taskPointer self s taskId with
    | none => none
    | some i => (s.cfTasks[i]?).map (fun task => task.taskLatestDeltaTime)
  else some 0

/-- The function `getTaskInfo` (lines 84-94): the record written through
`taskInfo`. The index `taskId` is used without any check, so the result is
`none` (an access outside the table) unless `0 ≤ taskId < taskCount`. -/
def getTaskInfo (s : State) (taskId : Int) (taskInfo : cfTaskInfo_t) :
    Option cfTaskInfo_t :=
  if taskId < 0 then none
  else
    match s.cfTasks[taskId.toNat]? with
    | none => none
    | some task =>
      some { taskInfo with
             taskName := task.taskName
             isEnabled := task.isEnabled
             desiredPeriod := task.desiredPeriod
             priority := task.priority
             maxExecutionTime := task.maxExecutionTime
             totalExecutionTime := task.totalExecutionTime
             averageExecutionTime := task.averageExecutionTime
             latestDeltaTime := task.taskLatestDeltaTime }

/-- The function `schedulerInit` (lines 123-132). -/
def schedulerInit (s : State) : State :=
  { s with
    cfTasks := s.cfTasks.map (fun task =>
      { task with
        isEnabled := false
        isWaitingToBeRan := false
        lastIdealExecutionTime := 0 }) }

/-! ## The scheduler pass -/

/-- The collaborators of the scheduler that are defined outside `scheduler.c`:
the constants `TASK_SELF` and `TASK_PRIORITY_REALTIME`, the clock `micros`, and
the meaning of the function pointers stored in the task table. `W` is the
state of everything outside the scheduler (the clock included). A check
function is a readiness predicate: it receives the delta, may change the
outside world (it may consume time) and answers; a task function may change
the outside world and the scheduler state (it can call the control surface,
and `taskSystem` is one of them). -/
structure Env (W : Type) where
  TASK_SELF : Int
  TASK_PRIORITY_REALTIME : Nat
  micros : W → Nat
  checkFunc : Nat → Nat → W → Bool × W
  taskFunc : Nat → State × W → State × W

/-- A call made by the scheduler through a function pointer of the task at a
table index: the check function with its argument, or the task function. -/
inductive Call where
  | check (index : Nat) (currentDeltaTime : Nat)
  | task (index : Nat)
deriving DecidableEq, Repr

/-- The scheduler state, the outside world, and the record of the calls the
scheduler has made through function pointers (bookkeeping of the model, not
a variable of the program). -/
structure Machine (W : Type) where
  sched : State
  world : W
  calls : List Call
deriving DecidableEq, Repr

/-- The first loop of `schedulerExecute` (lines 140-152), started with the
value `acc` of `timeToNextRealtimeTask`. -/
def timeToNextRealtimeTask (realtime currentTime : Nat) : List cfTask_t → Nat → Nat
  | [], acc => acc
  | task :: rest, acc =>
    if task.isEnabled && decide (task.priority ≥ realtime) then
      let nextExecuteAt := wrap32 (task.lastExecutedAt + task.desiredPeriod)
      if int32NonNeg (sub32 currentTime nextExecuteAt) then
        timeToNextRealtimeTask realtime currentTime rest 0
      else
        timeToNextRealtimeTask realtime currentTime rest
          (min acc (sub32 nextExecuteAt currentTime))
    else
      timeToNextRealtimeTask realtime currentTime rest acc

/-- The catch-up loop (lines 194-197) on `lastIdealExecutionTime`; each
iteration uses one unit of `fuel`, and `none` means the fuel ran out. -/
def catchUp (desiredPeriod currentTime : Nat) : Nat → Nat → Option Nat
  | fuel, lastIdealExecutionTime =>
    if wrap32 (lastIdealExecutionTime + desiredPeriod) ≤ currentTime then
      match fuel with
      | 0 => none
      | fuel + 1 =>
        catchUp desiredPeriod currentTime fuel (wrap32 (lastIdealExecutionTime + desiredPeriod))
    else some lastIdealExecutionTime

/-- The readiness update of one enabled task (lines 173-201) at table index
`ii`. -/
def updateReadiness {W : Type} (env : Env W) (fuel currentTime ii : Nat)
    (task : cfTask_t) (world : W) (calls : List Call) :
    Option (cfTask_t × W × List Call) :=
  if !task.isWaitingToBeRan then
    match task.checkFunc with
    | some f =>
      let currentDeltaTime := sub32 currentTime task.lastExecutedAt
      let r := env.checkFunc f currentDeltaTime world
      let calls1 := calls ++ [Call.check ii currentDeltaTime]
      if r.1 then
        some ({ task with lastIdealExecutionTime := currentTime, isWaitingToBeRan := true },
          r.2, calls1)
      else some (task, r.2, calls1)
    | none =>
      if wrap32 (task.lastIdealExecutionTime + task.desiredPeriod) ≤ currentTime then
        match catchUp task.desiredPeriod currentTime fuel task.lastIdealExecutionTime with
        | none => none
        | some ideal =>
          some ({ task with lastIdealExecutionTime := ideal, isWaitingToBeRan := true },
            world, calls)
      else some (task, world, calls)
  else some (task, world, calls)

/-- The local `taskAge` (line 207); `none` is the division by zero. -/
def taskAge (currentTime : Nat) (task : cfTask_t) : Option Nat :=
  if task.desiredPeriod = 0 then none
  else some (wrap32 (1 + sub32 currentTime task.lastIdealExecutionTime / task.desiredPeriod))

/-- The local `starvationPriority` (line 212). -/
def starvationPriority (currentTime : Nat) (task : cfTask_t) : Option Nat :=
  (taskAge currentTime task).map (fun age => wrap32 (1 + wrap32 (task.priority * age)))

/-- The locals `selectedTask` and `selectedTaskStarvationPriority`
(lines 159-160) together with the outside world and the call record. -/
structure Selection (W : Type) where
  selectedTask : Option Nat
  selectedTaskStarvationPriority : Nat
  world : W
  calls : List Call
deriving DecidableEq, Repr

/-- The selection step for one task that has passed the readiness update
(lines 204-224). The score is a `uint32_t`, the best score so far is stored
in a `uint16_t`. -/
def considerTask {W : Type} (realtime currentTime : Nat)
    (outsideRealtimeGuardInterval : Bool) (ii : Nat) (task : cfTask_t)
    (sel : Selection W) : Option (Selection W) :=
  if task.isWaitingToBeRan then
    match starvationPriority currentTime task with
    | none => none
    | some score =>
      if score > sel.selectedTaskStarvationPriority then
        let taskCanBeChosenForScheduling :=
          outsideRealtimeGuardInterval || decide (task.priority = realtime)
        if taskCanBeChosenForScheduling then
          some { sel with
                 selectedTaskStarvationPriority := wrap16 score
                 selectedTask := some ii }
        else some sel
      else some sel
  else some sel

/-- The main loop of `schedulerExecute` (lines 164-225) over the tasks from
table index `ii` on: the updated descriptors and the final selection. -/
def selectLoop {W : Type} (env : Env W) (fuel currentTime : Nat)
    (outsideRealtimeGuardInterval : Bool) :
    Nat → List cfTask_t → Selection W → Option (List cfTask_t × Selection W)
  | _, [], sel => some ([], sel)
  | ii, task :: rest, sel =>
    if !task.isEnabled then
      (selectLoop env fuel currentTime outsideRealtimeGuardInterval (ii + 1) rest sel).map
        (fun r => (task :: r.1, r.2))
    else
      match updateReadiness env fuel currentTime ii task sel.world sel.calls with
      | none => none
      | some (task1, world1, calls1) =>
        match considerTask env.TASK_PRIORITY_REALTIME currentTime
            outsideRealtimeGuardInterval ii task1
            { sel with world := world1, calls := calls1 } with
        | none => none
        | some sel1 =>
          (selectLoop env fuel currentTime outsideRealtimeGuardInterval (ii + 1) rest sel1).map
            (fun r => (task1 :: r.1, r.2))

/-- The part of `schedulerExecute` up to the end of the main loop
(lines 137-225): the state with `currentTime` cached and the descriptors
updated, and the selection. -/
def schedulerSelect {W : Type} (env : Env W) (fuel : Nat) (m : Machine W) :
    Option (State × Selection W) :=
  let currentTime := wrap32 (env.micros m.world)
  let timeToNext :=
    timeToNextRealtimeTask env.TASK_PRIORITY_REALTIME currentTime m.sched.cfTasks UINT32_MAX
  let outsideRealtimeGuardInterval := decide (timeToNext > m.sched.realtimeGuardInterval)
  (selectLoop env fuel currentTime outsideRealtimeGuardInterval 0 m.sched.cfTasks
      { selectedTask := none, selectedTaskStarvationPriority := 0,
        world := m.world, calls := m.calls }).map
    (fun r => ({ m.sched with currentTime := currentTime, cfTasks := r.1 }, r.2))

/-- Lines 228-235: `currentTask = selectedTask` and the two pass counters. -/
def accountPass (s : State) (selectedTask : Option Nat) : State :=
  { s with
    currentTask := selectedTask
    currentSchedulerExecutionPasses := wrap32 (s.currentSchedulerExecutionPasses + 1)
    currentSchedulerExecutionPassesWithWork :=
      if selectedTask.isSome then wrap32 (s.currentSchedulerExecutionPassesWithWork + 1)
      else s.currentSchedulerExecutionPassesWithWork }

/-- Lines 239-240: the delta and `lastExecutedAt` of the selected task, which
is `task` at table index `i`. -/
def beginTask (s : State) (i : Nat) (task : cfTask_t) : State :=
  { s with
    cfTasks := s.cfTasks.set i
      { task with
        taskLatestDeltaTime := sub32 s.currentTime task.lastExecutedAt
        lastExecutedAt := s.currentTime } }

/-- Lines 248-254: after the task function has returned, with `done` the
descriptor at table index `i` as the task function left it. -/
def finishTask (s : State) (i : Nat) (done : cfTask_t) (taskExecutionTime : Nat) : State :=
  { s with
    currentTask := none
    cfTasks := s.cfTasks.set i
      { done with
        isWaitingToBeRan := false
        averageExecutionTime :=
          wrap32 (wrap32 (done.averageExecutionTime * 31) + taskExecutionTime) / 32
        totalExecutionTime := wrap32 (done.totalExecutionTime + taskExecutionTime)
        maxExecutionTime := max done.maxExecutionTime taskExecutionTime } }

/-- The part of `schedulerExecute` after the main loop (lines 227-262), for the
state and selection the loop produced. The writes to `debug[]` under
`SCHEDULER_DEBUG` and the unit-test hook `GET_SCHEDULER_LOCALS()` touch no
scheduler variable and are left out. -/
def schedulerDispatch {W : Type} (env : Env W) (s : State) (sel : Selection W) :
    Option (Machine W) :=
  let s1 := accountPass s sel.selectedTask
  match sel.selectedTask with
  | none => some { sched := s1, world := sel.world, calls := sel.calls }
  | some i =>
    match s1.cfTasks[i]? with
    | none => none
    | some task =>
      let s2 := beginTask s1 i task
      let currentTimeBeforeTaskCall := wrap32 (env.micros sel.world)
      match task.taskFunc with
      | none => none
      | some f =>
        let r := env.taskFunc f (s2, sel.world)
        let taskExecutionTime := sub32 (env.micros r.2) currentTimeBeforeTaskCall
        match r.1.cfTasks[i]? with
        | none => none
        | some done =>
          some { sched := finishTask r.1 i done taskExecutionTime
                 world := r.2
                 calls := sel.calls ++ [Call.task i] }

/-- The function `schedulerExecute` (lines 134-263): one pass. -/
def schedulerExecute {W : Type} (env : Env W) (fuel : Nat) (m : Machine W) :
    Option (Machine W) :=
  match schedulerSelect env fuel m with
  | none => none
  | some (s, sel) => schedulerDispatch env s sel

/-- The task dispatched by one pass: `some none` when the pass selects no task,
`some (some i)` when it selects the task at table index `i`. -/
def dispatchedTask {W : Type} (env : Env W) (fuel : Nat) (m : Machine W) :
    Option (Option Nat) :=
  (schedulerSelect env fuel m).map (fun r => r.2.selectedTask)

/-- A test driver: before each pass the harness changes the outside world
(it advances the simulated clock), then calls `schedulerExecute`. -/
def runPasses {W : Type} (env : Env W) (fuel : Nat) :
    List (W → W) → Machine W → Option (Machine W)
  | [], m => some m
  | advance :: rest, m =>
    match schedulerExecute env fuel { m with world := advance m.world } with
    | none => none
    | some m1 => runPasses env fuel rest m1

/-! ## Specification-side definitions -/

/-- The maximum of `averageExecutionTime` over the tasks whose priority is not
realtime, `0` when there is none, as the specification words it. -/
def maxAverageOfNonRealtime (realtime : Nat) (tasks : List cfTask_t) : Nat :=
  ((tasks.filter (fun task => decide (task.priority ≠ realtime))).map
    (fun task => task.averageExecutionTime)).foldr max 0

/-- A task takes part in the selection of a pass when it is enabled, waiting
and eligible: the pass is outside the realtime guard or the task is realtime. -/
def IsCandidate (realtime : Nat) (outside : Bool) (task : cfTask_t) : Prop :=
  task.isEnabled = true ∧ task.isWaitingToBeRan = true ∧
    (outside = true ∨ task.priority = realtime)

/-- The guard lies in `[MIN + MARGIN, MAX + MARGIN]`. -/
def GuardInBounds (s : State) : Prop :=
  REALTIME_GUARD_INTERVAL_MIN + REALTIME_GUARD_INTERVAL_MARGIN ≤ s.realtimeGuardInterval ∧
    s.realtimeGuardInterval ≤ REALTIME_GUARD_INTERVAL_MAX + REALTIME_GUARD_INTERVAL_MARGIN

/-! ## Example data -/

/-- A task descriptor with a task function, time-driven, all counters zero. -/
def exampleTask (name : String) (priority desiredPeriod average : Nat) : cfTask_t :=
  { taskName := name
    checkFunc := none
    taskFunc := some 0
    isEnabled := false
    isWaitingToBeRan := false
    desiredPeriod := desiredPeriod
    priority := priority
    lastExecutedAt := 0
    lastIdealExecutionTime := 0
    taskLatestDeltaTime := 0
    averageExecutionTime := average
    maxExecutionTime := 0
    totalExecutionTime := 0 }

/-- An environment whose outside world is the simulated clock alone: the
check functions answer `false` and cost 34 microseconds, the task functions
cost 50 microseconds; realtime is priority 6 and `TASK_SELF` is `-1`. -/
def exampleEnv : Env Nat :=
  { TASK_SELF := -1
    TASK_PRIORITY_REALTIME := 6
    micros := fun clock => clock
    checkFunc := fun _ _ clock => (false, clock + 34)
    taskFunc := fun _ x => (x.1, x.2 + 50) }

/-- A table with a realtime task and three other tasks whose averages are
20, 50 and 400. -/
def exampleTable : List cfTask_t :=
  [ exampleTask "SYSTEM" 5 100000 20,
    exampleTask "GYROPID" 6 1000 900,
    exampleTask "ACCEL" 3 1000 50,
    exampleTask "SERIAL" 1 10000 400 ]

/-- The table of `exampleTable` with tasks 0 and 1 enabled and no task
executing. -/
def exampleEnabledState : State :=
  { initialState exampleTable with
    cfTasks := exampleTable.map (fun task =>
      { task with isEnabled := decide (task.priority ≥ 5) }) }

/-- A state in which a low-priority task (index 0) has waited 65537 periods and
another low-priority task (index 1) two periods; no realtime task is enabled
and the clock reads 6553700. -/
def exampleStarvedMachine : Machine Nat :=
  { sched :=
      { initialState
          [ { exampleTask "SERIAL" 1 100 0 with
              isEnabled := true, isWaitingToBeRan := true, lastIdealExecutionTime := 100 },
            { exampleTask "BEEPER" 1 100 0 with
              isEnabled := true, isWaitingToBeRan := true,
              lastIdealExecutionTime := 6553600 } ] with
        realtimeGuardInterval := 325 }
    world := 6553700
    calls := [] }

/-- A state with the realtime task (index 0, period 1000, last executed at 0)
and a medium-priority task (index 1, period 100) enabled; the clock reads 500,
so the next realtime deadline is 500 microseconds away and the guard is 325. -/
def exampleGuardMachine : Machine Nat :=
  { sched :=
      { initialState
          [ { exampleTask "GYROPID" 6 1000 0 with isEnabled := true },
            { exampleTask "ACCEL" 3 100 0 with isEnabled := true } ] with
        realtimeGuardInterval := 325 }
    world := 500
    calls := [] }

/-- An empty output record. -/
def exampleInfo : cfTaskInfo_t :=
  { taskName := ""
    isEnabled := false
    desiredPeriod := 0
    priority := 0
    maxExecutionTime := 0
    totalExecutionTime := 0
    averageExecutionTime := 0
    latestDeltaTime := 0 }

/-- The stubs of `scheduler_unittest.cc`: the outside world is `simulatedTime`
and `rxCheckReturnValue`; the check function costs 34 microseconds and answers
`rxCheckReturnValue`; the task functions cost, by address, 10 (and `taskSystem`
runs), 50, 200, 30, 12 and 16 microseconds. -/
def testEnv : Env (Nat × Bool) :=
  { TASK_SELF := -1
    TASK_PRIORITY_REALTIME := 6
    micros := fun w => w.1
    checkFunc := fun _ _ w => (w.2, (w.1 + 34, w.2))
    taskFunc := fun f x =>
      match f with
      | 0 => (taskSystem 6 x.1, (x.2.1 + 10, x.2.2))
      | 1 => (x.1, (x.2.1 + 50, x.2.2))
      | 2 => (x.1, (x.2.1 + 200, x.2.2))
      | 3 => (x.1, (x.2.1 + 30, x.2.2))
      | 4 => (x.1, (x.2.1 + 12, x.2.2))
      | _ => (x.1, (x.2.1 + 16, x.2.2)) }

/-- A task descriptor of the test table: all counters zero, disabled. -/
def testTask (name : String) (priority : Nat) (checkFunc : Option Nat) (taskFunc : Nat)
    (desiredPeriod : Nat) : cfTask_t :=
  { taskName := name
    checkFunc := checkFunc
    taskFunc := some taskFunc
    isEnabled := false
    isWaitingToBeRan := false
    desiredPeriod := desiredPeriod
    priority := priority
    lastExecutedAt := 0
    lastIdealExecutionTime := 0
    taskLatestDeltaTime := 0
    averageExecutionTime := 0
    maxExecutionTime := 0
    totalExecutionTime := 0 }

/-- Six tasks of the table the unit tests use, in table order: SYSTEM (0),
GYROPID (1, realtime), ACCEL (2), SERIAL (3), RX (4, event-driven) and
TELEMETRY (5, idle). -/
def testTable : List cfTask_t :=
  [ testTask "SYSTEM" 5 none 0 100000,
    testTask "GYROPID" 6 none 1 1000,
    testTask "ACCEL" 3 none 2 1000,
    testTask "SERIAL" 1 none 3 10000,
    testTask "RX" 5 (some 0) 4 20000,
    testTask "TELEMETRY" 0 none 5 4000 ]

/-- A step of a test: a control-surface call, a change of the outside world by
the harness, or a pass. -/
inductive Op (W : Type) where
  | schedulerInit
  | setTaskEnabled (taskId : Int) (enabled : Bool)
  | updateTaskExecutionPeriod (taskId : Int) (newPeriodMicros : Nat)
  | schedulerExecute (fuel : Nat)
  | world (change : W → W)

/-- The effect of one step, called from outside any task. -/
def applyOp {W : Type} (env : Env W) (op : Op W) (m : Machine W) : Option (Machine W) :=
  match op with
  | .schedulerInit => some { m with sched := schedulerInit m.sched }
  | .setTaskEnabled taskId enabled =>
    (setTaskEnabled env.TASK_SELF m.sched taskId enabled).map
      (fun s => { m with sched := s })
  | .updateTaskExecutionPeriod taskId newPeriodMicros =>
    (updateTaskExecutionPeriod env.TASK_SELF m.sched taskId newPeriodMicros).map
      (fun s => { m with sched := s })
  | .schedulerExecute fuel => schedulerExecute env fuel m
  | .world change => some { m with world := change m.world }

/-- The effect of a sequence of steps. -/
def applyOps {W : Type} (env : Env W) : List (Op W) → Machine W → Option (Machine W)
  | [], m => some m
  | op :: rest, m =>
    match applyOp env op m with
    | none => none
    | some m1 => applyOps env rest m1

/-- The machine of the unit tests before a test starts: the test table in its
static state, `simulatedTime = 0`, `rxCheckReturnValue = false`. -/
def testMachine : Machine (Nat × Bool) :=
  { sched := initialState testTable, world := (0, false), calls := [] }

/-- The harness sets `simulatedTime`. -/
def setTime (t : Nat) : Op (Nat × Bool) := Op.world (fun w => (t, w.2))

/-- The harness sets `rxCheckReturnValue`. -/
def setRxCheck (b : Bool) : Op (Nat × Bool) := Op.world (fun w => (w.1, b))

/-- The test table with ACCEL (index 2) enabled, period 30000, dispatched once
at 30000, and the simulated time at 70000. -/
def exampleAccelMachine : Machine (Nat × Bool) :=
  { sched :=
      { initialState
          (testTable.set 2
            { testTask "ACCEL" 3 none 2 30000 with
              isEnabled := true, lastIdealExecutionTime := 30000, lastExecutedAt := 30000,
              taskLatestDeltaTime := 30000, averageExecutionTime := 6,
              maxExecutionTime := 200, totalExecutionTime := 200 }) with
        currentTime := 40000
        currentSchedulerExecutionPasses := 3
        currentSchedulerExecutionPassesWithWork := 1 }
    world := (70000, false)
    calls := [Call.task 2] }

/-- The steps of `TEST(SchedulerUnittest, BasicEventTask)`: RX (index 4) enabled;
two passes with the check answering `false`, two with `true`, one with
`false`; then the check answers `true`, GYROPID (index 1) is enabled and passes
run at 40000 and 50000; GYROPID is disabled and a last pass runs. -/
def testBasicEventTaskSteps : List (Op (Nat × Bool)) :=
  [ Op.schedulerInit, Op.setTaskEnabled 4 true,
    Op.schedulerExecute 50, Op.schedulerExecute 50,
    setRxCheck true, Op.schedulerExecute 50, Op.schedulerExecute 50,
    setRxCheck false, Op.schedulerExecute 50,
    setRxCheck true, Op.setTaskEnabled 1 true,
    setTime 40000, Op.schedulerExecute 50,
    setTime 50000, Op.schedulerExecute 50,
    Op.setTaskEnabled 1 false, Op.schedulerExecute 50 ]

/-- The machine of `BasicEventTask` after its first `n` steps. -/
def testEventMachine (n : Nat) : Machine (Nat × Bool) :=
  (applyOps testEnv (testBasicEventTaskSteps.take n) testMachine).getD testMachine

/-- The RX descriptor of `BasicEventTask` before the pass at 40000: enabled, not
waiting, dispatched twice, last at 114. -/
def exampleRxIdle : cfTask_t :=
  { testTask "RX" 5 (some 0) 4 20000 with
    isEnabled := true, lastExecutedAt := 114, lastIdealExecutionTime := 114,
    taskLatestDeltaTime := 46, maxExecutionTime := 12, totalExecutionTime := 24 }

/-- The RX descriptor of `BasicEventTask` before the pass at 50000: marked
waiting at 40000 and not yet dispatched. -/
def exampleRxWaiting : cfTask_t :=
  { exampleRxIdle with isWaitingToBeRan := true, lastIdealExecutionTime := 40000 }

/-- The bookkeeping fields of a descriptor: `lastExecutedAt`,
`taskLatestDeltaTime` and the execution-time statistics (average, maximum,
total). -/
def bookkeeping (task : cfTask_t) : Nat × Nat × Nat × Nat × Nat :=
  (task.lastExecutedAt, task.taskLatestDeltaTime, task.averageExecutionTime,
    task.maxExecutionTime, task.totalExecutionTime)

/-- The exponential moving average of line 251,
`((uint32_t)average * 31 + taskExecutionTime) / 32`, in `uint32_t`. -/
def averageAfter (average taskExecutionTime : Nat) : Nat :=
  wrap32 (wrap32 (average * 31) + taskExecutionTime) / 32

/-- The average after `n` dispatches that each measure the runtime `R`,
starting from the average `a`. -/
def averageIterate (R : Nat) : Nat → Nat → Nat
  | 0, a => a
  | n + 1, a => averageIterate R n (averageAfter a R)

/-- An environment in which a task function runs for `2^32 - 1` microseconds. -/
def exampleSlowEnv : Env Nat :=
  { exampleEnv with taskFunc := fun _ x => (x.1, x.2 + 4294967295) }

/-- A single enabled, waiting task whose average is `2^27 - 1`, the average a
first dispatch of `2^32 - 1` microseconds leaves from the average 0. -/
def exampleSlowMachine : Machine Nat :=
  { sched :=
      { initialState
          [ { exampleTask "GPS" 1 100 134217727 with
              isEnabled := true, isWaitingToBeRan := true } ] with
        realtimeGuardInterval := 325 }
    world := 0
    calls := [] }

/-- Two enabled, waiting, time-driven tasks with the same period (100) and the
same ideal time (100), hence the same age 21845 at the clock 2184500: index 0
has priority 3, index 1 has priority 1; no realtime task is enabled. -/
def examplePriorityMachine : Machine Nat :=
  { sched :=
      { initialState
          [ { exampleTask "ACCEL" 3 100 0 with
              isEnabled := true, isWaitingToBeRan := true, lastIdealExecutionTime := 100 },
            { exampleTask "SERIAL" 1 100 0 with
              isEnabled := true, isWaitingToBeRan := true, lastIdealExecutionTime := 100 } ] with
        realtimeGuardInterval := 325 }
    world := 2184500
    calls := [] }

/-- An enabled, waiting low-priority task (index 0, priority 1) of age 65535 and
an enabled, waiting idle-priority task (index 1, priority 0); no realtime task
is enabled and the clock reads 6553500. -/
def exampleIdleMachine : Machine Nat :=
  { sched :=
      { initialState
          [ { exampleTask "SERIAL" 1 100 0 with
              isEnabled := true, isWaitingToBeRan := true, lastIdealExecutionTime := 100 },
            { exampleTask "TELEMETRY" 0 100 0 with
              isEnabled := true, isWaitingToBeRan := true,
              lastIdealExecutionTime := 6553400 } ] with
        realtimeGuardInterval := 325 }
    world := 6553500
    calls := [] }

/-- An enabled time-driven task (period 100, ideal time 0, not waiting) with the
clock at its last value before the 32-bit wrap, `2^32 - 1`. -/
def exampleWrapMachine : Machine Nat :=
  { sched :=
      { initialState [ { exampleTask "SERIAL" 1 100 0 with isEnabled := true } ] with
        realtimeGuardInterval := 325 }
    world := 4294967295
    calls := [] }

/-- The absolute difference `|a - b|` of two natural numbers. -/
def absDiff (a b : Nat) : Nat := (a - b) + (b - a)

/-- The steps of `TEST(SchedulerUnittest, BasicPriorityTest)`: GYROPID (1), RX
(4), ACCEL (2), SERIAL (3) and TELEMETRY (5) enabled with period 3000; a pass
at 2999 with the check answering `false`, then the check answers `true` and
six passes follow from 3000 on. -/
def testBasicPrioritySteps : List (Op (Nat × Bool)) :=
  [ Op.schedulerInit,
    Op.setTaskEnabled 1 true, Op.setTaskEnabled 4 true, Op.setTaskEnabled 2 true,
    Op.setTaskEnabled 3 true, Op.setTaskEnabled 5 true,
    Op.updateTaskExecutionPeriod 1 3000, Op.updateTaskExecutionPeriod 4 3000,
    Op.updateTaskExecutionPeriod 2 3000, Op.updateTaskExecutionPeriod 3 3000,
    Op.updateTaskExecutionPeriod 5 3000,
    setRxCheck false, setTime 2999, Op.schedulerExecute 5,
    setTime 3000, setRxCheck true, Op.schedulerExecute 5,
    Op.schedulerExecute 5, Op.schedulerExecute 5, Op.schedulerExecute 5,
    Op.schedulerExecute 5 ]

/-- Every enabled task of the table has a `taskFunc`. -/
def EnabledHaveTaskFunc (s : State) : Prop :=
  ∀ task ∈ s.cfTasks, task.isEnabled = true → task.taskFunc.isSome = true

/-- An environment whose task functions call
`updateTaskExecutionPeriod(TASK_SELF, 5000)` and run 50 microseconds. -/
def exampleSelfEnv : Env Nat :=
  { exampleEnv with
    taskFunc := fun _ x =>
      ((updateTaskExecutionPeriod (-1) x.1 (-1) 5000).getD x.1, x.2 + 50) }

/-- The first fifteen steps of `BasicEventTask` (RX waiting since 40000, GYROPID
enabled, the clock past 50000), after which RX (index 4) is disabled while it
is ready and the check is set to answer `false`. -/
def testReenableSteps : List (Op (Nat × Bool)) :=
  testBasicEventTaskSteps.take 15 ++ [Op.setTaskEnabled 4 false, setRxCheck false]

/-- The machine after `testReenableSteps`. -/
def testReenableMachine : Machine (Nat × Bool) :=
  (applyOps testEnv testReenableSteps testMachine).getD testMachine

/-- A counter state in which every one of 42949673 passes had work: the
smallest count of passes with work whose product with 100 exceeds `2^32 - 1`. -/
def exampleLoadState : State :=
  { initialState exampleTable with
    currentSchedulerExecutionPasses := 42949673
    currentSchedulerExecutionPassesWithWork := 42949673 }

/-- The local `outsideRealtimeGuardInterval` of a pass (lines 140-156): whether
the time to the next realtime task exceeds the guard. -/
def outsideRealtimeGuardInterval {W : Type} (env : Env W) (m : Machine W) : Bool :=
  decide (timeToNextRealtimeTask env.TASK_PRIORITY_REALTIME (wrap32 (env.micros m.world))
    m.sched.cfTasks UINT32_MAX > m.sched.realtimeGuardInterval)

/-- A realtime task (index 0, priority 6, period 1000) that is enabled and
waiting, and an enabled time-driven task (index 1, priority 1, period 100,
ideal time 0, not waiting), with the clock at its last value before the 32-bit
wrap, `2^32 - 1`. -/
def exampleWrapRealtimeMachine : Machine Nat :=
  { sched :=
      { initialState
          [ { exampleTask "GYROPID" 6 1000 0 with isEnabled := true, isWaitingToBeRan := true },
            { exampleTask "SERIAL" 1 100 0 with isEnabled := true } ] with
        realtimeGuardInterval := 325 }
    world := 4294967295
    calls := [] }

/-! ## Arithmetic lemmas -/

theorem constrain_bounds (amt low high : Nat) (h : low ≤ high) :
    low ≤ constrain amt low high ∧ constrain amt low high ≤ high := by
  unfold constrain
  split
  · exact ⟨le_refl _, h⟩
  · split
    · exact ⟨h, le_refl _⟩
    · constructor <;> omega

/-! ## The system task and the guard -/

theorem maxNonRealtimeTaskTime_eq (realtime : Nat) (tasks : List cfTask_t) (acc : Nat) :
    maxNonRealtimeTaskTime realtime tasks acc
      = max acc (maxAverageOfNonRealtime realtime tasks) := by
  induction tasks generalizing acc with
  | nil => simp [maxNonRealtimeTaskTime, maxAverageOfNonRealtime]
  | cons task rest ih =>
    unfold maxNonRealtimeTaskTime
    by_cases hp : task.priority = realtime
    · simp only [hp, ne_eq, not_true_eq_false, if_false]
      rw [ih]
      simp [maxAverageOfNonRealtime, List.filter_cons, hp]
    · simp only [ne_eq, hp, not_false_eq_true, if_true]
      rw [ih]
      simp only [maxAverageOfNonRealtime, List.filter_cons, ne_eq, hp, not_false_eq_true,
        decide_True, if_true, List.map_cons, List.foldr_cons]
      exact max_assoc _ _ _

theorem taskSystem_cfTasks (realtime : Nat) (s : State) :
    (taskSystem realtime s).cfTasks = s.cfTasks := by
  unfold taskSystem
  split <;> rfl

theorem taskSystem_guard (realtime : Nat) (s : State) :
    (taskSystem realtime s).realtimeGuardInterval
      = constrain (maxAverageOfNonRealtime realtime s.cfTasks) 10 300 + 25 := by
  have hb := constrain_bounds (maxAverageOfNonRealtime realtime s.cfTasks) 10 300 (by omega)
  have hc : ∀ t : State, t.cfTasks = s.cfTasks →
      wrap32 (constrain (maxNonRealtimeTaskTime realtime t.cfTasks 0)
        REALTIME_GUARD_INTERVAL_MIN REALTIME_GUARD_INTERVAL_MAX
        + REALTIME_GUARD_INTERVAL_MARGIN)
      = constrain (maxAverageOfNonRealtime realtime s.cfTasks) 10 300 + 25 := by
    intro t ht
    rw [ht, maxNonRealtimeTaskTime_eq, Nat.zero_max]
    simp only [REALTIME_GUARD_INTERVAL_MIN, REALTIME_GUARD_INTERVAL_MAX,
      REALTIME_GUARD_INTERVAL_MARGIN, wrap32]
    omega
  unfold taskSystem
  split
  · exact hc _ rfl
  · exact hc _ rfl

/-! ## Control surface: what a call with a table index does -/

theorem taskIdAccepted_of_valid (self : Int) (s : State) (taskId : Int)
    (hlo : 0 ≤ taskId) (hhi : taskId < (s.taskCount : Int)) :
    taskIdAccepted self s taskId = true := by
  simp [taskIdAccepted, hlo, hhi]

theorem taskIdAccepted_of_invalid (self : Int) (s : State) (taskId : Int)
    (hout : ¬ (0 ≤ taskId ∧ taskId < (s.taskCount : Int)))
    (hself : taskId = self → s.currentTask = none) :
    taskIdAccepted self s taskId = false := by
  unfold taskIdAccepted
  by_cases h : taskId = self
  · have hn := hself h
    have h2 : ¬ (taskId < (s.taskCount : Int) ∧ taskId ≥ 0) := fun hh => hout ⟨hh.2, hh.1⟩
    simp only [hn, Option.isSome_none, Bool.and_false, Bool.false_or]
    simpa using h2
  · have h2 : ¬ (taskId < (s.taskCount : Int) ∧ taskId ≥ 0) := fun hh => hout ⟨hh.2, hh.1⟩
    have h3 : (taskId == self) = false := by simpa using h
    simp only [h3, Bool.false_and, Bool.false_or]
    simpa using h2

theorem valid_index (s : State) (taskId : Int)
    (hlo : 0 ≤ taskId) (hhi : taskId < (s.taskCount : Int)) :
    taskId.toNat < s.cfTasks.length := by
  unfold State.taskCount at hhi
  omega

theorem updateTask_valid (self : Int) (s : State) (taskId : Int) (f : cfTask_t → cfTask_t)
    (hlo : 0 ≤ taskId) (hhi : taskId < (s.taskCount : Int)) (hself : taskId ≠ self) :
    ∃ task, s.cfTasks[taskId.toNat]? = some task ∧
      s.updateTask (taskPointer self s taskId) f
        = some { s with cfTasks := s.cfTasks.set taskId.toNat (f task) } := by
  have hi := valid_index s taskId hlo hhi
  refine ⟨s.cfTasks[taskId.toNat], List.getElem?_eq_getElem hi, ?_⟩
  simp [State.updateTask, taskPointer, hself, List.getElem?_eq_getElem hi]

theorem getTaskInfo_valid (s : State) (taskId : Int) (out : cfTaskInfo_t) (task : cfTask_t)
    (hlo : 0 ≤ taskId) (ht : s.cfTasks[taskId.toNat]? = some task) :
    getTaskInfo s taskId out =
      some { taskName := task.taskName
             isEnabled := task.isEnabled
             desiredPeriod := task.desiredPeriod
             priority := task.priority
             maxExecutionTime := task.maxExecutionTime
             totalExecutionTime := task.totalExecutionTime
             averageExecutionTime := task.averageExecutionTime
             latestDeltaTime := task.taskLatestDeltaTime } := by
  unfold getTaskInfo
  rw [if_neg (by omega), ht]

theorem getTaskInfo_invalid (s : State) (taskId : Int) (out : cfTaskInfo_t)
    (hout : ¬ (0 ≤ taskId ∧ taskId < (s.taskCount : Int))) :
    getTaskInfo s taskId out = none := by
  unfold getTaskInfo
  by_cases hneg : taskId < 0
  · rw [if_pos hneg]
  · rw [if_neg hneg]
    have hlen : s.cfTasks.length ≤ taskId.toNat := by
      unfold State.taskCount at hout
      omega
    rw [List.getElem?_eq_none hlen]

theorem le_maxAverageOfNonRealtime (realtime : Nat) (tasks : List cfTask_t) :
    ∀ task ∈ tasks, task.priority ≠ realtime →
      task.averageExecutionTime ≤ maxAverageOfNonRealtime realtime tasks := by
  induction tasks with
  | nil => intro task h; simp at h
  | cons head rest ih =>
    intro task hmem hp
    have hrest : maxAverageOfNonRealtime realtime (head :: rest)
        = if head.priority ≠ realtime
          then max head.averageExecutionTime (maxAverageOfNonRealtime realtime rest)
          else maxAverageOfNonRealtime realtime rest := by
      by_cases hh : head.priority = realtime <;>
        simp [maxAverageOfNonRealtime, List.filter_cons, hh]
    rw [hrest]
    rcases List.mem_cons.mp hmem with h | h
    · subst h
      rw [if_pos hp]
      exact le_max_left _ _
    · have := ih task h hp
      split
      · exact le_trans this (le_max_right _ _)
      · exact this

theorem maxAverageOfNonRealtime_attained (realtime : Nat) (tasks : List cfTask_t) :
    maxAverageOfNonRealtime realtime tasks = 0 ∨
      ∃ task ∈ tasks, task.priority ≠ realtime ∧
        task.averageExecutionTime = maxAverageOfNonRealtime realtime tasks := by
  induction tasks with
  | nil => left; simp [maxAverageOfNonRealtime]
  | cons head rest ih =>
    have hrest : maxAverageOfNonRealtime realtime (head :: rest)
        = if head.priority ≠ realtime
          then max head.averageExecutionTime (maxAverageOfNonRealtime realtime rest)
          else maxAverageOfNonRealtime realtime rest := by
      by_cases hh : head.priority = realtime <;>
        simp [maxAverageOfNonRealtime, List.filter_cons, hh]
    rw [hrest]
    by_cases hh : head.priority = realtime
    · rw [if_neg (by simpa using hh)]
      rcases ih with h | ⟨task, hm, hp, he⟩
      · left; exact h
      · right; exact ⟨task, List.mem_cons_of_mem _ hm, hp, he⟩
    · rw [if_pos hh]
      rcases le_total head.averageExecutionTime (maxAverageOfNonRealtime realtime rest) with h | h
      · rw [max_eq_right h]
        rcases ih with h0 | ⟨task, hm, hp, he⟩
        · left; exact h0
        · right; exact ⟨task, List.mem_cons_of_mem _ hm, hp, he⟩
      · rw [max_eq_left h]
        right
        exact ⟨head, List.mem_cons_self _ _, hh, rfl⟩

/-! ## Claims on the guard computation -/

/-- C4: after `taskSystem` the guard is `clamp(M, 10, 300) + 25`, where `M` is
the maximum `averageExecutionTime` over the tasks whose priority is not
realtime (`0` when there is none): `M` bounds every such average and is one of
them unless it is `0`, and two tables with the same non-realtime tasks get the
same guard, so the averages of realtime tasks have no influence. -/
theorem taskSystem_guard_formula (realtime : Nat) (s : State) :
    (taskSystem realtime s).realtimeGuardInterval
        = constrain (maxAverageOfNonRealtime realtime s.cfTasks) 10 300 + 25
      ∧ (∀ task ∈ s.cfTasks, task.priority ≠ realtime →
          task.averageExecutionTime ≤ maxAverageOfNonRealtime realtime s.cfTasks)
      ∧ (maxAverageOfNonRealtime realtime s.cfTasks = 0 ∨
          ∃ task ∈ s.cfTasks, task.priority ≠ realtime ∧
            task.averageExecutionTime = maxAverageOfNonRealtime realtime s.cfTasks)
      ∧ (∀ s2 : State,
          s2.cfTasks.filter (fun task => decide (task.priority ≠ realtime))
            = s.cfTasks.filter (fun task => decide (task.priority ≠ realtime)) →
          (taskSystem realtime s2).realtimeGuardInterval
            = (taskSystem realtime s).realtimeGuardInterval) := by
  refine ⟨taskSystem_guard realtime s, le_maxAverageOfNonRealtime realtime s.cfTasks,
    maxAverageOfNonRealtime_attained realtime s.cfTasks, ?_⟩
  intro s2 h
  rw [taskSystem_guard, taskSystem_guard]
  unfold maxAverageOfNonRealtime
  rw [h]

/-- C4, scenario S6: with a realtime task of average 900 and non-realtime
averages 20, 50 and 400 the guard after `taskSystem` is 325. -/
theorem taskSystem_guard_formula_witness :
    maxAverageOfNonRealtime 6 (initialState exampleTable).cfTasks = 400 ∧
      (taskSystem 6 (initialState exampleTable)).realtimeGuardInterval = 325 := by
  refine ⟨by decide, ?_⟩
  rw [(taskSystem_guard_formula 6 (initialState exampleTable)).1]
  decide

/-! ## Claims on the control surface -/

/-- C5: for a table index `taskId` (which is not the `TASK_SELF` sentinel) and
a 32-bit value `p`, `updateTaskExecutionPeriod` returns the state in which that
task has `desiredPeriod = max 100 p` and nothing else differs, and `getTaskInfo`
then reports `max 100 p`, which is `100` when `p < 100`. -/
theorem updateTaskExecutionPeriod_period_floor (self : Int) (s : State) (taskId : Int)
    (p : Nat) (out : cfTaskInfo_t)
    (hlo : 0 ≤ taskId) (hhi : taskId < (s.taskCount : Int)) (hself : taskId ≠ self)
    (hp : p < 4294967296) :
    ∃ task s1 info,
      s.cfTasks[taskId.toNat]? = some task ∧
      updateTaskExecutionPeriod self s taskId p = some s1 ∧
      s1 = { s with
             cfTasks := s.cfTasks.set taskId.toNat ({ task with desiredPeriod := max 100 p }) } ∧
      getTaskInfo s1 taskId out = some info ∧
      info.desiredPeriod = max 100 p ∧
      (p < 100 → info.desiredPeriod = 100) := by
  obtain ⟨task, ht, hu⟩ := updateTask_valid self s taskId
    (fun task => { task with desiredPeriod := max 100 (wrap32 p) }) hlo hhi hself
  have hw : wrap32 p = p := Nat.mod_eq_of_lt hp
  rw [hw] at hu
  have hi := valid_index s taskId hlo hhi
  have hget : ∀ (l : List cfTask_t) (t : cfTask_t), l.length = s.cfTasks.length →
      ({ s with cfTasks := l.set taskId.toNat t } : State).cfTasks[taskId.toNat]? = some t := by
    intro l t hl
    simp [List.getElem?_set, hi, hl]
  refine ⟨task, _, _, ht, ?_, rfl, getTaskInfo_valid _ taskId out _ hlo (hget _ _ rfl), rfl, ?_⟩
  · unfold updateTaskExecutionPeriod
    rw [if_pos (taskIdAccepted_of_valid self s taskId hlo hhi), hw]
    exact hu
  · intro h
    show max 100 p = 100
    omega

/-- C5 at a concrete input: period 50 requested for task 2 of the example
table reads back as 100. -/
theorem updateTaskExecutionPeriod_period_floor_witness :
    (updateTaskExecutionPeriod (-1) (initialState exampleTable) 2 50).map
        (fun s1 => s1.cfTasks.map (fun task => task.desiredPeriod))
      = some [100000, 1000, 100, 10000] ∧
    ∃ task s1 info,
      (initialState exampleTable).cfTasks[(2 : Int).toNat]? = some task ∧
      updateTaskExecutionPeriod (-1) (initialState exampleTable) 2 50 = some s1 ∧
      s1 = { initialState exampleTable with
             cfTasks := (initialState exampleTable).cfTasks.set (2 : Int).toNat
               ({ task with desiredPeriod := max 100 50 }) } ∧
      getTaskInfo s1 2 exampleInfo = some info ∧
      info.desiredPeriod = max 100 50 ∧
      (50 < 100 → info.desiredPeriod = 100) :=
  ⟨by decide,
    updateTaskExecutionPeriod_period_floor (-1) (initialState exampleTable) 2 50 exampleInfo
      (by decide) (by decide) (by decide) (by decide)⟩

/-- C6: for a table index `taskId` (which is not the `TASK_SELF` sentinel) and
a flag, `setTaskEnabled` returns the state in which that task has
`isEnabled = (flag ∧ taskFunc present)` and nothing else differs: every other
field of the task, every other task and every scheduler variable is as before,
and a task without a `taskFunc` ends disabled. -/
theorem setTaskEnabled_effect (self : Int) (s : State) (taskId : Int) (enabled : Bool)
    (hlo : 0 ≤ taskId) (hhi : taskId < (s.taskCount : Int)) (hself : taskId ≠ self) :
    ∃ task s1,
      s.cfTasks[taskId.toNat]? = some task ∧
      setTaskEnabled self s taskId enabled = some s1 ∧
      s1 = { s with
             cfTasks := s.cfTasks.set taskId.toNat
               ({ task with isEnabled := enabled && task.taskFunc.isSome }) } ∧
      (task.taskFunc = none →
        (s1.cfTasks[taskId.toNat]?).map (fun t => t.isEnabled) = some false) ∧
      (∀ j, j ≠ taskId.toNat → s1.cfTasks[j]? = s.cfTasks[j]?) := by
  obtain ⟨task, ht, hu⟩ := updateTask_valid self s taskId
    (fun task => { task with isEnabled := enabled && task.taskFunc.isSome }) hlo hhi hself
  have hi := valid_index s taskId hlo hhi
  refine ⟨task, _, ht, ?_, rfl, ?_, ?_⟩
  · unfold setTaskEnabled
    rw [if_pos (taskIdAccepted_of_valid self s taskId hlo hhi)]
    exact hu
  · intro hnone
    simp [List.getElem?_set, hi, hnone]
  · intro j hj
    simp [List.getElem?_set, Ne.symm hj]

/-- C6 at concrete inputs, following `EnableDisableTest`: enabling task 0
leaves task 1 disabled, disabling task 0 leaves task 1 enabled, and a task
without a `taskFunc` stays disabled when enabled. -/
theorem setTaskEnabled_effect_witness :
    (setTaskEnabled (-1) (initialState exampleTable) 0 true).map
        (fun s1 => s1.cfTasks.map (fun task => task.isEnabled))
      = some [true, false, false, false] ∧
    (setTaskEnabled (-1)
        { initialState exampleTable with
          cfTasks := [{ exampleTask "SYSTEM" 5 100000 20 with isEnabled := true },
                      { exampleTask "GYROPID" 6 1000 900 with isEnabled := true }] } 0 false).map
        (fun s1 => s1.cfTasks.map (fun task => task.isEnabled))
      = some [false, true] ∧
    (setTaskEnabled (-1)
        { initialState exampleTable with
          cfTasks := [{ exampleTask "NOFUNC" 1 1000 0 with taskFunc := none }] } 0 true).map
        (fun s1 => s1.cfTasks.map (fun task => task.isEnabled))
      = some [false] ∧
    ∃ task s1,
      (initialState exampleTable).cfTasks[(0 : Int).toNat]? = some task ∧
      setTaskEnabled (-1) (initialState exampleTable) 0 true = some s1 ∧
      s1 = { initialState exampleTable with
             cfTasks := (initialState exampleTable).cfTasks.set (0 : Int).toNat
               ({ task with isEnabled := true && task.taskFunc.isSome }) } ∧
      (task.taskFunc = none →
        (s1.cfTasks[(0 : Int).toNat]?).map (fun t => t.isEnabled) = some false) ∧
      (∀ j, j ≠ (0 : Int).toNat →
        s1.cfTasks[j]? = (initialState exampleTable).cfTasks[j]?) :=
  ⟨by decide, by decide, by decide,
    setTaskEnabled_effect (-1) (initialState exampleTable) 0 true
      (by decide) (by decide) (by decide)⟩

/-- C7: for an id outside `[0, taskCount)` that is not `TASK_SELF`, and for
`TASK_SELF` (itself outside the table) when no task is executing,
`setTaskEnabled` and `updateTaskExecutionPeriod` return the state unchanged and
`getTaskDeltaTime` returns 0. -/
theorem invalid_ids_are_noops (self : Int) (s : State) (taskId : Int) (enabled : Bool)
    (p : Nat)
    (hout : ¬ (0 ≤ taskId ∧ taskId < (s.taskCount : Int)))
    (hself : taskId = self → s.currentTask = none) :
    setTaskEnabled self s taskId enabled = some s ∧
      updateTaskExecutionPeriod self s taskId p = some s ∧
      getTaskDeltaTime self s taskId = some 0 := by
  have h := taskIdAccepted_of_invalid self s taskId hout hself
  refine ⟨?_, ?_, ?_⟩
  · unfold setTaskEnabled; rw [h]; rfl
  · unfold updateTaskExecutionPeriod; rw [h]; rfl
  · unfold getTaskDeltaTime; rw [h]; rfl

/-- C7 at the inputs of `EnableDisableTest`: ids `9999` and `-1` (here the
`TASK_SELF` sentinel, with no task executing) leave the state as it is. -/
theorem invalid_ids_are_noops_witness :
    (¬ (0 ≤ (9999 : Int) ∧ (9999 : Int) < (exampleEnabledState.taskCount : Int))) ∧
      ((9999 : Int) = -1 → exampleEnabledState.currentTask = none) ∧
      (setTaskEnabled (-1) exampleEnabledState 9999 false = some exampleEnabledState ∧
        updateTaskExecutionPeriod (-1) exampleEnabledState 9999 50 = some exampleEnabledState ∧
        getTaskDeltaTime (-1) exampleEnabledState 9999 = some 0) ∧
      (setTaskEnabled (-1) exampleEnabledState (-1) false = some exampleEnabledState ∧
        updateTaskExecutionPeriod (-1) exampleEnabledState (-1) 50 = some exampleEnabledState ∧
        getTaskDeltaTime (-1) exampleEnabledState (-1) = some 0) :=
  ⟨by decide, by decide,
    invalid_ids_are_noops (-1) exampleEnabledState 9999 false 50 (by decide) (by decide),
    invalid_ids_are_noops (-1) exampleEnabledState (-1) false 50 (by decide) (by decide)⟩

/-- C8: `getTaskInfo` has no id check. At the ids `9999`, `4` (= `taskCount`)
and `-1` it reads outside the four-entry table (result `none`), where the
claim expects the output record back unchanged; the sibling `setTaskEnabled`
ignores the same ids. For the valid id `2` it copies the eight fields. -/
theorem getTaskInfo_unchecked_index :
    getTaskInfo (initialState exampleTable) 9999 exampleInfo = none ∧
      getTaskInfo (initialState exampleTable) 4 exampleInfo = none ∧
      getTaskInfo (initialState exampleTable) (-1) exampleInfo = none ∧
      setTaskEnabled (-1) (initialState exampleTable) 9999 false
        = some (initialState exampleTable) ∧
      getTaskInfo (initialState exampleTable) 2 exampleInfo
        = some { taskName := "ACCEL"
                 isEnabled := false
                 desiredPeriod := 1000
                 priority := 3
                 maxExecutionTime := 0
                 totalExecutionTime := 0
                 averageExecutionTime := 50
                 latestDeltaTime := 0 } := by
  refine ⟨?_, ?_, ?_, ?_, ?_⟩
  · exact getTaskInfo_invalid _ _ _ (by decide)
  · exact getTaskInfo_invalid _ _ _ (by decide)
  · exact getTaskInfo_invalid _ _ _ (by decide)
  · decide
  · decide

/-- C9: `schedulerInit` keeps the table length, and afterwards every task of the
table has `isEnabled = false`, `isWaitingToBeRan = false` and
`lastIdealExecutionTime = 0`, whatever the prior state. -/
theorem schedulerInit_clears_every_task (s : State) :
    (schedulerInit s).cfTasks.length = s.cfTasks.length ∧
      ∀ task ∈ (schedulerInit s).cfTasks,
        task.isEnabled = false ∧ task.isWaitingToBeRan = false ∧
          task.lastIdealExecutionTime = 0 := by
  constructor
  · simp [schedulerInit]
  · intro task h
    simp only [schedulerInit, List.mem_map] at h
    obtain ⟨t0, _, rfl⟩ := h
    exact ⟨rfl, rfl, rfl⟩

/-! ## The pass: passes without enabled tasks, and the guard -/

theorem selectLoop_all_disabled {W : Type} (env : Env W) (fuel currentTime : Nat)
    (outside : Bool) (tasks : List cfTask_t) :
    ∀ (ii : Nat) (sel : Selection W), (∀ task ∈ tasks, task.isEnabled = false) →
      selectLoop env fuel currentTime outside ii tasks sel = some (tasks, sel) := by
  induction tasks with
  | nil => intro ii sel _; rfl
  | cons head rest ih =>
    intro ii sel h
    have hh : head.isEnabled = false := h head (List.mem_cons_self _ _)
    have hr : ∀ task ∈ rest, task.isEnabled = false :=
      fun task ht => h task (List.mem_cons_of_mem _ ht)
    unfold selectLoop
    simp [hh, ih (ii + 1) sel hr]

theorem schedulerExecute_all_disabled {W : Type} (env : Env W) (fuel : Nat) (m : Machine W)
    (h : ∀ task ∈ m.sched.cfTasks, task.isEnabled = false) :
    schedulerExecute env fuel m =
      some { sched :=
               { m.sched with
                 currentTime := wrap32 (env.micros m.world)
                 currentTask := none
                 currentSchedulerExecutionPasses :=
                   wrap32 (m.sched.currentSchedulerExecutionPasses + 1) }
             world := m.world
             calls := m.calls } := by
  unfold schedulerExecute schedulerSelect
  simp only [selectLoop_all_disabled env fuel _ _ m.sched.cfTasks 0 _ h, Option.map_some']
  rfl

/-- What `schedulerDispatch` returns: without a selected task the accounted
state; with the task at index `i` selected, the state the task function
returned, finished by lines 248-254. -/
theorem schedulerDispatch_eq_some {W : Type} (env : Env W) (s : State) (sel : Selection W)
    (m1 : Machine W) (h : schedulerDispatch env s sel = some m1) :
    (sel.selectedTask = none ∧
        m1 = { sched := accountPass s none, world := sel.world, calls := sel.calls }) ∨
      ∃ i task f done,
        sel.selectedTask = some i ∧ s.cfTasks[i]? = some task ∧ task.taskFunc = some f ∧
        (env.taskFunc f (beginTask (accountPass s (some i)) i task, sel.world)).1.cfTasks[i]?
          = some done ∧
        m1 = { sched :=
                 finishTask
                   (env.taskFunc f (beginTask (accountPass s (some i)) i task, sel.world)).1 i done
                   (sub32
                     (env.micros
                       (env.taskFunc f (beginTask (accountPass s (some i)) i task, sel.world)).2)
                     (wrap32 (env.micros sel.world)))
               world := (env.taskFunc f (beginTask (accountPass s (some i)) i task, sel.world)).2
               calls := sel.calls ++ [Call.task i] } := by
  unfold schedulerDispatch at h
  simp only at h
  split at h
  · rename_i hnone
    left
    rw [hnone] at h
    exact ⟨hnone, (Option.some.inj h).symm⟩
  · rename_i i hi
    rw [hi] at h
    split at h
    · exact absurd h (by simp)
    · rename_i task htask
      split at h
      · exact absurd h (by simp)
      · rename_i f hf
        split at h
        · exact absurd h (by simp)
        · rename_i done hdone
          right
          exact ⟨i, task, f, done, hi, htask, hf, hdone, (Option.some.inj h).symm⟩

theorem schedulerSelect_eq_some {W : Type} (env : Env W) (fuel : Nat) (m : Machine W)
    (s : State) (sel : Selection W) (h : schedulerSelect env fuel m = some (s, sel)) :
    ∃ tasks,
      selectLoop env fuel (wrap32 (env.micros m.world))
          (decide (timeToNextRealtimeTask env.TASK_PRIORITY_REALTIME
            (wrap32 (env.micros m.world)) m.sched.cfTasks UINT32_MAX
              > m.sched.realtimeGuardInterval))
          0 m.sched.cfTasks
          { selectedTask := none, selectedTaskStarvationPriority := 0,
            world := m.world, calls := m.calls }
        = some (tasks, sel) ∧
      s = { m.sched with currentTime := wrap32 (env.micros m.world), cfTasks := tasks } := by
  unfold schedulerSelect at h
  simp only [Option.map_eq_some'] at h
  obtain ⟨r, hl, hr⟩ := h
  obtain ⟨tasks, sel1⟩ := r
  simp only [Prod.mk.injEq] at hr
  obtain ⟨hs, hsel⟩ := hr
  subst hsel
  exact ⟨tasks, hl, hs.symm⟩

theorem schedulerSelect_guard {W : Type} (env : Env W) (fuel : Nat) (m : Machine W)
    (s : State) (sel : Selection W) (h : schedulerSelect env fuel m = some (s, sel)) :
    s.realtimeGuardInterval = m.sched.realtimeGuardInterval := by
  obtain ⟨tasks, _, hs⟩ := schedulerSelect_eq_some env fuel m s sel h
  rw [hs]

theorem schedulerExecute_guard {W : Type} (env : Env W) (fuel : Nat) (m m1 : Machine W)
    (h : schedulerExecute env fuel m = some m1) :
    m1.sched.realtimeGuardInterval = m.sched.realtimeGuardInterval ∨
      ∃ f x, x.1.realtimeGuardInterval = m.sched.realtimeGuardInterval ∧
        m1.sched.realtimeGuardInterval = (env.taskFunc f x).1.realtimeGuardInterval := by
  unfold schedulerExecute at h
  split at h
  · exact absurd h (by simp)
  · rename_i s sel hsel
    have hs := schedulerSelect_guard env fuel m s sel hsel
    rcases schedulerDispatch_eq_some env s sel m1 h with ⟨_, hm⟩ | ⟨i, task, f, done, _, _, _, _, hm⟩
    · left
      rw [hm, ← hs]
      rfl
    · right
      refine ⟨f, (beginTask (accountPass s (some i)) i task, sel.world), ?_, ?_⟩
      · rw [← hs]; rfl
      · rw [hm]; rfl

theorem updateTask_guard (s s1 : State) (ptr : Option Nat) (f : cfTask_t → cfTask_t)
    (h : s.updateTask ptr f = some s1) :
    s1.realtimeGuardInterval = s.realtimeGuardInterval := by
  unfold State.updateTask at h
  split at h
  · exact absurd h (by simp)
  · split at h
    · exact absurd h (by simp)
    · rw [← Option.some.inj h]

/-- C3: the guard is within `[10 + 25, 300 + 25] = [35, 325]` in the initial
state and after every `taskSystem` invocation, for every table and all
averages; `schedulerInit`, `setTaskEnabled` and `updateTaskExecutionPeriod` do
not change it, and `schedulerExecute` itself never writes it: a pass leaves the
guard as it was when the task functions leave it, and keeps it within the
bounds when the task functions do (as `taskSystem` does). -/
theorem guard_bounds_invariant :
    (∀ s : State, GuardInBounds s ↔
        35 ≤ s.realtimeGuardInterval ∧ s.realtimeGuardInterval ≤ 325) ∧
      (∀ tasks : List cfTask_t, GuardInBounds (initialState tasks)) ∧
      (∀ (realtime : Nat) (s : State), GuardInBounds (taskSystem realtime s)) ∧
      (∀ s : State, (schedulerInit s).realtimeGuardInterval = s.realtimeGuardInterval) ∧
      (∀ (self : Int) (s s1 : State) (taskId : Int) (enabled : Bool),
        setTaskEnabled self s taskId enabled = some s1 →
          s1.realtimeGuardInterval = s.realtimeGuardInterval) ∧
      (∀ (self : Int) (s s1 : State) (taskId : Int) (p : Nat),
        updateTaskExecutionPeriod self s taskId p = some s1 →
          s1.realtimeGuardInterval = s.realtimeGuardInterval) ∧
      (∀ (W : Type) (env : Env W) (fuel : Nat) (m m1 : Machine W),
        schedulerExecute env fuel m = some m1 →
        (∀ f x, (env.taskFunc f x).1.realtimeGuardInterval = x.1.realtimeGuardInterval) →
          m1.sched.realtimeGuardInterval = m.sched.realtimeGuardInterval) ∧
      (∀ (W : Type) (env : Env W) (fuel : Nat) (m m1 : Machine W),
        schedulerExecute env fuel m = some m1 →
        (∀ f x, GuardInBounds x.1 → GuardInBounds (env.taskFunc f x).1) →
          GuardInBounds m.sched → GuardInBounds m1.sched) := by
  refine ⟨?_, ?_, ?_, ?_, ?_, ?_, ?_, ?_⟩
  · intro s
    simp [GuardInBounds, REALTIME_GUARD_INTERVAL_MIN, REALTIME_GUARD_INTERVAL_MAX,
      REALTIME_GUARD_INTERVAL_MARGIN]
  · intro tasks
    simp [GuardInBounds, initialState, REALTIME_GUARD_INTERVAL_MIN,
      REALTIME_GUARD_INTERVAL_MAX, REALTIME_GUARD_INTERVAL_MARGIN]
  · intro realtime s
    have hb := constrain_bounds (maxAverageOfNonRealtime realtime s.cfTasks) 10 300 (by omega)
    unfold GuardInBounds
    rw [taskSystem_guard]
    simp only [REALTIME_GUARD_INTERVAL_MIN, REALTIME_GUARD_INTERVAL_MAX,
      REALTIME_GUARD_INTERVAL_MARGIN]
    omega
  · intro s
    rfl
  · intro self s s1 taskId enabled h
    unfold setTaskEnabled at h
    split at h
    · exact updateTask_guard s s1 _ _ h
    · rw [← Option.some.inj h]
  · intro self s s1 taskId p h
    unfold updateTaskExecutionPeriod at h
    split at h
    · exact updateTask_guard s s1 _ _ h
    · rw [← Option.some.inj h]
  · intro W env fuel m m1 h hf
    rcases schedulerExecute_guard env fuel m m1 h with h1 | ⟨f, x, hx, h1⟩
    · exact h1
    · rw [h1, hf, hx]
  · intro W env fuel m m1 h hf hm
    rcases schedulerExecute_guard env fuel m m1 h with h1 | ⟨f, x, hx, h1⟩
    · unfold GuardInBounds at hm ⊢
      rw [h1]
      exact hm
    · have hx2 : GuardInBounds x.1 := by
        unfold GuardInBounds at hm ⊢
        rw [hx]
        exact hm
      have := hf f x hx2
      unfold GuardInBounds at this ⊢
      rw [h1]
      exact this

/-- C10: when every task is disabled, any number of passes (with the harness
changing the clock between them) succeeds without fuel, makes no call through
a function pointer, leaves the descriptors, the guard, the load and the
passes-with-work counter unchanged, leaves the outside world exactly as the
harness set it, and adds the number of passes to the pass counter. -/
theorem empty_schedule_no_dispatch {W : Type} (env : Env W) (fuel : Nat)
    (advances : List (W → W)) (m : Machine W)
    (h : ∀ task ∈ m.sched.cfTasks, task.isEnabled = false)
    (hp : m.sched.currentSchedulerExecutionPasses < 4294967296) :
    ∃ m1, runPasses env fuel advances m = some m1 ∧
      m1.calls = m.calls ∧
      m1.sched.cfTasks = m.sched.cfTasks ∧
      m1.world = advances.foldl (fun world advance => advance world) m.world ∧
      m1.sched.currentSchedulerExecutionPasses
        = wrap32 (m.sched.currentSchedulerExecutionPasses + advances.length) ∧
      m1.sched.currentSchedulerExecutionPassesWithWork
        = m.sched.currentSchedulerExecutionPassesWithWork ∧
      m1.sched.realtimeGuardInterval = m.sched.realtimeGuardInterval ∧
      m1.sched.averageSystemLoadPercent = m.sched.averageSystemLoadPercent := by
  induction advances generalizing m with
  | nil =>
    refine ⟨m, rfl, rfl, rfl, rfl, ?_, rfl, rfl, rfl⟩
    simp only [List.length_nil, Nat.add_zero, wrap32]
    omega
  | cons advance rest ih =>
    obtain ⟨m2, hstep, hc2, ht2, hw2, hpass2, hwork2, hg2, hl2⟩ :
        ∃ m2, schedulerExecute env fuel { m with world := advance m.world } = some m2 ∧
          m2.calls = m.calls ∧ m2.sched.cfTasks = m.sched.cfTasks ∧
          m2.world = advance m.world ∧
          m2.sched.currentSchedulerExecutionPasses
            = wrap32 (m.sched.currentSchedulerExecutionPasses + 1) ∧
          m2.sched.currentSchedulerExecutionPassesWithWork
            = m.sched.currentSchedulerExecutionPassesWithWork ∧
          m2.sched.realtimeGuardInterval = m.sched.realtimeGuardInterval ∧
          m2.sched.averageSystemLoadPercent = m.sched.averageSystemLoadPercent :=
      ⟨_, schedulerExecute_all_disabled env fuel { m with world := advance m.world } h,
        rfl, rfl, rfl, rfl, rfl, rfl, rfl⟩
    have h2 : ∀ task ∈ m2.sched.cfTasks, task.isEnabled = false := by
      rw [ht2]; exact h
    have hp2 : m2.sched.currentSchedulerExecutionPasses < 4294967296 := by
      rw [hpass2]; exact Nat.mod_lt _ (by omega)
    obtain ⟨m1, hrun, hc, ht, hw, hpass, hwork, hg, hl⟩ := ih m2 h2 hp2
    refine ⟨m1, ?_, hc.trans hc2, ht.trans ht2, ?_, ?_, hwork.trans hwork2, hg.trans hg2,
      hl.trans hl2⟩
    · show (match schedulerExecute env fuel { m with world := advance m.world } with
        | none => none
        | some m3 => runPasses env fuel rest m3) = some m1
      rw [hstep]
      exact hrun
    · rw [hw, hw2]
      rfl
    · rw [hpass, hpass2]
      simp only [List.length_cons, wrap32]
      omega

/-- C10 on `DriveEmptySchedule`: after `schedulerInit`, passes at the simulated
times 0, 30000 and (three times) 3030000 leave the clock at 3030000 and make
no call. -/
theorem empty_schedule_no_dispatch_witness :
    (∀ task ∈ (schedulerInit (initialState exampleTable)).cfTasks, task.isEnabled = false) ∧
      (schedulerInit (initialState exampleTable)).currentSchedulerExecutionPasses
        < 4294967296 ∧
      ∃ m1,
        runPasses exampleEnv 0
            [fun t => t, fun t => t + 30000, fun t => t + 3000000, fun t => t, fun t => t]
            { sched := schedulerInit (initialState exampleTable), world := 0, calls := [] }
          = some m1 ∧
        m1.calls = [] ∧
        m1.sched.cfTasks = (schedulerInit (initialState exampleTable)).cfTasks ∧
        m1.world = 3030000 ∧
        m1.sched.currentSchedulerExecutionPasses = 5 ∧
        m1.sched.currentSchedulerExecutionPassesWithWork = 0 := by
  have hd : ∀ task ∈ (schedulerInit (initialState exampleTable)).cfTasks,
      task.isEnabled = false := by decide
  obtain ⟨m1, hrun, hc, ht, hw, hpass, hwork, _, _⟩ :=
    empty_schedule_no_dispatch exampleEnv 0
      [fun t => t, fun t => t + 30000, fun t => t + 3000000, fun t => t, fun t => t]
      { sched := schedulerInit (initialState exampleTable), world := 0, calls := [] }
      hd (by decide)
  exact ⟨hd, by decide, m1, hrun, hc, ht, hw, hpass, hwork⟩

/-! ## The selection loop -/

/-- The readiness update changes at most `lastIdealExecutionTime` and
`isWaitingToBeRan` of the descriptor. -/
theorem updateReadiness_eq_some {W : Type} (env : Env W) (fuel currentTime ii : Nat)
    (task task1 : cfTask_t) (world world1 : W) (calls calls1 : List Call)
    (h : updateReadiness env fuel currentTime ii task world calls = some (task1, world1, calls1)) :
    ∃ ideal waiting,
      task1 = { task with lastIdealExecutionTime := ideal, isWaitingToBeRan := waiting } := by
  unfold updateReadiness at h
  split at h
  · split at h
    · simp only at h
      split at h
      · simp only [Option.some.injEq, Prod.mk.injEq] at h
        exact ⟨_, _, h.1.symm⟩
      · simp only [Option.some.injEq, Prod.mk.injEq] at h
        exact ⟨task.lastIdealExecutionTime, task.isWaitingToBeRan, h.1.symm⟩
    · split at h
      · split at h
        · exact absurd h (by simp)
        · simp only [Option.some.injEq, Prod.mk.injEq] at h
          exact ⟨_, _, h.1.symm⟩
      · simp only [Option.some.injEq, Prod.mk.injEq] at h
        exact ⟨task.lastIdealExecutionTime, task.isWaitingToBeRan, h.1.symm⟩
  · simp only [Option.some.injEq, Prod.mk.injEq] at h
    exact ⟨task.lastIdealExecutionTime, task.isWaitingToBeRan, h.1.symm⟩

/-- The selection step either keeps the selection or takes the task, and it
takes it only when the task is waiting, eligible, and its score exceeds the
stored best score. -/
theorem considerTask_eq_some {W : Type} (realtime currentTime : Nat) (outside : Bool)
    (ii : Nat) (task : cfTask_t) (sel sel1 : Selection W)
    (h : considerTask realtime currentTime outside ii task sel = some sel1) :
    sel1 = sel ∨
      ∃ score, task.isWaitingToBeRan = true ∧
        starvationPriority currentTime task = some score ∧
        score > sel.selectedTaskStarvationPriority ∧
        (outside = true ∨ task.priority = realtime) ∧
        sel1 = { sel with selectedTaskStarvationPriority := wrap16 score
                          selectedTask := some ii } := by
  unfold considerTask at h
  split at h
  · rename_i hw
    split at h
    · exact absurd h (by simp)
    · rename_i score hs
      split at h
      · rename_i hgt
        simp only at h
        split at h
        · rename_i hel
          right
          refine ⟨score, hw, hs, hgt, ?_, (Option.some.inj h).symm⟩
          simpa using hel
        · left; exact (Option.some.inj h).symm
      · left; exact (Option.some.inj h).symm
  · left; exact (Option.some.inj h).symm

/-- The task the loop ends with is the one it started with or a task of the
scanned part of the table that is enabled and eligible. -/
theorem selectLoop_selected {W : Type} (env : Env W) (fuel currentTime : Nat)
    (outside : Bool) (tasks : List cfTask_t) :
    ∀ (ii : Nat) (sel : Selection W) (r : List cfTask_t × Selection W),
      selectLoop env fuel currentTime outside ii tasks sel = some r →
      r.2.selectedTask = sel.selectedTask ∨
        ∃ j task, r.2.selectedTask = some (ii + j) ∧ tasks[j]? = some task ∧
          task.isEnabled = true ∧
          (outside = true ∨ task.priority = env.TASK_PRIORITY_REALTIME) := by
  induction tasks with
  | nil =>
    intro ii sel r h
    left
    unfold selectLoop at h
    rw [← Option.some.inj h]
  | cons head rest ih =>
    intro ii sel r h
    unfold selectLoop at h
    split at h
    · simp only [Option.map_eq_some'] at h
      obtain ⟨r0, hr0, hr⟩ := h
      rcases ih (ii + 1) sel r0 hr0 with h1 | ⟨j, task, h1, h2, h3, h4⟩
      · left; rw [← hr]; exact h1
      · right
        refine ⟨j + 1, task, ?_, by simpa using h2, h3, h4⟩
        rw [← hr, h1]
        congr 1
        omega
    · rename_i hen
      split at h
      · exact absurd h (by simp)
      · rename_i task1 world1 calls1 hupd
        obtain ⟨ideal, waiting, ht1⟩ := updateReadiness_eq_some env fuel currentTime ii head task1
          sel.world world1 sel.calls calls1 hupd
        split at h
        · exact absurd h (by simp)
        · rename_i sel1 hcons
          simp only [Option.map_eq_some'] at h
          obtain ⟨r0, hr0, hr⟩ := h
          have hhead : head.isEnabled = true := by simpa using hen
          rcases ih (ii + 1) sel1 r0 hr0 with h1 | ⟨j, task, h1, h2, h3, h4⟩
          · rcases considerTask_eq_some _ _ _ _ _ _ _ hcons with hs | ⟨score, _, _, _, hel, hs⟩
            · left; rw [← hr]; simp only; rw [h1, hs]
            · right
              refine ⟨0, head, ?_, by simp, hhead, ?_⟩
              · rw [← hr]; simp only; rw [h1, hs]; rfl
              · rw [ht1] at hel; exact hel
          · right
            refine ⟨j + 1, task, ?_, by simpa using h2, h3, h4⟩
            rw [← hr, h1]
            congr 1
            omega

/-- The horizon scan never exceeds its starting value. -/
theorem timeToNextRealtimeTask_le (realtime currentTime : Nat) (tasks : List cfTask_t) :
    ∀ acc, timeToNextRealtimeTask realtime currentTime tasks acc ≤ acc := by
  induction tasks with
  | nil => intro acc; exact le_refl _
  | cons head rest ih =>
    intro acc
    unfold timeToNextRealtimeTask
    split
    · simp only
      split
      · exact le_trans (ih 0) (Nat.zero_le _)
      · exact le_trans (ih _) (min_le_left _ _)
    · exact ih acc

/-- When the horizon exceeds `g`, every enabled task of priority at least
realtime has its next execution strictly in the future (signed 32-bit
difference) and more than `g` microseconds away. -/
theorem timeToNextRealtimeTask_gt (realtime currentTime g : Nat) (tasks : List cfTask_t) :
    ∀ acc, timeToNextRealtimeTask realtime currentTime tasks acc > g →
      ∀ rt ∈ tasks, rt.isEnabled = true → rt.priority ≥ realtime →
        int32NonNeg (sub32 currentTime (wrap32 (rt.lastExecutedAt + rt.desiredPeriod))) = false ∧
          sub32 (wrap32 (rt.lastExecutedAt + rt.desiredPeriod)) currentTime > g := by
  induction tasks with
  | nil => intro acc _ rt hrt; simp at hrt
  | cons head rest ih =>
    intro acc h rt hrt hen hprio
    unfold timeToNextRealtimeTask at h
    rcases List.mem_cons.mp hrt with heq | hmem
    · subst heq
      have hc : (rt.isEnabled && decide (rt.priority ≥ realtime)) = true := by
        simp [hen, hprio]
      rw [if_pos hc] at h
      simp only at h
      split at h
      · have := timeToNextRealtimeTask_le realtime currentTime rest 0
        omega
      · rename_i hdue
        refine ⟨by simpa using hdue, ?_⟩
        have h1 := timeToNextRealtimeTask_le realtime currentTime rest
          (min acc (sub32 (wrap32 (rt.lastExecutedAt + rt.desiredPeriod)) currentTime))
        have h2 := min_le_right acc
          (sub32 (wrap32 (rt.lastExecutedAt + rt.desiredPeriod)) currentTime)
        omega
    · split at h
      · simp only at h
        split at h
        · exact ih _ h rt hmem hen hprio
        · exact ih _ h rt hmem hen hprio
      · exact ih _ h rt hmem hen hprio

/-- The selection step, case by case: either the selection is kept, and then
the task, if waiting and eligible, has a score not above the stored best; or
the task is waiting and eligible with a score above the stored best, and it is
taken with its score stored in 16 bits. -/
theorem considerTask_cases {W : Type} (realtime currentTime : Nat) (outside : Bool)
    (ii : Nat) (task : cfTask_t) (sel sel1 : Selection W)
    (h : considerTask realtime currentTime outside ii task sel = some sel1) :
    (sel1 = sel ∧
        ∀ score, task.isWaitingToBeRan = true →
          (outside = true ∨ task.priority = realtime) →
          starvationPriority currentTime task = some score →
          score ≤ sel.selectedTaskStarvationPriority) ∨
      ∃ score, task.isWaitingToBeRan = true ∧
        starvationPriority currentTime task = some score ∧
        score > sel.selectedTaskStarvationPriority ∧
        (outside = true ∨ task.priority = realtime) ∧
        sel1 = { sel with selectedTaskStarvationPriority := wrap16 score
                          selectedTask := some ii } := by
  unfold considerTask at h
  split at h
  · rename_i hw
    split at h
    · exact absurd h (by simp)
    · rename_i score hs
      split at h
      · rename_i hgt
        simp only at h
        split at h
        · rename_i hel
          right
          refine ⟨score, hw, hs, hgt, ?_, (Option.some.inj h).symm⟩
          simpa using hel
        · rename_i hel
          left
          refine ⟨(Option.some.inj h).symm, ?_⟩
          intro sc _ helig _
          exact absurd (by simpa using helig) hel
      · rename_i hle
        left
        refine ⟨(Option.some.inj h).symm, ?_⟩
        intro sc _ _ hsc
        rw [hs] at hsc
        have := Option.some.inj hsc
        omega
  · rename_i hw
    left
    refine ⟨(Option.some.inj h).symm, ?_⟩
    intro sc hw2 _ _
    exact absurd hw2 hw

/-- Summary of the loop over a part of the table, when the scores of the waiting
enabled tasks fit in 16 bits: the stored best score does not decrease, it
bounds the score of every candidate of the part, and either the selection is
the one the loop started with, or it is a candidate of the part whose score is
the stored best, exceeds the initial best and strictly exceeds the score of
every candidate before it in the part. -/
theorem selectLoop_summary {W : Type} (env : Env W) (fuel currentTime : Nat)
    (outside : Bool) (tasks : List cfTask_t) :
    ∀ (ii : Nat) (sel : Selection W) (out : List cfTask_t) (sel1 : Selection W),
      selectLoop env fuel currentTime outside ii tasks sel = some (out, sel1) →
      (∀ task ∈ out, task.isEnabled = true → task.isWaitingToBeRan = true →
        ∀ score, starvationPriority currentTime task = some score → score < 65536) →
      sel.selectedTaskStarvationPriority ≤ sel1.selectedTaskStarvationPriority ∧
      (∀ (j : Nat) (tj : cfTask_t) (sj : Nat), out[j]? = some tj →
        IsCandidate env.TASK_PRIORITY_REALTIME outside tj →
        starvationPriority currentTime tj = some sj →
        sj ≤ sel1.selectedTaskStarvationPriority) ∧
      ((sel1.selectedTask = sel.selectedTask ∧
          sel1.selectedTaskStarvationPriority = sel.selectedTaskStarvationPriority) ∨
        ∃ (j : Nat) (tj : cfTask_t), sel1.selectedTask = some (ii + j) ∧ out[j]? = some tj ∧
          IsCandidate env.TASK_PRIORITY_REALTIME outside tj ∧
          starvationPriority currentTime tj = some sel1.selectedTaskStarvationPriority ∧
          sel.selectedTaskStarvationPriority < sel1.selectedTaskStarvationPriority ∧
          ∀ (k : Nat) (tk : cfTask_t) (sk : Nat), k < j → out[k]? = some tk →
            IsCandidate env.TASK_PRIORITY_REALTIME outside tk →
            starvationPriority currentTime tk = some sk →
            sk < sel1.selectedTaskStarvationPriority) := by
  induction tasks with
  | nil =>
    intro ii sel out sel1 h _
    unfold selectLoop at h
    simp only [Option.some.injEq, Prod.mk.injEq] at h
    obtain ⟨hout, hsel⟩ := h
    subst hout hsel
    refine ⟨le_refl _, ?_, Or.inl ⟨rfl, rfl⟩⟩
    intro j tj sj hj
    simp at hj
  | cons head rest ih =>
    intro ii sel out sel1 h hfit
    unfold selectLoop at h
    split at h
    · rename_i hdis
      have hhead : head.isEnabled = false := by simpa using hdis
      simp only [Option.map_eq_some', Prod.mk.injEq] at h
      obtain ⟨⟨out0, sel0⟩, hr0, hout, hsel⟩ := h
      simp only at hout hsel
      subst hout hsel
      have hfit0 : ∀ task ∈ out0, task.isEnabled = true → task.isWaitingToBeRan = true →
          ∀ score, starvationPriority currentTime task = some score → score < 65536 :=
        fun task ht => hfit task (List.mem_cons_of_mem _ ht)
      obtain ⟨hmono, hbound, hsel⟩ := ih (ii + 1) sel out0 sel0 hr0 hfit0
      refine ⟨hmono, ?_, ?_⟩
      · intro j tj sj hj hc hs
        cases j with
        | zero =>
          simp only [List.getElem?_cons_zero, Option.some.injEq] at hj
          subst hj
          rw [hc.1] at hhead
          exact absurd hhead (by simp)
        | succ j =>
          simp only [List.getElem?_cons_succ] at hj
          exact hbound j tj sj hj hc hs
      · rcases hsel with h1 | ⟨j, tj, h1, h2, h3, h4, h5, h6⟩
        · left; exact h1
        · right
          refine ⟨j + 1, tj, ?_, by simpa using h2, h3, h4, h5, ?_⟩
          · rw [h1]; congr 1; omega
          · intro k tk sk hk hget hc hs
            cases k with
            | zero =>
              simp only [List.getElem?_cons_zero, Option.some.injEq] at hget
              subst hget
              rw [hc.1] at hhead
              exact absurd hhead (by simp)
            | succ k =>
              simp only [List.getElem?_cons_succ] at hget
              exact h6 k tk sk (by omega) hget hc hs
    · rename_i hen
      have hhead : head.isEnabled = true := by simpa using hen
      split at h
      · exact absurd h (by simp)
      · rename_i task1 world1 calls1 hupd
        split at h
        · exact absurd h (by simp)
        · rename_i selc hcons
          simp only [Option.map_eq_some', Prod.mk.injEq] at h
          obtain ⟨⟨out0, sel0⟩, hr0, hout, hsel⟩ := h
          simp only at hout hsel
          subst hout hsel
          have hfit0 : ∀ task ∈ out0, task.isEnabled = true →
              task.isWaitingToBeRan = true →
              ∀ score, starvationPriority currentTime task = some score → score < 65536 :=
            fun task ht => hfit task (List.mem_cons_of_mem _ ht)
          obtain ⟨hmono, hbound, hsel⟩ := ih (ii + 1) selc out0 sel0 hr0 hfit0
          have hen1 : task1.isEnabled = true := by
            obtain ⟨ideal, waiting, ht1⟩ := updateReadiness_eq_some env fuel currentTime ii
              head task1 sel.world world1 sel.calls calls1 hupd
            rw [ht1]
            exact hhead
          rcases considerTask_cases _ _ _ _ _ _ _ hcons with
            ⟨hkeep, hle⟩ | ⟨score, hw, hs, hgt, hel, htake⟩
          · -- the head is not taken
            have hp1 : selc.selectedTaskStarvationPriority
                = sel.selectedTaskStarvationPriority := by rw [hkeep]
            have hs1 : selc.selectedTask = sel.selectedTask := by rw [hkeep]
            rw [hp1] at hmono hsel
            rw [hs1] at hsel
            have hheadle : ∀ sj, IsCandidate env.TASK_PRIORITY_REALTIME outside task1 →
                starvationPriority currentTime task1 = some sj →
                sj ≤ sel.selectedTaskStarvationPriority :=
              fun sj hc hsj => hle sj hc.2.1 hc.2.2 hsj
            refine ⟨hmono, ?_, ?_⟩
            · intro j tj sj hj hc hsj
              cases j with
              | zero =>
                simp only [List.getElem?_cons_zero, Option.some.injEq] at hj
                subst hj
                exact le_trans (hheadle sj hc hsj) hmono
              | succ j =>
                simp only [List.getElem?_cons_succ] at hj
                exact hbound j tj sj hj hc hsj
            · rcases hsel with h1 | ⟨j, tj, h1, h2, h3, h4, h5, h6⟩
              · left; exact h1
              · right
                refine ⟨j + 1, tj, ?_, by simpa using h2, h3, h4, h5, ?_⟩
                · rw [h1]; congr 1; omega
                · intro k tk sk hk hget hc hsk
                  cases k with
                  | zero =>
                    simp only [List.getElem?_cons_zero, Option.some.injEq] at hget
                    subst hget
                    exact lt_of_le_of_lt (hheadle sk hc hsk) h5
                  | succ k =>
                    simp only [List.getElem?_cons_succ] at hget
                    exact h6 k tk sk (by omega) hget hc hsk
          · -- the head is taken
            have hsmall : score < 65536 :=
              hfit task1 (List.mem_cons_self _ _) hen1 hw score hs
            have hw16 : wrap16 score = score := Nat.mod_eq_of_lt hsmall
            have hp1 : selc.selectedTaskStarvationPriority = score := by
              rw [htake]; exact hw16
            have hs1 : selc.selectedTask = some ii := by rw [htake]
            have hgt1 : sel.selectedTaskStarvationPriority < score := hgt
            rw [hp1] at hmono hsel
            rw [hs1] at hsel
            have hcand : IsCandidate env.TASK_PRIORITY_REALTIME outside task1 :=
              ⟨hen1, hw, hel⟩
            refine ⟨by omega, ?_, ?_⟩
            · intro j tj sj hj hc hsj
              cases j with
              | zero =>
                simp only [List.getElem?_cons_zero, Option.some.injEq] at hj
                subst hj
                rw [hs] at hsj
                have := Option.some.inj hsj
                omega
              | succ j =>
                simp only [List.getElem?_cons_succ] at hj
                exact hbound j tj sj hj hc hsj
            · right
              rcases hsel with ⟨h1, h2⟩ | ⟨j, tj, h1, h2, h3, h4, h5, h6⟩
              · refine ⟨0, task1, by rw [h1]; rfl, by simp, hcand, by rw [h2]; exact hs,
                  by omega, ?_⟩
                intro k tk sk hk
                exact absurd hk (by omega)
              · refine ⟨j + 1, tj, ?_, by simpa using h2, h3, h4, by omega, ?_⟩
                · rw [h1]; congr 1; omega
                · intro k tk sk hk hget hc hsk
                  cases k with
                  | zero =>
                    simp only [List.getElem?_cons_zero, Option.some.injEq] at hget
                    subst hget
                    rw [hs] at hsk
                    have := Option.some.inj hsk
                    omega
                  | succ k =>
                    simp only [List.getElem?_cons_succ] at hget
                    exact h6 k tk sk (by omega) hget hc hsk

/-- When the scores of the waiting enabled tasks fit in 16 bits, the task a
pass selects is, after the readiness update, a candidate whose score is not
exceeded by any candidate and is strictly above the score of every candidate
at a lower table index. -/
theorem selected_is_first_maximum {W : Type} (env : Env W) (fuel : Nat) (m : Machine W)
    (s : State) (sel : Selection W) (i : Nat)
    (hsel : schedulerSelect env fuel m = some (s, sel))
    (hi : sel.selectedTask = some i)
    (hfit : ∀ task ∈ s.cfTasks, task.isEnabled = true → task.isWaitingToBeRan = true →
      ∀ score, starvationPriority (wrap32 (env.micros m.world)) task = some score →
        score < 65536) :
    ∃ ti si, s.cfTasks[i]? = some ti ∧
      IsCandidate env.TASK_PRIORITY_REALTIME
        (decide (timeToNextRealtimeTask env.TASK_PRIORITY_REALTIME
          (wrap32 (env.micros m.world)) m.sched.cfTasks UINT32_MAX
            > m.sched.realtimeGuardInterval)) ti ∧
      starvationPriority (wrap32 (env.micros m.world)) ti = some si ∧
      ∀ (j : Nat) (tj : cfTask_t) (sj : Nat), s.cfTasks[j]? = some tj →
        IsCandidate env.TASK_PRIORITY_REALTIME
          (decide (timeToNextRealtimeTask env.TASK_PRIORITY_REALTIME
            (wrap32 (env.micros m.world)) m.sched.cfTasks UINT32_MAX
              > m.sched.realtimeGuardInterval)) tj →
        starvationPriority (wrap32 (env.micros m.world)) tj = some sj →
        sj ≤ si ∧ (j < i → sj < si) := by
  obtain ⟨tasks, hloop, hs⟩ := schedulerSelect_eq_some env fuel m s sel hsel
  have htasks : s.cfTasks = tasks := by rw [hs]
  rw [htasks] at hfit ⊢
  obtain ⟨_, hbound, hcase⟩ :=
    selectLoop_summary env fuel _ _ m.sched.cfTasks 0 _ tasks sel hloop hfit
  rcases hcase with ⟨h1, _⟩ | ⟨j, tj, h1, h2, h3, h4, _, h6⟩
  · simp only at h1
    rw [hi] at h1
    exact absurd h1 (by simp)
  · rw [hi, Nat.zero_add] at h1
    have hij : i = j := Option.some.inj h1
    subst hij
    refine ⟨tj, _, h2, h3, h4, ?_⟩
    intro k tk sk hk hc hsk
    exact ⟨hbound k tk sk hk hc hsk, fun hlt => h6 k tk sk hlt hk hc hsk⟩

/-- A pass that succeeds is the selection followed by the dispatch; its call
record is the one of the selection loop, extended by the call of the task
function when a task was selected. -/
theorem schedulerExecute_eq_some {W : Type} (env : Env W) (fuel : Nat) (m m1 : Machine W)
    (h : schedulerExecute env fuel m = some m1) :
    ∃ s sel, schedulerSelect env fuel m = some (s, sel) ∧
      schedulerDispatch env s sel = some m1 ∧
      dispatchedTask env fuel m = some sel.selectedTask ∧
      (sel.selectedTask = none → m1.calls = sel.calls) ∧
      (∀ i, sel.selectedTask = some i → m1.calls = sel.calls ++ [Call.task i]) := by
  unfold schedulerExecute at h
  split at h
  · exact absurd h (by simp)
  · rename_i s sel hsel
    refine ⟨s, sel, hsel, h, ?_, ?_, ?_⟩
    · unfold dispatchedTask
      rw [hsel]
      rfl
    · intro hnone
      rcases schedulerDispatch_eq_some env s sel m1 h with ⟨_, hm⟩ | ⟨i, _, _, _, hi, _⟩
      · rw [hm]
      · rw [hnone] at hi
        exact absurd hi (by simp)
    · intro i hi
      rcases schedulerDispatch_eq_some env s sel m1 h with ⟨hn, _⟩ | ⟨k, _, _, _, hk, _, _, _, hm⟩
      · rw [hn] at hi
        exact absurd hi (by simp)
      · rw [hk] at hi
        have hik : k = i := Option.some.inj hi
        subst hik
        rw [hm]

/-! ## Claims on the selection -/

/-- C2: when the task dispatched by a pass has a priority other than realtime,
the pass is outside the realtime guard: the horizon computed by the first loop
exceeds `realtimeGuardInterval`, and every enabled task of priority realtime
(or above) has `nextExecuteAt = lastExecutedAt + desiredPeriod` strictly after
`currentTime` in the signed 32-bit sense and more than `realtimeGuardInterval`
microseconds away. Read contrapositively: inside the guard only realtime tasks
are dispatched. -/
theorem nonrealtime_dispatch_outside_guard {W : Type} (env : Env W) (fuel : Nat)
    (m : Machine W) (i : Nat) (task : cfTask_t)
    (hd : dispatchedTask env fuel m = some (some i))
    (ht : m.sched.cfTasks[i]? = some task)
    (hp : task.priority ≠ env.TASK_PRIORITY_REALTIME) :
    timeToNextRealtimeTask env.TASK_PRIORITY_REALTIME (wrap32 (env.micros m.world))
        m.sched.cfTasks UINT32_MAX > m.sched.realtimeGuardInterval ∧
      ∀ rt ∈ m.sched.cfTasks, rt.isEnabled = true →
        rt.priority ≥ env.TASK_PRIORITY_REALTIME →
        int32NonNeg (sub32 (wrap32 (env.micros m.world))
            (wrap32 (rt.lastExecutedAt + rt.desiredPeriod))) = false ∧
          sub32 (wrap32 (rt.lastExecutedAt + rt.desiredPeriod)) (wrap32 (env.micros m.world))
            > m.sched.realtimeGuardInterval := by
  unfold dispatchedTask at hd
  simp only [Option.map_eq_some'] at hd
  obtain ⟨⟨s, sel⟩, hsel, hi⟩ := hd
  simp only at hi
  obtain ⟨tasks, hloop, _⟩ := schedulerSelect_eq_some env fuel m s sel hsel
  have hout : timeToNextRealtimeTask env.TASK_PRIORITY_REALTIME (wrap32 (env.micros m.world))
      m.sched.cfTasks UINT32_MAX > m.sched.realtimeGuardInterval := by
    rcases selectLoop_selected env fuel _ _ m.sched.cfTasks 0 _ _ hloop with
      h1 | ⟨j, task1, h1, h2, _, h4⟩
    · simp only at h1
      rw [hi] at h1
      exact absurd h1 (by simp)
    · simp only at h1
      rw [hi, Nat.zero_add] at h1
      have hij : i = j := Option.some.inj h1
      subst hij
      rw [ht] at h2
      have ht1 : task = task1 := Option.some.inj h2
      subst ht1
      rcases h4 with h4 | h4
      · simpa using h4
      · exact absurd h4 hp
  exact ⟨hout, timeToNextRealtimeTask_gt _ _ _ _ _ hout⟩

/-- C2 at a concrete input: with the realtime deadline 500 microseconds away
and a guard of 325 the medium-priority task at index 1 is dispatched, and the
realtime task is indeed more than 325 microseconds from its deadline. -/
theorem nonrealtime_dispatch_outside_guard_witness :
    dispatchedTask exampleEnv 5 exampleGuardMachine = some (some 1) ∧
      (schedulerExecute exampleEnv 5 exampleGuardMachine).map (fun m1 => m1.calls)
        = some [Call.task 1] ∧
      timeToNextRealtimeTask 6 500 exampleGuardMachine.sched.cfTasks UINT32_MAX = 500 ∧
      (timeToNextRealtimeTask exampleEnv.TASK_PRIORITY_REALTIME
          (wrap32 (exampleEnv.micros exampleGuardMachine.world))
          exampleGuardMachine.sched.cfTasks UINT32_MAX
          > exampleGuardMachine.sched.realtimeGuardInterval ∧
        ∀ rt ∈ exampleGuardMachine.sched.cfTasks, rt.isEnabled = true →
          rt.priority ≥ exampleEnv.TASK_PRIORITY_REALTIME →
          int32NonNeg (sub32 (wrap32 (exampleEnv.micros exampleGuardMachine.world))
              (wrap32 (rt.lastExecutedAt + rt.desiredPeriod))) = false ∧
            sub32 (wrap32 (rt.lastExecutedAt + rt.desiredPeriod))
                (wrap32 (exampleEnv.micros exampleGuardMachine.world))
              > exampleGuardMachine.sched.realtimeGuardInterval) :=
  ⟨by decide, by decide, by decide,
    nonrealtime_dispatch_outside_guard exampleEnv 5 exampleGuardMachine 1
      { exampleTask "ACCEL" 3 100 0 with isEnabled := true }
      (by decide) (by decide) (by decide)⟩

/-- C1: the best score so far is kept in 16 bits while the scores are 32-bit.
In `exampleStarvedMachine` both tasks are enabled, waiting after the readiness
update and eligible (the pass is outside the guard); task 0 has score 65538
and task 1 has score 3, and the pass dispatches task 1, because 65538 is
stored as 2. -/
theorem selection_truncates_best_score :
    dispatchedTask exampleEnv 0 exampleStarvedMachine = some (some 1) ∧
      (schedulerExecute exampleEnv 0 exampleStarvedMachine).map (fun m1 => m1.calls)
        = some [Call.task 1] ∧
      (schedulerSelect exampleEnv 0 exampleStarvedMachine).map
          (fun r => r.1.cfTasks.map
            (fun task => (task.isEnabled, task.isWaitingToBeRan,
              starvationPriority 6553700 task)))
        = some [(true, true, some 65538), (true, true, some 3)] ∧
      timeToNextRealtimeTask exampleEnv.TASK_PRIORITY_REALTIME 6553700
          exampleStarvedMachine.sched.cfTasks UINT32_MAX
        > exampleStarvedMachine.sched.realtimeGuardInterval ∧
      wrap16 65538 = 2 := by
  refine ⟨by decide, by decide, by decide, by decide, by decide⟩

/-! ## The catch-up loop without wrap -/

/-- Without 32-bit wrap (`currentTime + desiredPeriod < 2^32`) and from an ideal
time not after `currentTime`, the catch-up loop runs `(currentTime - ideal) /
desiredPeriod` times and returns the ideal time advanced by that many periods;
it runs out of fuel exactly when the fuel is less than that. -/
theorem catchUp_noWrap (desiredPeriod currentTime : Nat) (hP : 0 < desiredPeriod)
    (hc : currentTime + desiredPeriod < 4294967296) :
    ∀ (fuel ideal : Nat), ideal ≤ currentTime →
      catchUp desiredPeriod currentTime fuel ideal
        = if (currentTime - ideal) / desiredPeriod ≤ fuel
          then some (ideal + (currentTime - ideal) / desiredPeriod * desiredPeriod)
          else none := by
  intro fuel
  induction fuel with
  | zero =>
    intro ideal hle
    unfold catchUp
    have hw : wrap32 (ideal + desiredPeriod) = ideal + desiredPeriod :=
      Nat.mod_eq_of_lt (by omega)
    rw [hw]
    by_cases hready : ideal + desiredPeriod ≤ currentTime
    · rw [if_pos hready]
      have hk : 1 ≤ (currentTime - ideal) / desiredPeriod :=
        (Nat.le_div_iff_mul_le hP).mpr (by omega)
      rw [if_neg (by omega)]
    · rw [if_neg hready]
      have hk : (currentTime - ideal) / desiredPeriod = 0 :=
        Nat.div_eq_of_lt (by omega)
      rw [hk]
      simp
  | succ fuel ih =>
    intro ideal hle
    unfold catchUp
    have hw : wrap32 (ideal + desiredPeriod) = ideal + desiredPeriod :=
      Nat.mod_eq_of_lt (by omega)
    rw [hw]
    by_cases hready : ideal + desiredPeriod ≤ currentTime
    · rw [if_pos hready]
      simp only
      rw [ih (ideal + desiredPeriod) hready]
      have hsplit : currentTime - ideal
          = (currentTime - (ideal + desiredPeriod)) + desiredPeriod := by omega
      have hk : (currentTime - ideal) / desiredPeriod
          = (currentTime - (ideal + desiredPeriod)) / desiredPeriod + 1 := by
        rw [hsplit, Nat.add_div_right _ hP]
      rw [hk]
      by_cases hf : (currentTime - (ideal + desiredPeriod)) / desiredPeriod ≤ fuel
      · rw [if_pos hf, if_pos (by omega)]
        congr 1
        rw [Nat.add_mul]
        omega
      · rw [if_neg hf, if_neg (by omega)]
    · rw [if_neg hready]
      have hk : (currentTime - ideal) / desiredPeriod = 0 :=
        Nat.div_eq_of_lt (by omega)
      rw [hk]
      simp

/-- The descriptors after the loop: the table keeps its length, a disabled task
is untouched, and an enabled task is what its readiness update returned. -/
theorem selectLoop_descriptor {W : Type} (env : Env W) (fuel currentTime : Nat)
    (outside : Bool) (tasks : List cfTask_t) :
    ∀ (ii : Nat) (sel : Selection W) (out : List cfTask_t) (sel1 : Selection W),
      selectLoop env fuel currentTime outside ii tasks sel = some (out, sel1) →
      out.length = tasks.length ∧
      ∀ (j : Nat) (t : cfTask_t), tasks[j]? = some t →
        (t.isEnabled = false → out[j]? = some t) ∧
        (t.isEnabled = true →
          ∃ (world : W) (calls : List Call) (t1 : cfTask_t) (world1 : W)
            (calls1 : List Call),
            updateReadiness env fuel currentTime (ii + j) t world calls
              = some (t1, world1, calls1) ∧
            out[j]? = some t1) := by
  induction tasks with
  | nil =>
    intro ii sel out sel1 h
    unfold selectLoop at h
    simp only [Option.some.injEq, Prod.mk.injEq] at h
    obtain ⟨hout, _⟩ := h
    subst hout
    refine ⟨rfl, ?_⟩
    intro j t hj
    simp at hj
  | cons head rest ih =>
    intro ii sel out sel1 h
    unfold selectLoop at h
    split at h
    · rename_i hdis
      have hhead : head.isEnabled = false := by simpa using hdis
      simp only [Option.map_eq_some', Prod.mk.injEq] at h
      obtain ⟨⟨out0, sel0⟩, hr0, hout, _⟩ := h
      simp only at hout
      subst hout
      obtain ⟨hlen, hget⟩ := ih (ii + 1) sel out0 sel0 hr0
      refine ⟨by simp [hlen], ?_⟩
      intro j t hj
      cases j with
      | zero =>
        simp only [List.getElem?_cons_zero, Option.some.injEq] at hj
        subst hj
        refine ⟨fun _ => by simp, fun hen => ?_⟩
        rw [hhead] at hen
        exact absurd hen (by simp)
      | succ j =>
        simp only [List.getElem?_cons_succ] at hj
        have := hget j t hj
        have hidx : ii + 1 + j = ii + (j + 1) := by omega
        rw [hidx] at this
        simpa using this
    · rename_i hen
      have hhead : head.isEnabled = true := by simpa using hen
      split at h
      · exact absurd h (by simp)
      · rename_i task1 world1 calls1 hupd
        split at h
        · exact absurd h (by simp)
        · rename_i selc hcons
          simp only [Option.map_eq_some', Prod.mk.injEq] at h
          obtain ⟨⟨out0, sel0⟩, hr0, hout, _⟩ := h
          simp only at hout
          subst hout
          obtain ⟨hlen, hget⟩ := ih (ii + 1) selc out0 sel0 hr0
          refine ⟨by simp [hlen], ?_⟩
          intro j t hj
          cases j with
          | zero =>
            simp only [List.getElem?_cons_zero, Option.some.injEq] at hj
            subst hj
            refine ⟨fun hd => ?_, fun _ => ?_⟩
            · rw [hhead] at hd
              exact absurd hd (by simp)
            · exact ⟨sel.world, sel.calls, task1, world1, calls1, hupd, by simp⟩
          | succ j =>
            simp only [List.getElem?_cons_succ] at hj
            have := hget j t hj
            have hidx : ii + 1 + j = ii + (j + 1) := by omega
            rw [hidx] at this
            simpa using this

/-- The readiness update of a waiting task does nothing. -/
theorem updateReadiness_waiting {W : Type} (env : Env W) (fuel currentTime ii : Nat)
    (task : cfTask_t) (world : W) (calls : List Call)
    (hwait : task.isWaitingToBeRan = true) :
    updateReadiness env fuel currentTime ii task world calls = some (task, world, calls) := by
  unfold updateReadiness
  rw [hwait]
  rfl

/-- The descriptor of a task that is not the dispatched one, after the pass:
what the dispatched task function left there, and what the selection loop
produced when the task functions do not touch that descriptor. -/
theorem schedulerDispatch_descriptor_other {W : Type} (env : Env W) (s : State)
    (sel : Selection W) (m1 : Machine W) (j : Nat)
    (h : schedulerDispatch env s sel = some m1)
    (hj : sel.selectedTask ≠ some j)
    (hkeep : ∀ f x, (env.taskFunc f x).1.cfTasks[j]? = x.1.cfTasks[j]?) :
    m1.sched.cfTasks[j]? = s.cfTasks[j]? := by
  rcases schedulerDispatch_eq_some env s sel m1 h with
    ⟨_, hm⟩ | ⟨i, task, f, done, hi, _, _, _, hm⟩
  · rw [hm]
    rfl
  · have hij : i ≠ j := by
      intro heq
      rw [hi, heq] at hj
      exact hj rfl
    rw [hm]
    show ((env.taskFunc f (beginTask (accountPass s (some i)) i task, sel.world)).1.cfTasks.set
      i _)[j]? = s.cfTasks[j]?
    rw [List.getElem?_set_ne hij, hkeep]
    show (s.cfTasks.set i _)[j]? = s.cfTasks[j]?
    rw [List.getElem?_set_ne hij]

/-- The task functions of the test stubs leave the task table alone. -/
theorem testEnv_taskFunc_cfTasks (g : Nat) (x : State × (Nat × Bool)) :
    (testEnv.taskFunc g x).1.cfTasks = x.1.cfTasks := by
  simp only [testEnv]
  split
  · exact taskSystem_cfTasks 6 x.1
  all_goals rfl

theorem finishTask_average (s : State) (i : Nat) (done : cfTask_t) (t : Nat) :
    finishTask s i done t
      = { s with
          currentTask := none
          cfTasks := s.cfTasks.set i
            { done with
              isWaitingToBeRan := false
              averageExecutionTime := averageAfter done.averageExecutionTime t
              totalExecutionTime := wrap32 (done.totalExecutionTime + t)
              maxExecutionTime := max done.maxExecutionTime t } } := rfl

/-- Two tables with the same image under `g` have, index by index, entries with
the same image. -/
theorem getElem?_of_map_eq {β : Type} (g : cfTask_t → β) (l1 l2 : List cfTask_t)
    (h : l1.map g = l2.map g) (j : Nat) (a : cfTask_t) (ha : l2[j]? = some a) :
    ∃ b, l1[j]? = some b ∧ g b = g a := by
  have h1 : (l1.map g)[j]? = (l2.map g)[j]? := by rw [h]
  rw [List.getElem?_map, List.getElem?_map, ha] at h1
  cases hb : l1[j]? with
  | none => rw [hb] at h1; simp at h1
  | some b =>
    rw [hb] at h1
    simp only [Option.map_some', Option.some.injEq] at h1
    exact ⟨b, rfl, h1⟩

/-- The selection loop changes at most `lastIdealExecutionTime` and
`isWaitingToBeRan` of a descriptor. -/
theorem selectLoop_descriptor_fields {W : Type} (env : Env W) (fuel currentTime : Nat)
    (outside : Bool) (tasks : List cfTask_t) (ii : Nat) (sel : Selection W)
    (out : List cfTask_t) (sel1 : Selection W)
    (h : selectLoop env fuel currentTime outside ii tasks sel = some (out, sel1))
    (j : Nat) (t : cfTask_t) (ht : tasks[j]? = some t) :
    ∃ ideal waiting,
      out[j]? = some { t with lastIdealExecutionTime := ideal, isWaitingToBeRan := waiting } := by
  obtain ⟨_, hget⟩ := selectLoop_descriptor env fuel currentTime outside tasks ii sel out sel1 h
  by_cases hen : t.isEnabled = true
  · obtain ⟨world, calls, t1, world1, calls1, hupd, hout⟩ := (hget j t ht).2 hen
    obtain ⟨ideal, waiting, ht1⟩ := updateReadiness_eq_some env fuel currentTime (ii + j) t t1
      world world1 calls calls1 hupd
    exact ⟨ideal, waiting, by rw [hout, ht1]⟩
  · have hdis : t.isEnabled = false := by simpa using hen
    exact ⟨t.lastIdealExecutionTime, t.isWaitingToBeRan, (hget j t ht).1 hdis⟩

/-- The descriptors after a pass that dispatched the task at index `i`, when
the task functions leave the bookkeeping fields of the table alone: the
dispatched descriptor is `done0` finished by lines 248-254, where `done0`
carries the delta and `lastExecutedAt` of lines 239-240 and the statistics the
task had before the pass, and `t` is the clock difference around the call;
every other descriptor keeps its bookkeeping fields. -/
theorem schedulerExecute_dispatched {W : Type} (env : Env W) (fuel : Nat) (m m1 : Machine W)
    (i : Nat) (task : cfTask_t)
    (hrun : schedulerExecute env fuel m = some m1)
    (hd : dispatchedTask env fuel m = some (some i))
    (ht : m.sched.cfTasks[i]? = some task)
    (hkeep : ∀ f x,
      (env.taskFunc f x).1.cfTasks.map bookkeeping = x.1.cfTasks.map bookkeeping) :
    ∃ s sel done0,
      schedulerSelect env fuel m = some (s, sel) ∧
      m1.sched.currentTask = none ∧
      bookkeeping done0
        = (wrap32 (env.micros m.world),
            sub32 (wrap32 (env.micros m.world)) task.lastExecutedAt,
            task.averageExecutionTime, task.maxExecutionTime, task.totalExecutionTime) ∧
      m1.sched.cfTasks[i]? = some
        { done0 with
          isWaitingToBeRan := false
          averageExecutionTime :=
            averageAfter done0.averageExecutionTime
              (sub32 (env.micros m1.world) (wrap32 (env.micros sel.world)))
          totalExecutionTime :=
            wrap32 (done0.totalExecutionTime
              + sub32 (env.micros m1.world) (wrap32 (env.micros sel.world)))
          maxExecutionTime :=
            max done0.maxExecutionTime
              (sub32 (env.micros m1.world) (wrap32 (env.micros sel.world))) } ∧
      ∀ (j : Nat) (t : cfTask_t), j ≠ i → m.sched.cfTasks[j]? = some t →
        ∃ t1, m1.sched.cfTasks[j]? = some t1 ∧ bookkeeping t1 = bookkeeping t := by
  obtain ⟨s, sel, hsel, hdisp, hdt, _, _⟩ := schedulerExecute_eq_some env fuel m m1 hrun
  have hi : sel.selectedTask = some i := by
    rw [hdt] at hd
    exact Option.some.inj hd
  obtain ⟨tasks, hloop, hs⟩ := schedulerSelect_eq_some env fuel m s sel hsel
  have hstasks : s.cfTasks = tasks := by rw [hs]
  have hstime : s.currentTime = wrap32 (env.micros m.world) := by rw [hs]
  rcases schedulerDispatch_eq_some env s sel m1 hdisp with
    ⟨hn, _⟩ | ⟨k, task1, f, done, hk, htask1, _, hdone, hm⟩
  · rw [hn] at hi
    exact absurd hi (by simp)
  · have hki : k = i := by
      rw [hk] at hi
      exact Option.some.inj hi
    subst hki
    -- the descriptor the loop produced at `k`
    obtain ⟨ideal, waiting, hout⟩ := selectLoop_descriptor_fields env fuel _ _ m.sched.cfTasks 0 _
      tasks sel hloop k task ht
    rw [hstasks, hout] at htask1
    have htask1' := Option.some.inj htask1
    have hklt : k < s.cfTasks.length := by
      rw [hstasks]
      exact (List.getElem?_eq_some_iff.mp hout).1
    -- the state handed to the task function
    have hx : (beginTask (accountPass s (some k)) k task1).cfTasks
        = s.cfTasks.set k
          { task1 with
            taskLatestDeltaTime := sub32 s.currentTime task1.lastExecutedAt
            lastExecutedAt := s.currentTime } := rfl
    have hmap := hkeep f (beginTask (accountPass s (some k)) k task1, sel.world)
    -- the dispatched descriptor
    have hxk : (beginTask (accountPass s (some k)) k task1).cfTasks[k]?
        = some { task1 with
                 taskLatestDeltaTime := sub32 s.currentTime task1.lastExecutedAt
                 lastExecutedAt := s.currentTime } := by
      rw [hx, List.getElem?_set_self hklt]
    obtain ⟨b, hb, hbk⟩ := getElem?_of_map_eq bookkeeping _ _ hmap k _ hxk
    rw [hdone] at hb
    have hdb : done = b := Option.some.inj hb
    subst hdb
    refine ⟨s, sel, done, hsel, by rw [hm]; rfl, ?_, ?_, ?_⟩
    · rw [hbk, ← htask1', hstime]
      rfl
    · rw [hm]
      show ((env.taskFunc f (beginTask (accountPass s (some k)) k task1, sel.world)).1.cfTasks.set
        k _)[k]? = _
      rw [List.getElem?_set_self (List.getElem?_eq_some_iff.mp hdone).1]
      rfl
    · intro j t hj htj
      obtain ⟨ideal2, waiting2, hout2⟩ := selectLoop_descriptor_fields env fuel _ _
        m.sched.cfTasks 0 _ tasks sel hloop j t htj
      have hxj : (beginTask (accountPass s (some k)) k task1).cfTasks[j]?
          = some { t with lastIdealExecutionTime := ideal2, isWaitingToBeRan := waiting2 } := by
        rw [hx, List.getElem?_set_ne (Ne.symm hj), hstasks, hout2]
      obtain ⟨b, hb, hbj⟩ := getElem?_of_map_eq bookkeeping _ _ hmap j _ hxj
      refine ⟨b, ?_, by rw [hbj]; rfl⟩
      rw [hm]
      show ((env.taskFunc f (beginTask (accountPass s (some k)) k task1, sel.world)).1.cfTasks.set
        k _)[j]? = _
      rw [List.getElem?_set_ne (Ne.symm hj)]
      exact hb

theorem getTaskDeltaTime_valid (self : Int) (s : State) (i : Nat) (task : cfTask_t)
    (hself : (i : Int) ≠ self) (ht : s.cfTasks[i]? = some task) :
    getTaskDeltaTime self s i = some task.taskLatestDeltaTime := by
  have hlt : i < s.cfTasks.length := (List.getElem?_eq_some_iff.mp ht).1
  have hacc : taskIdAccepted self s i = true :=
    taskIdAccepted_of_valid self s i (by omega) (by unfold State.taskCount; omega)
  unfold getTaskDeltaTime
  rw [if_pos hacc]
  simp [taskPointer, hself, ht]

/-- C13: in a pass that dispatches the task `T` at table index `i` at the cached
time `c`, with task functions that leave the bookkeeping fields of the table
alone, afterwards `T.taskLatestDeltaTime = (c - previous T.lastExecutedAt) mod
2^32`, `T.lastExecutedAt = c`, `T.isWaitingToBeRan = false`,
`getTaskDeltaTime(i)` returns that delta, and `lastExecutedAt`,
`taskLatestDeltaTime` and the statistics of every other task are unchanged. -/
theorem dispatch_bookkeeping {W : Type} (env : Env W) (fuel : Nat) (m m1 : Machine W)
    (i : Nat) (task : cfTask_t)
    (hrun : schedulerExecute env fuel m = some m1)
    (hd : dispatchedTask env fuel m = some (some i))
    (ht : m.sched.cfTasks[i]? = some task)
    (hself : (i : Int) ≠ env.TASK_SELF)
    (hkeep : ∀ f x,
      (env.taskFunc f x).1.cfTasks.map bookkeeping = x.1.cfTasks.map bookkeeping) :
    (∃ done, m1.sched.cfTasks[i]? = some done ∧
        done.taskLatestDeltaTime
          = sub32 (wrap32 (env.micros m.world)) task.lastExecutedAt ∧
        done.lastExecutedAt = wrap32 (env.micros m.world) ∧
        done.isWaitingToBeRan = false) ∧
      getTaskDeltaTime env.TASK_SELF m1.sched i
        = some (sub32 (wrap32 (env.micros m.world)) task.lastExecutedAt) ∧
      ∀ (j : Nat) (t : cfTask_t), j ≠ i → m.sched.cfTasks[j]? = some t →
        ∃ t1, m1.sched.cfTasks[j]? = some t1 ∧
          t1.lastExecutedAt = t.lastExecutedAt ∧
          t1.taskLatestDeltaTime = t.taskLatestDeltaTime ∧
          t1.averageExecutionTime = t.averageExecutionTime ∧
          t1.maxExecutionTime = t.maxExecutionTime ∧
          t1.totalExecutionTime = t.totalExecutionTime := by
  obtain ⟨s, sel, done0, _, _, hbk, hdone, hothers⟩ :=
    schedulerExecute_dispatched env fuel m m1 i task hrun hd ht hkeep
  simp only [bookkeeping, Prod.mk.injEq] at hbk
  obtain ⟨hexec, hdelta, _, _, _⟩ := hbk
  refine ⟨⟨_, hdone, hdelta, hexec, rfl⟩, ?_, ?_⟩
  · rw [getTaskDeltaTime_valid env.TASK_SELF m1.sched i _ hself hdone]
    exact congrArg some hdelta
  · intro j t hj htj
    obtain ⟨t1, ht1, hb⟩ := hothers j t hj htj
    simp only [bookkeeping, Prod.mk.injEq] at hb
    exact ⟨t1, ht1, hb.1, hb.2.1, hb.2.2.1, hb.2.2.2.1, hb.2.2.2.2⟩

/-- The task functions of the test stubs leave the bookkeeping fields alone. -/
theorem testEnv_taskFunc_bookkeeping (g : Nat) (x : State × (Nat × Bool)) :
    (testEnv.taskFunc g x).1.cfTasks.map bookkeeping = x.1.cfTasks.map bookkeeping := by
  rw [testEnv_taskFunc_cfTasks]

/-- C13 on `BasicEventTask`: the pass at 50000 dispatches GYROPID (index 1),
last executed at 40000: its delta becomes 10000, `lastExecutedAt` 50000, it is
not waiting, `getTaskDeltaTime(1)` returns 10000, and RX (index 4) keeps its
bookkeeping fields. -/
theorem dispatch_bookkeeping_witness :
    dispatchedTask testEnv 50 (testEventMachine 14) = some (some 1) ∧
    ((testEventMachine 14).sched.cfTasks[1]?).map (fun t => t.lastExecutedAt)
      = some 40000 ∧
    sub32 (wrap32 (testEnv.micros (testEventMachine 14).world)) 40000 = 10000 ∧
    ∃ m1 task, schedulerExecute testEnv 50 (testEventMachine 14) = some m1 ∧
      (testEventMachine 14).sched.cfTasks[1]? = some task ∧
      getTaskDeltaTime testEnv.TASK_SELF m1.sched (1 : Nat)
        = some (sub32 (wrap32 (testEnv.micros (testEventMachine 14).world))
            task.lastExecutedAt) ∧
      ∃ t1, m1.sched.cfTasks[4]? = some t1 ∧
        t1.lastExecutedAt = exampleRxWaiting.lastExecutedAt ∧
        t1.taskLatestDeltaTime = exampleRxWaiting.taskLatestDeltaTime ∧
        t1.averageExecutionTime = exampleRxWaiting.averageExecutionTime ∧
        t1.maxExecutionTime = exampleRxWaiting.maxExecutionTime ∧
        t1.totalExecutionTime = exampleRxWaiting.totalExecutionTime := by
  refine ⟨by decide!, by decide!, by decide!, ?_⟩
  obtain ⟨m1, h⟩ := Option.isSome_iff_exists.mp
    (show (schedulerExecute testEnv 50 (testEventMachine 14)).isSome = true by decide!)
  obtain ⟨task, ht⟩ := Option.isSome_iff_exists.mp
    (show ((testEventMachine 14).sched.cfTasks[1]?).isSome = true by decide!)
  have hw := dispatch_bookkeeping testEnv 50 (testEventMachine 14) m1 1 task h
    (by decide!) ht (by decide!) testEnv_taskFunc_bookkeeping
  exact ⟨m1, task, h, ht, hw.2.1, hw.2.2 4 exampleRxWaiting (by decide) (by decide!)⟩

/-! ## The execution-time statistics -/

/-- Without 32-bit wrap the average is the floor of `(31 a + t) / 32`. -/
theorem averageAfter_eq (a t : Nat) (h : 31 * a + t < 4294967296) :
    averageAfter a t = (31 * a + t) / 32 := by
  unfold averageAfter wrap32
  have h1 : a * 31 % 4294967296 = a * 31 := Nat.mod_eq_of_lt (by omega)
  rw [h1]
  have h2 : (a * 31 + t) % 4294967296 = a * 31 + t := Nat.mod_eq_of_lt (by omega)
  rw [h2]
  congr 1
  omega

theorem averageAfter_between (a t : Nat) (h : 31 * a + t < 4294967296) :
    min a t ≤ averageAfter a t ∧ averageAfter a t ≤ max a t := by
  rw [averageAfter_eq a t h]
  constructor
  · rcases Nat.le_total a t with hle | hle
    · rw [min_eq_left hle]; omega
    · rw [min_eq_right hle]; omega
  · rcases Nat.le_total a t with hle | hle
    · rw [max_eq_right hle]; omega
    · rw [max_eq_left hle]; omega

theorem averageAfter_fixed (a : Nat) (h : 32 * a < 4294967296) : averageAfter a a = a := by
  rw [averageAfter_eq a a (by omega)]
  omega

/-- C17 (amended): in a pass that dispatches the task at index `i` (task
functions leaving the bookkeeping fields alone), with `t` the clock after the
task function minus the clock before it and `a` the previous average, the task
ends with `averageExecutionTime = ((31 a) mod 2^32 + t) mod 2^32 / 32`, total
increased by `t` modulo `2^32` and maximum `max (previous max) t`. When
`31 a + t < 2^32` the average is the floor of `(31 a + t) / 32` and lies
between `min a t` and `max a t`; `a = t` is a fixed point when `32 a < 2^32`. -/
theorem dispatch_statistics {W : Type} (env : Env W) (fuel : Nat) (m m1 : Machine W)
    (i : Nat) (task : cfTask_t)
    (hrun : schedulerExecute env fuel m = some m1)
    (hd : dispatchedTask env fuel m = some (some i))
    (ht : m.sched.cfTasks[i]? = some task)
    (hkeep : ∀ f x,
      (env.taskFunc f x).1.cfTasks.map bookkeeping = x.1.cfTasks.map bookkeeping) :
    ∃ s sel done t,
      schedulerSelect env fuel m = some (s, sel) ∧
      t = sub32 (env.micros m1.world) (wrap32 (env.micros sel.world)) ∧
      m1.sched.cfTasks[i]? = some done ∧
      done.averageExecutionTime = averageAfter task.averageExecutionTime t ∧
      done.totalExecutionTime = wrap32 (task.totalExecutionTime + t) ∧
      done.maxExecutionTime = max task.maxExecutionTime t ∧
      (31 * task.averageExecutionTime + t < 4294967296 →
        done.averageExecutionTime = (31 * task.averageExecutionTime + t) / 32 ∧
        min task.averageExecutionTime t ≤ done.averageExecutionTime ∧
        done.averageExecutionTime ≤ max task.averageExecutionTime t) ∧
      (task.averageExecutionTime = t → 32 * t < 4294967296 →
        done.averageExecutionTime = task.averageExecutionTime) := by
  obtain ⟨s, sel, done0, hsel, _, hbk, hdone, _⟩ :=
    schedulerExecute_dispatched env fuel m m1 i task hrun hd ht hkeep
  simp only [bookkeeping, Prod.mk.injEq] at hbk
  obtain ⟨_, _, havg, hmax, htot⟩ := hbk
  refine ⟨s, sel, _, _, hsel, rfl, hdone, ?_, ?_, ?_, ?_, ?_⟩
  · show averageAfter done0.averageExecutionTime _ = _
    rw [havg]
  · show wrap32 (done0.totalExecutionTime + _) = _
    rw [htot]
  · show max done0.maxExecutionTime _ = _
    rw [hmax]
  · intro hno
    show averageAfter done0.averageExecutionTime _ = _ ∧
      _ ≤ averageAfter done0.averageExecutionTime _ ∧
      averageAfter done0.averageExecutionTime _ ≤ _
    rw [havg]
    exact ⟨averageAfter_eq _ _ hno, averageAfter_between _ _ hno⟩
  · intro heq hno
    show averageAfter done0.averageExecutionTime _ = _
    rw [havg, ← heq]
    exact averageAfter_fixed _ (by rw [heq]; exact hno)

/-- C17 as stated fails when `31 a + t` wraps: with previous average
`a = 2^27 - 1` (what one dispatch of `2^32 - 1` microseconds leaves from 0) and
another runtime `t = 2^32 - 1`, the pass leaves the average 130023423, which is
neither the floor of `(31 a + t) / 32 = 264241151` nor between `min a t` and
`max a t`. -/
theorem dispatch_statistics_wraps :
    averageAfter 0 4294967295 = 134217727 ∧
    (schedulerExecute exampleSlowEnv 0 exampleSlowMachine).map
        (fun m1 => (m1.world, m1.sched.cfTasks.map (fun t => t.averageExecutionTime)))
      = some (4294967295, [130023423]) ∧
    (31 * 134217727 + 4294967295) / 32 = 264241151 ∧
    130023423 < min 134217727 4294967295 := by
  refine ⟨by decide, by decide!, by decide, by decide⟩

/-- C17 on `BasicEventTask`: the pass at 50000 dispatches GYROPID (index 1),
which runs 50 microseconds: its average goes from 1 to `(31 + 50) / 32 = 2`,
its total from 50 to 100 and its maximum stays 50. -/
theorem dispatch_statistics_witness :
    ((testEventMachine 14).sched.cfTasks[1]?).map bookkeeping
      = some (40000, 40000, 1, 50, 50) ∧
    ∃ m1 task, schedulerExecute testEnv 50 (testEventMachine 14) = some m1 ∧
      (testEventMachine 14).sched.cfTasks[1]? = some task ∧
      (m1.sched.cfTasks[1]?).map bookkeeping = some (50000, 10000, 2, 50, 100) ∧
      ∃ s sel done t,
        schedulerSelect testEnv 50 (testEventMachine 14) = some (s, sel) ∧
        t = sub32 (testEnv.micros m1.world) (wrap32 (testEnv.micros sel.world)) ∧
        m1.sched.cfTasks[1]? = some done ∧
        done.averageExecutionTime = averageAfter task.averageExecutionTime t ∧
        done.totalExecutionTime = wrap32 (task.totalExecutionTime + t) ∧
        done.maxExecutionTime = max task.maxExecutionTime t ∧
        (31 * task.averageExecutionTime + t < 4294967296 →
          done.averageExecutionTime = (31 * task.averageExecutionTime + t) / 32 ∧
          min task.averageExecutionTime t ≤ done.averageExecutionTime ∧
          done.averageExecutionTime ≤ max task.averageExecutionTime t) ∧
        (task.averageExecutionTime = t → 32 * t < 4294967296 →
          done.averageExecutionTime = task.averageExecutionTime) := by
  refine ⟨by decide!, ?_⟩
  have hsome : ∃ m1, schedulerExecute testEnv 50 (testEventMachine 14) = some m1 ∧
      (m1.sched.cfTasks[1]?).map bookkeeping = some (50000, 10000, 2, 50, 100) := by
    have hd : ((schedulerExecute testEnv 50 (testEventMachine 14)).map
        (fun m1 => (m1.sched.cfTasks[1]?).map bookkeeping))
        = some (some (50000, 10000, 2, 50, 100)) := by decide!
    cases hrun : schedulerExecute testEnv 50 (testEventMachine 14) with
    | none => rw [hrun] at hd; exact absurd hd (by simp)
    | some m1 =>
      rw [hrun] at hd
      exact ⟨m1, rfl, Option.some.inj hd⟩
  obtain ⟨m1, h, hb⟩ := hsome
  obtain ⟨task, ht⟩ := Option.isSome_iff_exists.mp
    (show ((testEventMachine 14).sched.cfTasks[1]?).isSome = true by decide!)
  exact ⟨m1, task, h, ht, hb,
    dispatch_statistics testEnv 50 (testEventMachine 14) m1 1 task h
      (by decide!) ht testEnv_taskFunc_bookkeeping⟩

/-! ## Claims on priorities and on the truncated best score -/

/-- C14: the best score is stored in 16 bits (the defect of C1). In
`examplePriorityMachine` the tasks A (index 0, priority 3) and B (index 1,
priority 1) are enabled, waiting, eligible and have the same age 21845; A has
score 65536, stored as 0, B has score 21846, and the pass dispatches B.
With small ages the order is by priority: the replay of `BasicPriorityTest`
dispatches GYROPID, RX, ACCEL, SERIAL, TELEMETRY when the RX check answers
`false` after RX has run; with the check left at `true`, as the test has it,
RX becomes ready again in every pass and is dispatched again. -/
theorem priority_order_truncated :
    (applyOps testEnv
        (testBasicPrioritySteps.take 18
          ++ [setRxCheck false, Op.schedulerExecute 5, Op.schedulerExecute 5,
              Op.schedulerExecute 5]) testMachine).map (fun m => m.calls)
      = some [Call.check 4 2999, Call.check 4 3000, Call.task 1, Call.task 4,
              Call.check 4 12, Call.task 2, Call.check 4 246, Call.task 3,
              Call.check 4 310, Call.task 5] ∧
    (applyOps testEnv testBasicPrioritySteps testMachine).map (fun m => m.calls)
      = some [Call.check 4 2999, Call.check 4 3000, Call.task 1, Call.task 4,
              Call.check 4 12, Call.task 4, Call.check 4 46, Call.task 4,
              Call.check 4 46, Call.task 4] ∧
    dispatchedTask exampleEnv 0 examplePriorityMachine = some (some 1) ∧
      (schedulerExecute exampleEnv 0 examplePriorityMachine).map (fun m1 => m1.calls)
        = some [Call.task 1] ∧
      (schedulerSelect exampleEnv 0 examplePriorityMachine).map
          (fun r => r.1.cfTasks.map
            (fun task => (task.isEnabled, task.isWaitingToBeRan, task.priority)))
        = some [(true, true, 3), (true, true, 1)] ∧
      (schedulerSelect exampleEnv 0 examplePriorityMachine).map
          (fun r => r.1.cfTasks.map
            (fun task => (taskAge 2184500 task, starvationPriority 2184500 task)))
        = some [(some 21845, some 65536), (some 21845, some 21846)] ∧
      timeToNextRealtimeTask exampleEnv.TASK_PRIORITY_REALTIME 2184500
          examplePriorityMachine.sched.cfTasks UINT32_MAX
        > examplePriorityMachine.sched.realtimeGuardInterval ∧
      wrap16 65536 = 0 := by
  refine ⟨by decide!, by decide!, by decide!, by decide!, by decide!, by decide!,
    by decide!, by decide⟩

/-- An idle-priority task has score exactly 1 whatever its age. -/
theorem starvationPriority_idle (currentTime : Nat) (task : cfTask_t)
    (hp : task.priority = 0) (hperiod : task.desiredPeriod ≠ 0) :
    starvationPriority currentTime task = some 1 := by
  unfold starvationPriority taskAge
  rw [if_neg hperiod, hp]
  simp [wrap32]

/-- C15: an idle-priority task has score 1 whatever its age, but the best score
is stored in 16 bits (the defect of C1). In `exampleIdleMachine` the
low-priority task (index 0, priority 1, age 65535) has score 65536, stored as
0, and the idle-priority task (index 1, score 1) is the task dispatched. -/
theorem idle_task_dispatched_over_positive_priority :
    (∀ (currentTime : Nat) (task : cfTask_t), task.priority = 0 →
        task.desiredPeriod ≠ 0 → starvationPriority currentTime task = some 1) ∧
      dispatchedTask exampleEnv 0 exampleIdleMachine = some (some 1) ∧
      (schedulerExecute exampleEnv 0 exampleIdleMachine).map (fun m1 => m1.calls)
        = some [Call.task 1] ∧
      (schedulerSelect exampleEnv 0 exampleIdleMachine).map
          (fun r => r.1.cfTasks.map
            (fun task => (task.isEnabled, task.isWaitingToBeRan, task.priority)))
        = some [(true, true, 1), (true, true, 0)] ∧
      (schedulerSelect exampleEnv 0 exampleIdleMachine).map
          (fun r => r.1.cfTasks.map
            (fun task => (taskAge 6553500 task, starvationPriority 6553500 task)))
        = some [(some 65535, some 65536), (some 2, some 1)] ∧
      wrap16 65536 = 0 := by
  refine ⟨starvationPriority_idle, by decide!, by decide!, by decide!, by decide!, by decide⟩

/-! ## Termination of the catch-up loop -/

/-- At `currentTime = 2^32 - 1` the loop condition holds for every ideal time,
so the catch-up loop exhausts every fuel. -/
theorem catchUp_diverges (desiredPeriod : Nat) :
    ∀ (fuel ideal : Nat), catchUp desiredPeriod 4294967295 fuel ideal = none := by
  intro fuel
  induction fuel with
  | zero =>
    intro ideal
    unfold catchUp
    have hc : wrap32 (ideal + desiredPeriod) ≤ 4294967295 := by
      unfold wrap32
      omega
    rw [if_pos hc]
  | succ fuel ih =>
    intro ideal
    unfold catchUp
    have hc : wrap32 (ideal + desiredPeriod) ≤ 4294967295 := by
      unfold wrap32
      omega
    rw [if_pos hc]
    exact ih _

/-- A pass at `currentTime = 2^32 - 1` whose first table entry is an enabled,
not-waiting time-driven task does not return, whatever the fuel. -/
theorem schedulerExecute_diverges {W : Type} (env : Env W) (fuel : Nat) (m : Machine W)
    (head : cfTask_t) (rest : List cfTask_t)
    (hm : m.sched.cfTasks = head :: rest)
    (hen : head.isEnabled = true) (hw : head.isWaitingToBeRan = false)
    (hc : head.checkFunc = none)
    (ht : wrap32 (env.micros m.world) = 4294967295) :
    schedulerExecute env fuel m = none := by
  have hupd : ∀ (ii : Nat) (world : W) (calls : List Call),
      updateReadiness env fuel 4294967295 ii head world calls = none := by
    intro ii world calls
    unfold updateReadiness
    have hcond : wrap32 (head.lastIdealExecutionTime + head.desiredPeriod) ≤ 4294967295 := by
      unfold wrap32
      omega
    simp only [hw, hc, Bool.not_false, if_true]
    rw [if_pos hcond, catchUp_diverges]
  have hloop : ∀ (outside : Bool) (sel : Selection W),
      selectLoop env fuel 4294967295 outside 0 (head :: rest) sel = none := by
    intro outside sel
    unfold selectLoop
    simp [hen, hupd]
  unfold schedulerExecute schedulerSelect
  simp only [hm, ht, hloop, Option.map_none']

/-- C18: the catch-up loop does not terminate at `currentTime = 2^32 - 1`: the
loop condition `(lastIdealExecutionTime + desiredPeriod) mod 2^32 ≤ currentTime`
holds for every ideal time, so for the enabled time-driven task of
`exampleWrapMachine` (period 100) neither the loop nor `schedulerExecute`
returns, whatever the fuel. -/
theorem catchUp_loop_diverges_at_wrap :
    (∀ fuel ideal : Nat, catchUp 100 4294967295 fuel ideal = none) ∧
      (∀ fuel : Nat, schedulerExecute exampleEnv fuel exampleWrapMachine = none) ∧
      exampleWrapMachine.sched.cfTasks.map
          (fun t => (t.isEnabled, t.isWaitingToBeRan, t.checkFunc, t.desiredPeriod,
            t.lastIdealExecutionTime))
        = [(true, false, none, 100, 0)] ∧
      exampleEnv.micros exampleWrapMachine.world = 4294967295 := by
  refine ⟨catchUp_diverges 100, ?_, by decide, by decide⟩
  intro fuel
  exact schedulerExecute_diverges exampleEnv fuel exampleWrapMachine _ [] rfl
    (by decide) (by decide) (by decide) (by decide)

/-! ## The moving average under a constant runtime -/

/-- One step from an average not below the runtime `R`: the average stays not
below `R`, does not grow, its error shrinks by the factor 31/32, and it moves
when it is above `R`. -/
theorem averageAfter_above (a R : Nat) (ha : a < 134217728) (hle : R ≤ a) :
    R ≤ averageAfter a R ∧ averageAfter a R ≤ a ∧
      32 * (averageAfter a R - R) ≤ 31 * (a - R) ∧
      (R < a → averageAfter a R < a) := by
  rw [averageAfter_eq a R (by omega)]
  refine ⟨by omega, by omega, by omega, by omega⟩

/-- One step from an average not above the runtime `R`: the average stays not
above `R`, does not shrink, the part of its error beyond 31 shrinks by the
factor 31/32, it does not move when the error is below 32 and it moves when the
error is at least 32. -/
theorem averageAfter_below (a R : Nat) (hR : R < 134217728) (hle : a ≤ R) :
    averageAfter a R ≤ R ∧ a ≤ averageAfter a R ∧
      32 * ((R - averageAfter a R) - 31) ≤ 31 * ((R - a) - 31) ∧
      (R - a < 32 → averageAfter a R = a) ∧
      (32 ≤ R - a → a < averageAfter a R) := by
  rw [averageAfter_eq a R (by omega)]
  refine ⟨by omega, by omega, by omega, by omega, by omega⟩

theorem averageIterate_above (R : Nat) :
    ∀ (n a : Nat), a < 134217728 → R ≤ a →
      R ≤ averageIterate R n a ∧
      32 ^ n * (averageIterate R n a - R) ≤ 31 ^ n * (a - R) ∧
      (a - R ≤ n → averageIterate R n a = R) := by
  intro n
  induction n with
  | zero =>
    intro a _ hle
    refine ⟨hle, by simp [averageIterate], ?_⟩
    intro h
    show a = R
    omega
  | succ n ih =>
    intro a ha hle
    obtain ⟨h1, h2, h3, h4⟩ := averageAfter_above a R ha hle
    obtain ⟨i1, i2, i3⟩ := ih (averageAfter a R) (by omega) h1
    show R ≤ averageIterate R n (averageAfter a R) ∧
      32 ^ (n + 1) * (averageIterate R n (averageAfter a R) - R) ≤ 31 ^ (n + 1) * (a - R) ∧
      (a - R ≤ n + 1 → averageIterate R n (averageAfter a R) = R)
    refine ⟨i1, ?_, ?_⟩
    · calc 32 ^ (n + 1) * (averageIterate R n (averageAfter a R) - R)
          = 32 * (32 ^ n * (averageIterate R n (averageAfter a R) - R)) := by ring
        _ ≤ 32 * (31 ^ n * (averageAfter a R - R)) := Nat.mul_le_mul_left _ i2
        _ = 31 ^ n * (32 * (averageAfter a R - R)) := by ring
        _ ≤ 31 ^ n * (31 * (a - R)) := Nat.mul_le_mul_left _ h3
        _ = 31 ^ (n + 1) * (a - R) := by ring
    · intro h
      apply i3
      rcases Nat.eq_or_lt_of_le hle with heq | hlt
      · omega
      · have := h4 hlt
        omega

theorem averageIterate_below (R : Nat) (hR : R < 134217728) :
    ∀ (n a : Nat), a ≤ R →
      averageIterate R n a ≤ R ∧ a ≤ averageIterate R n a ∧
      32 ^ n * ((R - averageIterate R n a) - 31) ≤ 31 ^ n * ((R - a) - 31) ∧
      (R - a < 32 → averageIterate R n a = a) ∧
      (R - a ≤ n + 31 → R - averageIterate R n a ≤ 31) := by
  intro n
  induction n with
  | zero =>
    intro a hle
    refine ⟨hle, le_refl _, by simp [averageIterate], fun _ => rfl, ?_⟩
    intro h
    show R - a ≤ 31
    omega
  | succ n ih =>
    intro a hle
    obtain ⟨h1, h2, h3, h4, h5⟩ := averageAfter_below a R hR hle
    obtain ⟨i1, i2, i3, i4, i5⟩ := ih (averageAfter a R) h1
    show averageIterate R n (averageAfter a R) ≤ R ∧
      a ≤ averageIterate R n (averageAfter a R) ∧
      32 ^ (n + 1) * ((R - averageIterate R n (averageAfter a R)) - 31)
        ≤ 31 ^ (n + 1) * ((R - a) - 31) ∧
      (R - a < 32 → averageIterate R n (averageAfter a R) = a) ∧
      (R - a ≤ n + 1 + 31 → R - averageIterate R n (averageAfter a R) ≤ 31)
    refine ⟨i1, le_trans h2 i2, ?_, ?_, ?_⟩
    · calc 32 ^ (n + 1) * ((R - averageIterate R n (averageAfter a R)) - 31)
          = 32 * (32 ^ n * ((R - averageIterate R n (averageAfter a R)) - 31)) := by ring
        _ ≤ 32 * (31 ^ n * ((R - averageAfter a R) - 31)) := Nat.mul_le_mul_left _ i3
        _ = 31 ^ n * (32 * ((R - averageAfter a R) - 31)) := by ring
        _ ≤ 31 ^ n * (31 * ((R - a) - 31)) := Nat.mul_le_mul_left _ h3
        _ = 31 ^ (n + 1) * ((R - a) - 31) := by ring
    · intro h
      have hfix := h4 h
      rw [hfix] at i4 ⊢
      exact i4 h
    · intro h
      apply i5
      by_cases hbig : 32 ≤ R - a
      · have := h5 hbig
        omega
      · omega

/-- C16 (amended): for a constant measured runtime `R` and an initial average
`a_0`, both below `2^27` (so that line 251 does not wrap). From above
(`a_0 ≥ R`) the error contracts, `32^n (a_n - R) ≤ 31^n (a_0 - R)`, and the
average reaches `R` after at most `a_0 - R` dispatches. From below
(`a_0 ≤ R`) the average never exceeds `R` and only the part of the error
beyond 31 contracts, `32^n ((R - a_n) - 31) ≤ 31^n ((R - a_0) - 31)`: the
average comes within 31 of `R` after at most `R - a_0 - 31` dispatches, and
stays at `a_0` for ever when `R - a_0 < 32`. -/
theorem average_contraction (R a0 : Nat) (hR : R < 134217728) (ha : a0 < 134217728) :
    (R ≤ a0 → ∀ n,
        R ≤ averageIterate R n a0 ∧
        32 ^ n * absDiff (averageIterate R n a0) R ≤ 31 ^ n * absDiff a0 R ∧
        (a0 - R ≤ n → averageIterate R n a0 = R)) ∧
      (a0 ≤ R → ∀ n,
        averageIterate R n a0 ≤ R ∧ a0 ≤ averageIterate R n a0 ∧
        32 ^ n * (absDiff (averageIterate R n a0) R - 31) ≤ 31 ^ n * (absDiff a0 R - 31) ∧
        (R - a0 < 32 → averageIterate R n a0 = a0) ∧
        (R - a0 ≤ n + 31 → absDiff (averageIterate R n a0) R ≤ 31)) := by
  constructor
  · intro hle n
    obtain ⟨h1, h2, h3⟩ := averageIterate_above R n a0 ha hle
    have e1 : absDiff (averageIterate R n a0) R = averageIterate R n a0 - R := by
      unfold absDiff; omega
    have e2 : absDiff a0 R = a0 - R := by unfold absDiff; omega
    rw [e1, e2]
    exact ⟨h1, h2, h3⟩
  · intro hle n
    obtain ⟨h1, h2, h3, h4, h5⟩ := averageIterate_below R hR n a0 hle
    have e1 : absDiff (averageIterate R n a0) R = R - averageIterate R n a0 := by
      unfold absDiff; omega
    have e2 : absDiff a0 R = R - a0 := by unfold absDiff; omega
    rw [e1, e2]
    exact ⟨h1, h2, h3, h4, h5⟩

/-- C16 as stated fails from below: with `R = 100` and `a_0 = 99` the average
stays 99 for ever, so after one dispatch the error 1 exceeds `(31/32) * 1`
(`32 * 1 ≤ 31 * 1` is false) and the average never converges to `R`. -/
theorem average_stuck_below :
    averageIterate 100 1 99 = 99 ∧
      ¬ (32 ^ 1 * absDiff (averageIterate 100 1 99) 100 ≤ 31 ^ 1 * absDiff 99 100) ∧
      ∀ n, averageIterate 100 n 99 = 99 := by
  refine ⟨by decide, by decide, ?_⟩
  intro n
  exact (averageIterate_below 100 (by omega) n 99 (by omega)).2.2.2.1 (by omega)

/-- C16 at concrete inputs: from `a_0 = 1000` above `R = 100` the average is 100
after 900 dispatches and the error after 10 dispatches obeys the bound; from
`a_0 = 0` below `R = 100` the average is within 31 of `R` after 69
dispatches. -/
theorem average_contraction_witness :
    (100 : Nat) < 134217728 ∧ (1000 : Nat) < 134217728 ∧
      (averageIterate 100 900 1000 = 100 ∧
        32 ^ 10 * absDiff (averageIterate 100 10 1000) 100 ≤ 31 ^ 10 * absDiff 1000 100) ∧
      absDiff (averageIterate 100 69 0) 100 ≤ 31 :=
  ⟨by omega, by omega,
    ⟨((average_contraction 100 1000 (by omega) (by omega)).1 (by omega) 900).2.2 (by omega),
      ((average_contraction 100 1000 (by omega) (by omega)).1 (by omega) 10).2.1⟩,
    ((average_contraction 100 0 (by omega) (by omega)).2 (by omega) 69).2.2.2.2 (by omega)⟩

/-! ## Reachable states -/

theorem updateTask_eq_some (s s1 : State) (ptr : Option Nat) (f : cfTask_t → cfTask_t)
    (h : s.updateTask ptr f = some s1) :
    ∃ i task, ptr = some i ∧ s.cfTasks[i]? = some task ∧
      s1 = { s with cfTasks := s.cfTasks.set i (f task) } := by
  unfold State.updateTask at h
  split at h
  · exact absurd h (by simp)
  · rename_i i
    split at h
    · exact absurd h (by simp)
    · rename_i task htask
      exact ⟨i, task, rfl, htask, (Option.some.inj h).symm⟩

/-- What `setTaskEnabled` returns: the state itself, or the state with one
descriptor's `isEnabled` rewritten. -/
theorem setTaskEnabled_eq_some (self : Int) (s s1 : State) (taskId : Int) (enabled : Bool)
    (h : setTaskEnabled self s taskId enabled = some s1) :
    s1 = s ∨ ∃ i task, s.cfTasks[i]? = some task ∧
      s1 = { s with
             cfTasks := s.cfTasks.set i
               ({ task with isEnabled := enabled && task.taskFunc.isSome }) } := by
  unfold setTaskEnabled at h
  split at h
  · obtain ⟨i, task, _, ht, hs⟩ := updateTask_eq_some s s1 _ _ h
    exact Or.inr ⟨i, task, ht, hs⟩
  · exact Or.inl (Option.some.inj h).symm

/-- What `updateTaskExecutionPeriod` returns: the state itself, or the state
with one descriptor's `desiredPeriod` rewritten. -/
theorem updateTaskExecutionPeriod_eq_some (self : Int) (s s1 : State) (taskId : Int)
    (p : Nat) (h : updateTaskExecutionPeriod self s taskId p = some s1) :
    s1 = s ∨ ∃ i task, s.cfTasks[i]? = some task ∧
      s1 = { s with
             cfTasks := s.cfTasks.set i
               ({ task with desiredPeriod := max 100 (wrap32 p) }) } := by
  unfold updateTaskExecutionPeriod at h
  split at h
  · obtain ⟨i, task, _, ht, hs⟩ := updateTask_eq_some s s1 _ _ h
    exact Or.inr ⟨i, task, ht, hs⟩
  · exact Or.inl (Option.some.inj h).symm

/-- After a pass the current-task marker is `NULL`, whatever the task function
did. -/
theorem schedulerExecute_currentTask {W : Type} (env : Env W) (fuel : Nat) (m m1 : Machine W)
    (h : schedulerExecute env fuel m = some m1) : m1.sched.currentTask = none := by
  obtain ⟨s, sel, _, hdisp, _, _, _⟩ := schedulerExecute_eq_some env fuel m m1 h
  rcases schedulerDispatch_eq_some env s sel m1 hdisp with ⟨_, hm⟩ | ⟨_, _, _, _, _, _, _, _, hm⟩
  · rw [hm]; rfl
  · rw [hm]; rfl

/-- A step made outside any task keeps the current-task marker `NULL`. -/
theorem applyOp_currentTask {W : Type} (env : Env W) (op : Op W) (m m1 : Machine W)
    (hm : m.sched.currentTask = none) (h : applyOp env op m = some m1) :
    m1.sched.currentTask = none := by
  cases op with
  | schedulerInit =>
    simp only [applyOp, Option.some.injEq] at h
    rw [← h]
    exact hm
  | setTaskEnabled taskId enabled =>
    simp only [applyOp, Option.map_eq_some'] at h
    obtain ⟨s1, hs1, hm1⟩ := h
    rw [← hm1]
    rcases setTaskEnabled_eq_some _ _ _ _ _ hs1 with h1 | ⟨_, _, _, h1⟩
    · rw [h1]; exact hm
    · rw [h1]; exact hm
  | updateTaskExecutionPeriod taskId p =>
    simp only [applyOp, Option.map_eq_some'] at h
    obtain ⟨s1, hs1, hm1⟩ := h
    rw [← hm1]
    rcases updateTaskExecutionPeriod_eq_some _ _ _ _ _ hs1 with h1 | ⟨_, _, _, h1⟩
    · rw [h1]; exact hm
    · rw [h1]; exact hm
  | schedulerExecute fuel =>
    exact schedulerExecute_currentTask env fuel m m1 h
  | world change =>
    simp only [applyOp, Option.some.injEq] at h
    rw [← h]
    exact hm

theorem applyOps_currentTask {W : Type} (env : Env W) (ops : List (Op W)) :
    ∀ (m m1 : Machine W), m.sched.currentTask = none → applyOps env ops m = some m1 →
      m1.sched.currentTask = none := by
  induction ops with
  | nil =>
    intro m m1 hm h
    simp only [applyOps, Option.some.injEq] at h
    rw [← h]
    exact hm
  | cons op rest ih =>
    intro m m1 hm h
    unfold applyOps at h
    split at h
    · exact absurd h (by simp)
    · rename_i m2 hop
      exact ih m2 m1 (applyOp_currentTask env op m m2 hm hop) h

/-- While the task at index `i` is the current task, a control-surface call
with the id `TASK_SELF` is routed to it: `updateTaskExecutionPeriod` rewrites
the period of the descriptor at `i` and nothing else. -/
theorem updateTaskExecutionPeriod_self (self : Int) (x : State) (i : Nat) (task : cfTask_t)
    (p : Nat) (hcur : x.currentTask = some i) (ht : x.cfTasks[i]? = some task) :
    updateTaskExecutionPeriod self x self p
      = some { x with
               cfTasks := x.cfTasks.set i
                 ({ task with desiredPeriod := max 100 (wrap32 p) }) } := by
  unfold updateTaskExecutionPeriod
  have hacc : taskIdAccepted self x self = true := by
    simp [taskIdAccepted, hcur]
  rw [if_pos hacc]
  simp [State.updateTask, taskPointer, hcur, ht]

/-- C19: in every state reached from the initial state by `schedulerInit`,
`setTaskEnabled`, `updateTaskExecutionPeriod`, `schedulerExecute` and changes
of the outside world, the current-task marker is `NULL`; a pass ends with the
marker `NULL` whether or not it dispatched a task, from any state and whatever
the task function did. With the marker `NULL` and `TASK_SELF` outside the
table, the operations called with `TASK_SELF` do nothing. In a pass that
dispatches the task at index `i`, the task function is called on a state `x`
whose marker is `some i`, and on that state
`updateTaskExecutionPeriod(TASK_SELF, p)` rewrites the period of the
descriptor at `i` and nothing else. -/
theorem current_task_marker :
    (∀ (W : Type) (env : Env W) (tasks : List cfTask_t) (world : W) (ops : List (Op W))
        (m : Machine W),
        applyOps env ops { sched := initialState tasks, world := world, calls := [] }
          = some m →
        m.sched.currentTask = none) ∧
      (∀ (W : Type) (env : Env W) (fuel : Nat) (m m1 : Machine W),
        schedulerExecute env fuel m = some m1 → m1.sched.currentTask = none) ∧
      (∀ (self : Int) (s : State) (enabled : Bool) (p : Nat),
        s.currentTask = none →
        ¬ (0 ≤ self ∧ self < (s.taskCount : Int)) →
        setTaskEnabled self s self enabled = some s ∧
          updateTaskExecutionPeriod self s self p = some s ∧
          getTaskDeltaTime self s self = some 0) ∧
      (∀ (W : Type) (env : Env W) (fuel : Nat) (m m1 : Machine W) (i : Nat),
        schedulerExecute env fuel m = some m1 →
        dispatchedTask env fuel m = some (some i) →
        ∃ (f : Nat) (x : State) (w : W) (running : cfTask_t),
          x.currentTask = some i ∧ x.cfTasks[i]? = some running ∧
          m1.world = (env.taskFunc f (x, w)).2 ∧
          (∃ done t, m1.sched = finishTask (env.taskFunc f (x, w)).1 i done t) ∧
          ∀ p, updateTaskExecutionPeriod env.TASK_SELF x env.TASK_SELF p
            = some { x with
                     cfTasks := x.cfTasks.set i
                       ({ running with desiredPeriod := max 100 (wrap32 p) }) }) := by
  refine ⟨?_, ?_, ?_, ?_⟩
  · intro W env tasks world ops m h
    exact applyOps_currentTask env ops _ m rfl h
  · intro W env fuel m m1 h
    exact schedulerExecute_currentTask env fuel m m1 h
  · intro self s enabled p hcur hout
    have hacc := taskIdAccepted_of_invalid self s self hout (fun _ => hcur)
    refine ⟨?_, ?_, ?_⟩
    · unfold setTaskEnabled; rw [hacc]; rfl
    · unfold updateTaskExecutionPeriod; rw [hacc]; rfl
    · unfold getTaskDeltaTime; rw [hacc]; rfl
  · intro W env fuel m m1 i hrun hd
    obtain ⟨s, sel, _, hdisp, hdt, _, _⟩ := schedulerExecute_eq_some env fuel m m1 hrun
    have hi : sel.selectedTask = some i := by
      rw [hdt] at hd
      exact Option.some.inj hd
    rcases schedulerDispatch_eq_some env s sel m1 hdisp with
      ⟨hn, _⟩ | ⟨k, task, f, done, hk, htask, _, _, hm⟩
    · rw [hn] at hi
      exact absurd hi (by simp)
    · have hki : k = i := by
        rw [hk] at hi
        exact Option.some.inj hi
      subst hki
      have hklt : k < s.cfTasks.length := (List.getElem?_eq_some_iff.mp htask).1
      have hxk : (beginTask (accountPass s (some k)) k task).cfTasks[k]?
          = some { task with
                   taskLatestDeltaTime :=
                     sub32 (accountPass s (some k)).currentTime task.lastExecutedAt
                   lastExecutedAt := (accountPass s (some k)).currentTime } := by
        show (s.cfTasks.set k _)[k]? = _
        rw [List.getElem?_set_self hklt]
      refine ⟨f, beginTask (accountPass s (some k)) k task, sel.world, _, rfl, hxk,
        by rw [hm], ⟨done, _, by rw [hm]⟩, ?_⟩
      intro p
      exact updateTaskExecutionPeriod_self env.TASK_SELF _ k _ p rfl hxk

/-- C19 at concrete inputs: the replay of `BasicEventTask` ends with the marker
`NULL`; and when the task functions call
`updateTaskExecutionPeriod(TASK_SELF, 5000)`, the pass on `exampleGuardMachine`
dispatches the task at index 1 and changes that task's period only. -/
theorem current_task_marker_witness :
    (∃ m, applyOps testEnv testBasicEventTaskSteps testMachine = some m ∧
      m.sched.currentTask = none) ∧
    dispatchedTask exampleSelfEnv 5 exampleGuardMachine = some (some 1) ∧
    exampleGuardMachine.sched.cfTasks.map (fun t => t.desiredPeriod) = [1000, 100] ∧
    (schedulerExecute exampleSelfEnv 5 exampleGuardMachine).map
        (fun m1 => (m1.sched.currentTask, m1.sched.cfTasks.map (fun t => t.desiredPeriod)))
      = some (none, [1000, 5000]) := by
  refine ⟨?_, by decide!, by decide!, by decide!⟩
  obtain ⟨m, h⟩ := Option.isSome_iff_exists.mp
    (show (applyOps testEnv testBasicEventTaskSteps testMachine).isSome = true by decide!)
  exact ⟨m, h, current_task_marker.1 _ testEnv testTable (0, false)
    testBasicEventTaskSteps m h⟩

/-! ## Enabled tasks have a task function -/

theorem enabledHaveTaskFunc_of_cfTasks (s s1 : State) (h : s1.cfTasks = s.cfTasks)
    (hs : EnabledHaveTaskFunc s) : EnabledHaveTaskFunc s1 := by
  unfold EnabledHaveTaskFunc at hs ⊢
  rw [h]
  exact hs

theorem enabledHaveTaskFunc_set (s s1 : State) (i : Nat) (t : cfTask_t)
    (h : s1.cfTasks = s.cfTasks.set i t)
    (hs : EnabledHaveTaskFunc s)
    (ht : t.isEnabled = true → t.taskFunc.isSome = true) : EnabledHaveTaskFunc s1 := by
  unfold EnabledHaveTaskFunc at hs ⊢
  rw [h]
  intro task hmem
  rcases List.mem_or_eq_of_mem_set hmem with h1 | h1
  · exact hs task h1
  · rw [h1]; exact ht

theorem mem_of_getElem?_eq_some (l : List cfTask_t) (i : Nat) (t : cfTask_t)
    (h : l[i]? = some t) : t ∈ l :=
  List.mem_iff_getElem?.mpr ⟨i, h⟩

theorem setTaskEnabled_enabledHaveTaskFunc (self : Int) (s s1 : State) (taskId : Int)
    (enabled : Bool) (hs : EnabledHaveTaskFunc s)
    (h : setTaskEnabled self s taskId enabled = some s1) : EnabledHaveTaskFunc s1 := by
  rcases setTaskEnabled_eq_some self s s1 taskId enabled h with h1 | ⟨i, task, _, h1⟩
  · rw [h1]; exact hs
  · refine enabledHaveTaskFunc_set s s1 i _ (by rw [h1]) hs ?_
    intro hen
    simp only [Bool.and_eq_true] at hen
    exact hen.2

theorem updateTaskExecutionPeriod_enabledHaveTaskFunc (self : Int) (s s1 : State)
    (taskId : Int) (p : Nat) (hs : EnabledHaveTaskFunc s)
    (h : updateTaskExecutionPeriod self s taskId p = some s1) : EnabledHaveTaskFunc s1 := by
  rcases updateTaskExecutionPeriod_eq_some self s s1 taskId p h with h1 | ⟨i, task, ht, h1⟩
  · rw [h1]; exact hs
  · refine enabledHaveTaskFunc_set s s1 i _ (by rw [h1]) hs ?_
    exact hs task (mem_of_getElem?_eq_some _ _ _ ht)

theorem schedulerInit_enabledHaveTaskFunc (s : State) :
    EnabledHaveTaskFunc (schedulerInit s) := by
  intro task hmem hen
  simp only [schedulerInit, List.mem_map] at hmem
  obtain ⟨t0, _, rfl⟩ := hmem
  exact absurd hen (by simp)

/-- The selection part of a pass keeps `isEnabled` and `taskFunc` of every
descriptor, hence the invariant. -/
theorem schedulerSelect_enabledHaveTaskFunc {W : Type} (env : Env W) (fuel : Nat)
    (m : Machine W) (s : State) (sel : Selection W)
    (hs : EnabledHaveTaskFunc m.sched)
    (h : schedulerSelect env fuel m = some (s, sel)) : EnabledHaveTaskFunc s := by
  obtain ⟨tasks, hloop, hst⟩ := schedulerSelect_eq_some env fuel m s sel h
  have hstasks : s.cfTasks = tasks := by rw [hst]
  obtain ⟨hlen, _⟩ := selectLoop_descriptor env fuel _ _ m.sched.cfTasks 0 _ tasks sel hloop
  intro t1 hmem hen
  rw [hstasks] at hmem
  obtain ⟨j, hj⟩ := List.mem_iff_getElem?.mp hmem
  have hjlt : j < m.sched.cfTasks.length := by
    rw [← hlen]
    exact (List.getElem?_eq_some_iff.mp hj).1
  obtain ⟨ideal, waiting, hout⟩ := selectLoop_descriptor_fields env fuel _ _ m.sched.cfTasks 0 _
    tasks sel hloop j m.sched.cfTasks[j] (List.getElem?_eq_getElem hjlt)
  rw [hj] at hout
  have ht1 := Option.some.inj hout
  rw [ht1] at hen ⊢
  exact hs (m.sched.cfTasks[j]) (List.getElem_mem hjlt) hen

theorem schedulerExecute_enabledHaveTaskFunc {W : Type} (env : Env W) (fuel : Nat)
    (m m1 : Machine W)
    (hfun : ∀ f x, EnabledHaveTaskFunc x.1 → EnabledHaveTaskFunc (env.taskFunc f x).1)
    (hs : EnabledHaveTaskFunc m.sched)
    (h : schedulerExecute env fuel m = some m1) : EnabledHaveTaskFunc m1.sched := by
  obtain ⟨s, sel, hsel, hdisp, _, _, _⟩ := schedulerExecute_eq_some env fuel m m1 h
  have hs1 := schedulerSelect_enabledHaveTaskFunc env fuel m s sel hs hsel
  rcases schedulerDispatch_eq_some env s sel m1 hdisp with
    ⟨_, hm⟩ | ⟨i, task, f, done, _, htask, _, hdone, hm⟩
  · rw [hm]
    exact enabledHaveTaskFunc_of_cfTasks s _ rfl hs1
  · have hx : EnabledHaveTaskFunc (beginTask (accountPass s (some i)) i task) :=
      enabledHaveTaskFunc_set s _ i _ rfl hs1
        (hs1 task (mem_of_getElem?_eq_some _ _ _ htask))
    have hr := hfun f (beginTask (accountPass s (some i)) i task, sel.world) hx
    rw [hm]
    exact enabledHaveTaskFunc_set _ _ i _ rfl hr
      (hr done (mem_of_getElem?_eq_some _ _ _ hdone))

theorem applyOp_enabledHaveTaskFunc {W : Type} (env : Env W) (op : Op W) (m m1 : Machine W)
    (hfun : ∀ f x, EnabledHaveTaskFunc x.1 → EnabledHaveTaskFunc (env.taskFunc f x).1)
    (hm : EnabledHaveTaskFunc m.sched) (h : applyOp env op m = some m1) :
    EnabledHaveTaskFunc m1.sched := by
  cases op with
  | schedulerInit =>
    simp only [applyOp, Option.some.injEq] at h
    rw [← h]
    exact schedulerInit_enabledHaveTaskFunc m.sched
  | setTaskEnabled taskId enabled =>
    simp only [applyOp, Option.map_eq_some'] at h
    obtain ⟨s1, hs1, hm1⟩ := h
    rw [← hm1]
    exact setTaskEnabled_enabledHaveTaskFunc _ _ _ _ _ hm hs1
  | updateTaskExecutionPeriod taskId p =>
    simp only [applyOp, Option.map_eq_some'] at h
    obtain ⟨s1, hs1, hm1⟩ := h
    rw [← hm1]
    exact updateTaskExecutionPeriod_enabledHaveTaskFunc _ _ _ _ _ hm hs1
  | schedulerExecute fuel =>
    exact schedulerExecute_enabledHaveTaskFunc env fuel m m1 hfun hm h
  | world change =>
    simp only [applyOp, Option.some.injEq] at h
    rw [← h]
    exact hm

theorem applyOps_enabledHaveTaskFunc {W : Type} (env : Env W) (ops : List (Op W))
    (hfun : ∀ f x, EnabledHaveTaskFunc x.1 → EnabledHaveTaskFunc (env.taskFunc f x).1) :
    ∀ (m m1 : Machine W), EnabledHaveTaskFunc m.sched → applyOps env ops m = some m1 →
      EnabledHaveTaskFunc m1.sched := by
  induction ops with
  | nil =>
    intro m m1 hm h
    simp only [applyOps, Option.some.injEq] at h
    rw [← h]
    exact hm
  | cons op rest ih =>
    intro m m1 hm h
    unfold applyOps at h
    split at h
    · exact absurd h (by simp)
    · rename_i m2 hop
      exact ih m2 m1 (applyOp_enabledHaveTaskFunc env op m m2 hfun hm hop) h

/-- C20: `schedulerInit` establishes, and `setTaskEnabled`,
`updateTaskExecutionPeriod`, `taskSystem` and `schedulerExecute` preserve, that
every enabled task has a `taskFunc` (a pass preserves it when its task
functions do, as the control surface and `taskSystem` do); so it holds in
every state reached after `schedulerInit`. The task a pass selects is enabled
at selection time, and under the invariant its `taskFunc` is present, so the
dispatch does not call a missing `taskFunc`. -/
theorem enabled_tasks_have_taskFunc :
    (∀ s : State, EnabledHaveTaskFunc (schedulerInit s)) ∧
      (∀ (self : Int) (s s1 : State) (taskId : Int) (enabled : Bool),
        EnabledHaveTaskFunc s → setTaskEnabled self s taskId enabled = some s1 →
        EnabledHaveTaskFunc s1) ∧
      (∀ (self : Int) (s s1 : State) (taskId : Int) (p : Nat),
        EnabledHaveTaskFunc s → updateTaskExecutionPeriod self s taskId p = some s1 →
        EnabledHaveTaskFunc s1) ∧
      (∀ (realtime : Nat) (s : State),
        EnabledHaveTaskFunc s → EnabledHaveTaskFunc (taskSystem realtime s)) ∧
      (∀ (W : Type) (env : Env W) (fuel : Nat) (m m1 : Machine W),
        (∀ f x, EnabledHaveTaskFunc x.1 → EnabledHaveTaskFunc (env.taskFunc f x).1) →
        EnabledHaveTaskFunc m.sched → schedulerExecute env fuel m = some m1 →
        EnabledHaveTaskFunc m1.sched) ∧
      (∀ (W : Type) (env : Env W) (ops : List (Op W)) (m0 m : Machine W),
        (∀ f x, EnabledHaveTaskFunc x.1 → EnabledHaveTaskFunc (env.taskFunc f x).1) →
        applyOps env (Op.schedulerInit :: ops) m0 = some m →
        EnabledHaveTaskFunc m.sched) ∧
      (∀ (W : Type) (env : Env W) (fuel : Nat) (m : Machine W) (s : State)
        (sel : Selection W) (i : Nat),
        schedulerSelect env fuel m = some (s, sel) → sel.selectedTask = some i →
        ∃ selected, s.cfTasks[i]? = some selected ∧ selected.isEnabled = true ∧
          (EnabledHaveTaskFunc m.sched → ∃ f, selected.taskFunc = some f)) := by
  refine ⟨schedulerInit_enabledHaveTaskFunc, ?_, ?_, ?_, ?_, ?_, ?_⟩
  · intro self s s1 taskId enabled hs h
    exact setTaskEnabled_enabledHaveTaskFunc self s s1 taskId enabled hs h
  · intro self s s1 taskId p hs h
    exact updateTaskExecutionPeriod_enabledHaveTaskFunc self s s1 taskId p hs h
  · intro realtime s hs
    exact enabledHaveTaskFunc_of_cfTasks s _ (taskSystem_cfTasks realtime s) hs
  · intro W env fuel m m1 hfun hs h
    exact schedulerExecute_enabledHaveTaskFunc env fuel m m1 hfun hs h
  · intro W env ops m0 m hfun h
    exact applyOps_enabledHaveTaskFunc env ops hfun
      { m0 with sched := schedulerInit m0.sched } m
      (schedulerInit_enabledHaveTaskFunc m0.sched) h
  · intro W env fuel m s sel i hsel hi
    obtain ⟨tasks, hloop, hst⟩ := schedulerSelect_eq_some env fuel m s sel hsel
    have hstasks : s.cfTasks = tasks := by rw [hst]
    rcases selectLoop_selected env fuel _ _ m.sched.cfTasks 0 _ _ hloop with
      h1 | ⟨j, task, h1, h2, h3, _⟩
    · simp only at h1
      rw [hi] at h1
      exact absurd h1 (by simp)
    · simp only at h1
      rw [hi, Nat.zero_add] at h1
      have hij : i = j := Option.some.inj h1
      subst hij
      obtain ⟨ideal, waiting, hout⟩ := selectLoop_descriptor_fields env fuel _ _
        m.sched.cfTasks 0 _ tasks sel hloop i task h2
      refine ⟨{ task with isWaitingToBeRan := waiting, lastIdealExecutionTime := ideal },
        by rw [hstasks]; exact hout, h3, ?_⟩
      intro hinv
      have hf := hinv task (mem_of_getElem?_eq_some _ _ _ h2) h3
      exact Option.isSome_iff_exists.mp hf

/-- The task functions of the test stubs keep the invariant. -/
theorem testEnv_taskFunc_enabledHaveTaskFunc (f : Nat) (x : State × (Nat × Bool))
    (hx : EnabledHaveTaskFunc x.1) : EnabledHaveTaskFunc (testEnv.taskFunc f x).1 :=
  enabledHaveTaskFunc_of_cfTasks x.1 _ (testEnv_taskFunc_cfTasks f x) hx

/-- C20 on `BasicEventTask`: the replay ends in a state in which every enabled
task has a `taskFunc`. -/
theorem enabled_tasks_have_taskFunc_witness :
    ∃ m, applyOps testEnv testBasicEventTaskSteps testMachine = some m ∧
      EnabledHaveTaskFunc m.sched := by
  obtain ⟨m, h⟩ := Option.isSome_iff_exists.mp
    (show (applyOps testEnv testBasicEventTaskSteps testMachine).isSome = true by decide!)
  exact ⟨m, h, enabled_tasks_have_taskFunc.2.2.2.2.2.1 _ testEnv
    testBasicEventTaskSteps.tail testMachine m testEnv_taskFunc_enabledHaveTaskFunc h⟩

/-! ## Enabling and disabling a task -/

/-- What `setTaskEnabled` returns for a table index: the descriptor at that
index with `isEnabled` rewritten. -/
theorem setTaskEnabled_valid (self : Int) (s : State) (taskId : Int) (enabled : Bool)
    (task : cfTask_t)
    (hlo : 0 ≤ taskId) (hhi : taskId < (s.taskCount : Int)) (hself : taskId ≠ self)
    (ht : s.cfTasks[taskId.toNat]? = some task) :
    setTaskEnabled self s taskId enabled
      = some { s with
               cfTasks := s.cfTasks.set taskId.toNat
                 ({ task with isEnabled := enabled && task.taskFunc.isSome }) } := by
  obtain ⟨task0, ht0, hu⟩ := updateTask_valid self s taskId
    (fun task => { task with isEnabled := enabled && task.taskFunc.isSome }) hlo hhi hself
  rw [ht] at ht0
  have h0 : task = task0 := Option.some.inj ht0
  rw [← h0] at hu
  unfold setTaskEnabled
  rw [if_pos (taskIdAccepted_of_valid self s taskId hlo hhi)]
  exact hu

/-- The task the loop ends with is the one it started with or a task that,
after the readiness update, is enabled, waiting and eligible. -/
theorem selectLoop_selected_candidate {W : Type} (env : Env W) (fuel currentTime : Nat)
    (outside : Bool) (tasks : List cfTask_t) :
    ∀ (ii : Nat) (sel : Selection W) (out : List cfTask_t) (sel1 : Selection W),
      selectLoop env fuel currentTime outside ii tasks sel = some (out, sel1) →
      sel1.selectedTask = sel.selectedTask ∨
        ∃ (j : Nat) (tj : cfTask_t), sel1.selectedTask = some (ii + j) ∧ out[j]? = some tj ∧
          IsCandidate env.TASK_PRIORITY_REALTIME outside tj := by
  induction tasks with
  | nil =>
    intro ii sel out sel1 h
    unfold selectLoop at h
    simp only [Option.some.injEq, Prod.mk.injEq] at h
    left
    rw [h.2]
  | cons head rest ih =>
    intro ii sel out sel1 h
    unfold selectLoop at h
    split at h
    · simp only [Option.map_eq_some', Prod.mk.injEq] at h
      obtain ⟨⟨out0, sel0⟩, hr0, hout, hsel⟩ := h
      simp only at hout hsel
      subst hout hsel
      rcases ih (ii + 1) sel out0 sel0 hr0 with h1 | ⟨j, tj, h1, h2, h3⟩
      · left; exact h1
      · right
        refine ⟨j + 1, tj, ?_, by simpa using h2, h3⟩
        rw [h1]; congr 1; omega
    · rename_i hen
      have hhead : head.isEnabled = true := by simpa using hen
      split at h
      · exact absurd h (by simp)
      · rename_i task1 world1 calls1 hupd
        split at h
        · exact absurd h (by simp)
        · rename_i selc hcons
          simp only [Option.map_eq_some', Prod.mk.injEq] at h
          obtain ⟨⟨out0, sel0⟩, hr0, hout, hsel⟩ := h
          simp only at hout hsel
          subst hout hsel
          have hen1 : task1.isEnabled = true := by
            obtain ⟨ideal, waiting, ht1⟩ := updateReadiness_eq_some env fuel currentTime ii
              head task1 sel.world world1 sel.calls calls1 hupd
            rw [ht1]
            exact hhead
          rcases ih (ii + 1) selc out0 sel0 hr0 with h1 | ⟨j, tj, h1, h2, h3⟩
          · rcases considerTask_eq_some _ _ _ _ _ _ _ hcons with hs | ⟨score, hw, _, _, hel, hs⟩
            · left; rw [h1, hs]
            · right
              refine ⟨0, task1, ?_, by simp, hen1, hw, hel⟩
              rw [h1, hs]; rfl
          · right
            refine ⟨j + 1, tj, ?_, by simpa using h2, h3⟩
            rw [h1]; congr 1; omega

/-- The task a pass selects is, after the readiness update, enabled, waiting
and eligible. -/
theorem schedulerSelect_selected_candidate {W : Type} (env : Env W) (fuel : Nat)
    (m : Machine W) (s : State) (sel : Selection W) (i : Nat)
    (hsel : schedulerSelect env fuel m = some (s, sel)) (hi : sel.selectedTask = some i) :
    ∃ ti, s.cfTasks[i]? = some ti ∧
      IsCandidate env.TASK_PRIORITY_REALTIME
        (decide (timeToNextRealtimeTask env.TASK_PRIORITY_REALTIME
          (wrap32 (env.micros m.world)) m.sched.cfTasks UINT32_MAX
            > m.sched.realtimeGuardInterval)) ti := by
  obtain ⟨tasks, hloop, hs⟩ := schedulerSelect_eq_some env fuel m s sel hsel
  have hstasks : s.cfTasks = tasks := by rw [hs]
  rcases selectLoop_selected_candidate env fuel _ _ m.sched.cfTasks 0 _ tasks sel hloop with
    h1 | ⟨j, tj, h1, h2, h3⟩
  · simp only at h1
    rw [hi] at h1
    exact absurd h1 (by simp)
  · rw [hi, Nat.zero_add] at h1
    have hij : i = j := Option.some.inj h1
    rw [hij, hstasks]
    exact ⟨tj, h2, h3⟩

/-- A pass leaves the descriptor of a disabled task as it is, when the task
functions do. -/
theorem schedulerExecute_disabled_descriptor {W : Type} (env : Env W) (fuel : Nat)
    (m m1 : Machine W) (j : Nat) (t : cfTask_t)
    (hrun : schedulerExecute env fuel m = some m1)
    (ht : m.sched.cfTasks[j]? = some t) (hdis : t.isEnabled = false)
    (hkeep : ∀ f x, (env.taskFunc f x).1.cfTasks[j]? = x.1.cfTasks[j]?) :
    m1.sched.cfTasks[j]? = some t := by
  obtain ⟨s, sel, hsel, hdisp, _, _, _⟩ := schedulerExecute_eq_some env fuel m m1 hrun
  obtain ⟨tasks, hloop, hs⟩ := schedulerSelect_eq_some env fuel m s sel hsel
  have hstasks : s.cfTasks = tasks := by rw [hs]
  have hout : tasks[j]? = some t :=
    ((selectLoop_descriptor env fuel _ _ m.sched.cfTasks 0 _ tasks sel hloop).2 j t ht).1 hdis
  have hne : sel.selectedTask ≠ some j := by
    intro hj
    obtain ⟨tj, h2, h3⟩ := schedulerSelect_selected_candidate env fuel m s sel j hsel hj
    rw [hstasks, hout] at h2
    have htj : t = tj := Option.some.inj h2
    rw [← htj, IsCandidate, hdis] at h3
    exact absurd h3.1 (by simp)
  rw [schedulerDispatch_descriptor_other env s sel m1 j hdisp hne hkeep, hstasks]
  exact hout

/-- The task a pass selects has gone through the readiness update of that pass
and left it waiting. -/
theorem schedulerSelect_selected_became_ready {W : Type} (env : Env W) (fuel : Nat)
    (m : Machine W) (s : State) (sel : Selection W) (j : Nat) (t : cfTask_t)
    (hsel : schedulerSelect env fuel m = some (s, sel)) (hj : sel.selectedTask = some j)
    (ht : m.sched.cfTasks[j]? = some t) :
    ∃ (world : W) (calls : List Call) (t1 : cfTask_t) (world1 : W) (calls1 : List Call),
      updateReadiness env fuel (wrap32 (env.micros m.world)) j t world calls
        = some (t1, world1, calls1) ∧
      t1.isWaitingToBeRan = true ∧ s.cfTasks[j]? = some t1 := by
  obtain ⟨tj, h2, h3⟩ := schedulerSelect_selected_candidate env fuel m s sel j hsel hj
  obtain ⟨tasks, hloop, hs⟩ := schedulerSelect_eq_some env fuel m s sel hsel
  have hstasks : s.cfTasks = tasks := by rw [hs]
  have hdesc := (selectLoop_descriptor env fuel _ _ m.sched.cfTasks 0 _ tasks sel hloop).2 j t ht
  by_cases hen : t.isEnabled = true
  · obtain ⟨world, calls, t1, world1, calls1, hupd, hout⟩ := hdesc.2 hen
    rw [Nat.zero_add] at hupd
    rw [hstasks, hout] at h2
    have htj : t1 = tj := Option.some.inj h2
    refine ⟨world, calls, t1, world1, calls1, hupd, ?_, by rw [hstasks]; exact hout⟩
    rw [htj]
    exact h3.2.1
  · have hdis : t.isEnabled = false := by simpa using hen
    have hout := hdesc.1 hdis
    rw [hstasks, hout] at h2
    have htj : t = tj := Option.some.inj h2
    rw [← htj, IsCandidate, hdis] at h3
    exact absurd h3.1 (by simp)

/-- C21 (as the code has it): `setTaskEnabled` writes `isEnabled` and nothing
else. For a table index whose task is disabled and has a `taskFunc`,
`setTaskEnabled(id, true)` returns the state in which that task is enabled and
`isWaitingToBeRan` is what it was: the task becomes idle when it was not
waiting and ready when it was. `setTaskEnabled(id, false)` keeps
`isWaitingToBeRan` too, and a pass leaves the descriptor of a disabled task as
it is (when the task functions do), so a task disabled while ready is ready at
once when it is enabled again. A task that is not waiting before a pass is
selected by that pass only if the readiness update of the pass marked it
waiting. -/
theorem setTaskEnabled_keeps_waiting (self : Int) (s : State) (taskId : Int)
    (task : cfTask_t)
    (hlo : 0 ≤ taskId) (hhi : taskId < (s.taskCount : Int)) (hself : taskId ≠ self)
    (ht : s.cfTasks[taskId.toNat]? = some task)
    (hdis : task.isEnabled = false) (hfun : task.taskFunc.isSome = true) :
    setTaskEnabled self s taskId true
        = some { s with
                 cfTasks := s.cfTasks.set taskId.toNat ({ task with isEnabled := true }) } ∧
      (∃ s1 t1, setTaskEnabled self s taskId true = some s1 ∧
        s1.cfTasks[taskId.toNat]? = some t1 ∧ t1.isEnabled = true ∧
        t1.isWaitingToBeRan = task.isWaitingToBeRan) ∧
      (∀ (s0 : State) (t0 : cfTask_t), taskId < (s0.taskCount : Int) →
        s0.cfTasks[taskId.toNat]? = some t0 →
        setTaskEnabled self s0 taskId false
          = some { s0 with
                   cfTasks := s0.cfTasks.set taskId.toNat ({ t0 with isEnabled := false }) }) ∧
      (∀ (W : Type) (env : Env W) (fuel : Nat) (m m1 : Machine W),
        m.sched = s →
        (∀ f x, (env.taskFunc f x).1.cfTasks[taskId.toNat]? = x.1.cfTasks[taskId.toNat]?) →
        schedulerExecute env fuel m = some m1 →
        m1.sched.cfTasks[taskId.toNat]? = some task) ∧
      (∀ (W : Type) (env : Env W) (fuel : Nat) (m : Machine W) (s2 : State)
        (sel : Selection W) (j : Nat) (t : cfTask_t),
        schedulerSelect env fuel m = some (s2, sel) → sel.selectedTask = some j →
        m.sched.cfTasks[j]? = some t → t.isWaitingToBeRan = false →
        ∃ (world : W) (calls : List Call) (t1 : cfTask_t) (world1 : W) (calls1 : List Call),
          updateReadiness env fuel (wrap32 (env.micros m.world)) j t world calls
            = some (t1, world1, calls1) ∧
          t1.isWaitingToBeRan = true ∧ s2.cfTasks[j]? = some t1) := by
  have henable := setTaskEnabled_valid self s taskId true task hlo hhi hself ht
  rw [hfun] at henable
  have hi := valid_index s taskId hlo hhi
  refine ⟨henable, ⟨_, { task with isEnabled := true }, henable, ?_, rfl, rfl⟩, ?_, ?_, ?_⟩
  · show (s.cfTasks.set taskId.toNat _)[taskId.toNat]? = _
    rw [List.getElem?_set_self hi]
    rfl
  · intro s0 t0 hhi0 ht0
    exact setTaskEnabled_valid self s0 taskId false t0 hlo hhi0 hself ht0
  · intro W env fuel m m1 hm hkeep hrun
    exact schedulerExecute_disabled_descriptor env fuel m m1 taskId.toNat task hrun
      (by rw [hm]; exact ht) hdis hkeep
  · intro W env fuel m s2 sel j t hsel hj htj _
    exact schedulerSelect_selected_became_ready env fuel m s2 sel j t hsel hj htj

/-- C21 as stated fails on the sequel of `BasicEventTask`: RX is ready (waiting
since 40000) when it is disabled; it is then disabled, has a `taskFunc` and is
still waiting; `setTaskEnabled(RX, true)` makes it enabled and waiting, that is
ready and not idle; and with the check set to answer `false` and GYROPID
disabled, the next pass dispatches RX without calling its check function. -/
theorem reenabled_task_is_ready_at_once :
    applyOps testEnv testReenableSteps testMachine = some testReenableMachine ∧
      (testReenableMachine.sched.cfTasks[4]?).map
          (fun t => (t.isEnabled, t.taskFunc.isSome, t.isWaitingToBeRan))
        = some (false, true, true) ∧
      ((setTaskEnabled testEnv.TASK_SELF testReenableMachine.sched 4 true).bind
          (fun s => s.cfTasks[4]?)).map (fun t => (t.isEnabled, t.isWaitingToBeRan))
        = some (true, true) ∧
      testReenableMachine.world.2 = false ∧
      (applyOps testEnv
          [Op.setTaskEnabled 4 true, Op.setTaskEnabled 1 false, Op.schedulerExecute 50]
          testReenableMachine).map (fun m => m.calls)
        = some (testReenableMachine.calls ++ [Call.task 4]) := by
  decide!

/-- C21 (as the code has it) at the RX task of `testReenableMachine`, which was
disabled while waiting: enabling it gives an enabled task that is waiting. -/
theorem setTaskEnabled_keeps_waiting_witness :
    testReenableMachine.sched.cfTasks[(4 : Int).toNat]?
        = some { exampleRxWaiting with isEnabled := false } ∧
      ∃ s1 t1, setTaskEnabled (-1) testReenableMachine.sched 4 true = some s1 ∧
        s1.cfTasks[(4 : Int).toNat]? = some t1 ∧ t1.isEnabled = true ∧
        t1.isWaitingToBeRan = true :=
  ⟨by decide!,
    (setTaskEnabled_keeps_waiting (-1) testReenableMachine.sched 4
      { exampleRxWaiting with isEnabled := false }
      (by decide) (by decide!) (by decide) (by decide!) rfl rfl).2.1⟩

/-! ## The system load -/

/-- The counters after a pass: a pass without dispatch ends with the pass
counter incremented (modulo `2^32`) and the passes-with-work counter as it was;
in a pass with dispatch the task function is called on a state in which both
counters are incremented, and the pass ends with the counters as the task
function left them. -/
theorem schedulerExecute_counters {W : Type} (env : Env W) (fuel : Nat) (m m1 : Machine W)
    (hrun : schedulerExecute env fuel m = some m1) :
    (dispatchedTask env fuel m = some none ∧
        m1.sched.currentSchedulerExecutionPasses
          = wrap32 (m.sched.currentSchedulerExecutionPasses + 1) ∧
        m1.sched.currentSchedulerExecutionPassesWithWork
          = m.sched.currentSchedulerExecutionPassesWithWork ∧
        m1.sched.averageSystemLoadPercent = m.sched.averageSystemLoadPercent) ∨
      ∃ (i f : Nat) (x : State) (w : W),
        dispatchedTask env fuel m = some (some i) ∧
        x.currentSchedulerExecutionPasses
          = wrap32 (m.sched.currentSchedulerExecutionPasses + 1) ∧
        x.currentSchedulerExecutionPassesWithWork
          = wrap32 (m.sched.currentSchedulerExecutionPassesWithWork + 1) ∧
        x.averageSystemLoadPercent = m.sched.averageSystemLoadPercent ∧
        m1.world = (env.taskFunc f (x, w)).2 ∧
        m1.sched.currentSchedulerExecutionPasses
          = (env.taskFunc f (x, w)).1.currentSchedulerExecutionPasses ∧
        m1.sched.currentSchedulerExecutionPassesWithWork
          = (env.taskFunc f (x, w)).1.currentSchedulerExecutionPassesWithWork ∧
        m1.sched.averageSystemLoadPercent
          = (env.taskFunc f (x, w)).1.averageSystemLoadPercent := by
  obtain ⟨s, sel, hsel, hdisp, hdt, _, _⟩ := schedulerExecute_eq_some env fuel m m1 hrun
  obtain ⟨tasks, _, hs⟩ := schedulerSelect_eq_some env fuel m s sel hsel
  rcases schedulerDispatch_eq_some env s sel m1 hdisp with
    ⟨hn, hm⟩ | ⟨i, task, f, done, hi, _, _, _, hm⟩
  · left
    rw [hn] at hdt
    refine ⟨hdt, ?_, ?_, ?_⟩
    · rw [hm, hs]; rfl
    · rw [hm, hs]; rfl
    · rw [hm, hs]; rfl
  · right
    rw [hi] at hdt
    refine ⟨i, f, beginTask (accountPass s (some i)) i task, sel.world, hdt, ?_, ?_, ?_,
      by rw [hm], by rw [hm]; rfl, by rw [hm]; rfl, by rw [hm]; rfl⟩
    · rw [hs]; rfl
    · rw [hs]; rfl
    · rw [hs]; rfl

/-- C22 (as the code has it): for a counter state in which
`100 * passesWithWork` fits in 32 bits and the quotient fits in 16 bits (both
hold when `passesWithWork ≤ passes` and `passesWithWork ≤ 42949672`),
`taskSystem` with `passes > 0` sets `averageSystemLoadPercent =
100 * passesWithWork / passes` and resets both counters, and with `passes = 0`
it changes none of the three. The accounting step of a pass increments the
pass counter modulo `2^32` and the passes-with-work counter exactly when a
task is selected; a pass without dispatch ends with these values, and in a
pass with dispatch the task function runs on these values and the pass ends
with the counters as the task function left them (`taskSystem` resets them). -/
theorem system_load_accounting (realtime : Nat) (s : State)
    (hmul : 100 * s.currentSchedulerExecutionPassesWithWork < 4294967296)
    (hq : 100 * s.currentSchedulerExecutionPassesWithWork / s.currentSchedulerExecutionPasses
      < 65536) :
    (0 < s.currentSchedulerExecutionPasses →
        (taskSystem realtime s).averageSystemLoadPercent
          = 100 * s.currentSchedulerExecutionPassesWithWork
              / s.currentSchedulerExecutionPasses ∧
        (taskSystem realtime s).currentSchedulerExecutionPasses = 0 ∧
        (taskSystem realtime s).currentSchedulerExecutionPassesWithWork = 0) ∧
      (s.currentSchedulerExecutionPasses = 0 →
        (taskSystem realtime s).averageSystemLoadPercent = s.averageSystemLoadPercent ∧
        (taskSystem realtime s).currentSchedulerExecutionPasses = 0 ∧
        (taskSystem realtime s).currentSchedulerExecutionPassesWithWork
          = s.currentSchedulerExecutionPassesWithWork) ∧
      (∀ selectedTask : Option Nat,
        (accountPass s selectedTask).currentSchedulerExecutionPasses
          = wrap32 (s.currentSchedulerExecutionPasses + 1) ∧
        (accountPass s selectedTask).currentSchedulerExecutionPassesWithWork
          = (if selectedTask.isSome then wrap32 (s.currentSchedulerExecutionPassesWithWork + 1)
             else s.currentSchedulerExecutionPassesWithWork) ∧
        (accountPass s selectedTask).averageSystemLoadPercent = s.averageSystemLoadPercent) ∧
      (∀ (W : Type) (env : Env W) (fuel : Nat) (m m1 : Machine W),
        m.sched = s → schedulerExecute env fuel m = some m1 →
        (dispatchedTask env fuel m = some none ∧
            m1.sched.currentSchedulerExecutionPasses
              = wrap32 (s.currentSchedulerExecutionPasses + 1) ∧
            m1.sched.currentSchedulerExecutionPassesWithWork
              = s.currentSchedulerExecutionPassesWithWork ∧
            m1.sched.averageSystemLoadPercent = s.averageSystemLoadPercent) ∨
          ∃ (i f : Nat) (x : State) (w : W),
            dispatchedTask env fuel m = some (some i) ∧
            x.currentSchedulerExecutionPasses
              = wrap32 (s.currentSchedulerExecutionPasses + 1) ∧
            x.currentSchedulerExecutionPassesWithWork
              = wrap32 (s.currentSchedulerExecutionPassesWithWork + 1) ∧
            x.averageSystemLoadPercent = s.averageSystemLoadPercent ∧
            m1.world = (env.taskFunc f (x, w)).2 ∧
            m1.sched.currentSchedulerExecutionPasses
              = (env.taskFunc f (x, w)).1.currentSchedulerExecutionPasses ∧
            m1.sched.currentSchedulerExecutionPassesWithWork
              = (env.taskFunc f (x, w)).1.currentSchedulerExecutionPassesWithWork ∧
            m1.sched.averageSystemLoadPercent
              = (env.taskFunc f (x, w)).1.averageSystemLoadPercent) := by
  refine ⟨?_, ?_, ?_, ?_⟩
  · intro hpos
    have hw32 : wrap32 (100 * s.currentSchedulerExecutionPassesWithWork)
        = 100 * s.currentSchedulerExecutionPassesWithWork := Nat.mod_eq_of_lt hmul
    have hw16 : wrap16 (100 * s.currentSchedulerExecutionPassesWithWork
        / s.currentSchedulerExecutionPasses)
        = 100 * s.currentSchedulerExecutionPassesWithWork
          / s.currentSchedulerExecutionPasses := Nat.mod_eq_of_lt hq
    unfold taskSystem
    simp only [if_pos hpos, hw32, hw16, and_self]
  · intro hzero
    unfold taskSystem
    simp only [hzero, if_neg (Nat.lt_irrefl 0), and_self]
  · intro selectedTask
    exact ⟨rfl, rfl, rfl⟩
  · intro W env fuel m m1 hm hrun
    rw [← hm]
    exact schedulerExecute_counters env fuel m m1 hrun

/-- C22 as stated fails when `100 * passesWithWork` exceeds 32 bits: with
`passes = passesWithWork = 42949673` the load `100 * passesWithWork / passes`
is 100, and `taskSystem` stores 0. -/
theorem system_load_product_wraps :
    0 < exampleLoadState.currentSchedulerExecutionPasses ∧
      100 * exampleLoadState.currentSchedulerExecutionPassesWithWork
          / exampleLoadState.currentSchedulerExecutionPasses = 100 ∧
      (taskSystem 6 exampleLoadState).averageSystemLoadPercent = 0 := by
  decide

/-- C22 (as the code has it) at the counters of `exampleAccelMachine`, three
passes of which one had work: `taskSystem` stores the load 33 and resets the
counters. -/
theorem system_load_accounting_witness :
    100 * exampleAccelMachine.sched.currentSchedulerExecutionPassesWithWork < 4294967296 ∧
      (taskSystem 6 exampleAccelMachine.sched).averageSystemLoadPercent = 33 ∧
      (taskSystem 6 exampleAccelMachine.sched).currentSchedulerExecutionPasses = 0 ∧
      (taskSystem 6 exampleAccelMachine.sched).currentSchedulerExecutionPassesWithWork = 0 :=
  ⟨by decide,
    (system_load_accounting 6 exampleAccelMachine.sched (by decide) (by decide)).1
      (by decide)⟩

/-! ## Work conservation -/

/-- With a period of at least 100 and a priority of at most 99 the score is
computed without 32-bit wrap and is positive. -/
theorem starvationPriority_pos (currentTime realtime : Nat) (task : cfTask_t)
    (hrt : realtime ≤ 99) (hP : 100 ≤ task.desiredPeriod) (hp : task.priority ≤ realtime) :
    ∃ score, starvationPriority currentTime task = some score ∧ 0 < score := by
  unfold starvationPriority taskAge
  rw [if_neg (by omega)]
  refine ⟨_, rfl, ?_⟩
  beta_reduce
  have hd : sub32 currentTime task.lastIdealExecutionTime < 4294967296 :=
    Nat.mod_lt _ (by decide)
  have hq : sub32 currentTime task.lastIdealExecutionTime / task.desiredPeriod
      ≤ 42949672 := by
    have h1 : sub32 currentTime task.lastIdealExecutionTime / task.desiredPeriod
        ≤ sub32 currentTime task.lastIdealExecutionTime / 100 :=
      Nat.div_le_div_left hP (by decide)
    have h2 : sub32 currentTime task.lastIdealExecutionTime / 100 ≤ 42949672 := by omega
    omega
  have hage : wrap32 (1 + sub32 currentTime task.lastIdealExecutionTime / task.desiredPeriod)
      = 1 + sub32 currentTime task.lastIdealExecutionTime / task.desiredPeriod :=
    Nat.mod_eq_of_lt (by omega)
  rw [hage]
  have hmul : task.priority
      * (1 + sub32 currentTime task.lastIdealExecutionTime / task.desiredPeriod)
      ≤ 99 * 42949673 := Nat.mul_le_mul (by omega) (by omega)
  have hw : wrap32 (task.priority
      * (1 + sub32 currentTime task.lastIdealExecutionTime / task.desiredPeriod))
      = task.priority
        * (1 + sub32 currentTime task.lastIdealExecutionTime / task.desiredPeriod) :=
    Nat.mod_eq_of_lt (by omega)
  rw [hw]
  have hw2 : wrap32 (1 + task.priority
      * (1 + sub32 currentTime task.lastIdealExecutionTime / task.desiredPeriod))
      = 1 + task.priority
        * (1 + sub32 currentTime task.lastIdealExecutionTime / task.desiredPeriod) :=
    Nat.mod_eq_of_lt (by omega)
  rw [hw2]
  omega

/-- Without an enabled task of realtime priority or above the horizon scan
returns its starting value. -/
theorem timeToNextRealtimeTask_none (realtime currentTime : Nat) (tasks : List cfTask_t) :
    ∀ acc, (∀ task ∈ tasks, task.isEnabled = true → task.priority < realtime) →
      timeToNextRealtimeTask realtime currentTime tasks acc = acc := by
  induction tasks with
  | nil =>
    intro acc _
    rfl
  | cons head rest ih =>
    intro acc h
    unfold timeToNextRealtimeTask
    have hhead : (head.isEnabled && decide (head.priority ≥ realtime)) = false := by
      cases hen : head.isEnabled with
      | false => rfl
      | true =>
        have := h head (List.mem_cons_self _ _) hen
        simp only [Bool.true_and, decide_eq_false_iff_not]
        omega
    rw [hhead]
    exact ih acc (fun task ht => h task (List.mem_cons_of_mem _ ht))

/-- A selection step that returns for a waiting task has computed its score. -/
theorem considerTask_score {W : Type} (realtime currentTime : Nat) (outside : Bool)
    (ii : Nat) (task : cfTask_t) (sel sel1 : Selection W)
    (h : considerTask realtime currentTime outside ii task sel = some sel1)
    (hw : task.isWaitingToBeRan = true) :
    ∃ score, starvationPriority currentTime task = some score := by
  unfold considerTask at h
  rw [if_pos hw] at h
  cases hsp : starvationPriority currentTime task with
  | none =>
    rw [hsp] at h
    exact absurd h (by simp)
  | some score => exact ⟨score, rfl⟩

/-- When the scores of the candidates are positive and the loop starts with no
selection only at best score 0, a loop that ends with no selection started
with none and has seen no candidate. -/
theorem selectLoop_work {W : Type} (env : Env W) (fuel currentTime : Nat)
    (outside : Bool) (tasks : List cfTask_t) :
    ∀ (ii : Nat) (sel : Selection W) (out : List cfTask_t) (sel1 : Selection W),
      selectLoop env fuel currentTime outside ii tasks sel = some (out, sel1) →
      (∀ task ∈ out, task.isEnabled = true → task.isWaitingToBeRan = true →
        ∀ score, starvationPriority currentTime task = some score → 0 < score) →
      (sel.selectedTask = none → sel.selectedTaskStarvationPriority = 0) →
      sel1.selectedTask = none →
      sel.selectedTask = none ∧ sel1.selectedTaskStarvationPriority = 0 ∧
        ∀ (j : Nat) (tj : cfTask_t), out[j]? = some tj →
          ¬ IsCandidate env.TASK_PRIORITY_REALTIME outside tj := by
  induction tasks with
  | nil =>
    intro ii sel out sel1 h _ hinv hnone
    unfold selectLoop at h
    simp only [Option.some.injEq, Prod.mk.injEq] at h
    obtain ⟨hout, hsel⟩ := h
    subst hout hsel
    refine ⟨hnone, hinv hnone, ?_⟩
    intro j tj hj
    simp at hj
  | cons head rest ih =>
    intro ii sel out sel1 h hpos hinv hnone
    unfold selectLoop at h
    split at h
    · rename_i hdis
      have hhead : head.isEnabled = false := by simpa using hdis
      simp only [Option.map_eq_some', Prod.mk.injEq] at h
      obtain ⟨⟨out0, sel0⟩, hr0, hout, hsel⟩ := h
      simp only at hout hsel
      subst hout hsel
      obtain ⟨h1, h2, h3⟩ := ih (ii + 1) sel out0 sel0 hr0
        (fun task ht => hpos task (List.mem_cons_of_mem _ ht)) hinv hnone
      refine ⟨h1, h2, ?_⟩
      intro j tj hj hc
      cases j with
      | zero =>
        simp only [List.getElem?_cons_zero, Option.some.injEq] at hj
        subst hj
        rw [hc.1] at hhead
        exact absurd hhead (by simp)
      | succ j =>
        simp only [List.getElem?_cons_succ] at hj
        exact h3 j tj hj hc
    · split at h
      · exact absurd h (by simp)
      · rename_i task1 world1 calls1 hupd
        split at h
        · exact absurd h (by simp)
        · rename_i selc hcons
          simp only [Option.map_eq_some', Prod.mk.injEq] at h
          obtain ⟨⟨out0, sel0⟩, hr0, hout, hsel⟩ := h
          simp only at hout hsel
          subst hout hsel
          have hpos0 : ∀ task ∈ out0, task.isEnabled = true → task.isWaitingToBeRan = true →
              ∀ score, starvationPriority currentTime task = some score → 0 < score :=
            fun task ht => hpos task (List.mem_cons_of_mem _ ht)
          rcases considerTask_cases _ _ _ _ _ _ _ hcons with
            ⟨hkeep, hle⟩ | ⟨score, _, _, _, _, htake⟩
          · have hs1 : selc.selectedTask = sel.selectedTask := by rw [hkeep]
            have hp1 : selc.selectedTaskStarvationPriority
                = sel.selectedTaskStarvationPriority := by rw [hkeep]
            obtain ⟨h1, h2, h3⟩ := ih (ii + 1) selc out0 sel0 hr0 hpos0
              (by rw [hs1, hp1]; exact hinv) hnone
            rw [hs1] at h1
            refine ⟨h1, h2, ?_⟩
            intro j tj hj hc
            cases j with
            | zero =>
              simp only [List.getElem?_cons_zero, Option.some.injEq] at hj
              subst hj
              obtain ⟨score, hs⟩ := considerTask_score _ _ _ _ _ _ _ hcons hc.2.1
              have hle1 : score ≤ sel.selectedTaskStarvationPriority :=
                hle score hc.2.1 hc.2.2 hs
              have hpos1 : 0 < score :=
                hpos task1 (List.mem_cons_self _ _) hc.1 hc.2.1 score hs
              have hzero : sel.selectedTaskStarvationPriority = 0 := hinv h1
              omega
            | succ j =>
              simp only [List.getElem?_cons_succ] at hj
              exact h3 j tj hj hc
          · have hs1 : selc.selectedTask = some ii := by rw [htake]
            obtain ⟨h1, _, _⟩ := ih (ii + 1) selc out0 sel0 hr0 hpos0
              (by rw [hs1]; intro hx; exact absurd hx (by simp)) hnone
            rw [hs1] at h1
            exact absurd h1 (by simp)

/-- Without 32-bit wrap the catch-up loop returns when the fuel exceeds
`currentTime / desiredPeriod`. -/
theorem catchUp_returns (desiredPeriod currentTime : Nat) (hP : 0 < desiredPeriod)
    (hc : currentTime + desiredPeriod < 4294967296) (fuel ideal : Nat)
    (hfuel : currentTime / desiredPeriod + 1 ≤ fuel) :
    ∃ r, catchUp desiredPeriod currentTime fuel ideal = some r := by
  cases fuel with
  | zero => exact absurd hfuel (Nat.not_succ_le_zero _)
  | succ fuel =>
    unfold catchUp
    by_cases hready : wrap32 (ideal + desiredPeriod) ≤ currentTime
    · rw [if_pos hready]
      simp only
      rw [catchUp_noWrap desiredPeriod currentTime hP hc fuel _ hready]
      have hle : (currentTime - wrap32 (ideal + desiredPeriod)) / desiredPeriod
          ≤ currentTime / desiredPeriod := Nat.div_le_div_right (Nat.sub_le _ _)
      rw [if_pos (by omega)]
      exact ⟨_, rfl⟩
    · rw [if_neg hready]
      exact ⟨_, rfl⟩

/-- The readiness update returns when the catch-up loop does. -/
theorem updateReadiness_returns {W : Type} (env : Env W) (fuel currentTime ii : Nat)
    (task : cfTask_t) (world : W) (calls : List Call)
    (hP : 0 < task.desiredPeriod)
    (hc : currentTime + task.desiredPeriod < 4294967296)
    (hfuel : currentTime / task.desiredPeriod + 1 ≤ fuel) :
    ∃ r, updateReadiness env fuel currentTime ii task world calls = some r := by
  obtain ⟨ideal, hcu⟩ := catchUp_returns task.desiredPeriod currentTime hP hc fuel
    task.lastIdealExecutionTime hfuel
  unfold updateReadiness
  rw [hcu]
  split
  · split
    · dsimp only
      split <;> exact ⟨_, rfl⟩
    · split <;> exact ⟨_, rfl⟩
  · exact ⟨_, rfl⟩

/-- The selection step returns for a task with a nonzero period. -/
theorem considerTask_returns {W : Type} (realtime currentTime : Nat) (outside : Bool)
    (ii : Nat) (task : cfTask_t) (sel : Selection W) (hP : task.desiredPeriod ≠ 0) :
    ∃ sel1, considerTask realtime currentTime outside ii task sel = some sel1 := by
  unfold considerTask starvationPriority taskAge
  rw [if_neg hP]
  simp only [Option.map_some']
  split
  · split
    · split <;> exact ⟨_, rfl⟩
    · exact ⟨_, rfl⟩
  · exact ⟨_, rfl⟩

/-- The main loop returns when, for every enabled task, the period is nonzero,
the clock plus the period does not wrap, and the fuel exceeds
`currentTime / desiredPeriod`. -/
theorem selectLoop_returns {W : Type} (env : Env W) (fuel currentTime : Nat)
    (outside : Bool) (tasks : List cfTask_t) :
    ∀ (ii : Nat) (sel : Selection W),
      (∀ task ∈ tasks, task.isEnabled = true →
        0 < task.desiredPeriod ∧ currentTime + task.desiredPeriod < 4294967296 ∧
          currentTime / task.desiredPeriod + 1 ≤ fuel) →
      ∃ r, selectLoop env fuel currentTime outside ii tasks sel = some r := by
  induction tasks with
  | nil =>
    intro ii sel _
    exact ⟨_, rfl⟩
  | cons head rest ih =>
    intro ii sel h
    have hrest : ∀ task ∈ rest, task.isEnabled = true →
        0 < task.desiredPeriod ∧ currentTime + task.desiredPeriod < 4294967296 ∧
          currentTime / task.desiredPeriod + 1 ≤ fuel :=
      fun task ht => h task (List.mem_cons_of_mem _ ht)
    unfold selectLoop
    by_cases hen : head.isEnabled = true
    · obtain ⟨hP, hc, hfuel⟩ := h head (List.mem_cons_self _ _) hen
      obtain ⟨⟨task1, world1, calls1⟩, hupd⟩ := updateReadiness_returns env fuel currentTime ii
        head sel.world sel.calls hP hc hfuel
      obtain ⟨ideal, waiting, ht1⟩ := updateReadiness_eq_some env fuel currentTime ii
        head task1 sel.world world1 sel.calls calls1 hupd
      have hP1 : task1.desiredPeriod ≠ 0 := by
        rw [ht1]
        exact Nat.pos_iff_ne_zero.mp hP
      obtain ⟨selc, hcons⟩ := considerTask_returns env.TASK_PRIORITY_REALTIME currentTime
        outside ii task1 { sel with world := world1, calls := calls1 } hP1
      obtain ⟨r, hr⟩ := ih (ii + 1) selc hrest
      rw [if_neg (by simp [hen]), hupd]
      simp only
      rw [hcons]
      simp only
      rw [hr]
      exact ⟨_, rfl⟩
    · obtain ⟨r, hr⟩ := ih (ii + 1) sel hrest
      rw [if_pos (by simpa using hen), hr]
      exact ⟨_, rfl⟩

/-- The descriptors after the loop of a pass keep `isEnabled`, `desiredPeriod`
and `priority`. -/
theorem schedulerSelect_descriptor_static {W : Type} (env : Env W) (fuel : Nat)
    (m : Machine W) (s : State) (sel : Selection W)
    (hsel : schedulerSelect env fuel m = some (s, sel)) (j : Nat) (tj : cfTask_t)
    (hj : s.cfTasks[j]? = some tj) :
    ∃ t, m.sched.cfTasks[j]? = some t ∧ t ∈ m.sched.cfTasks ∧ tj.isEnabled = t.isEnabled ∧
      tj.desiredPeriod = t.desiredPeriod ∧ tj.priority = t.priority := by
  obtain ⟨tasks, hloop, hs⟩ := schedulerSelect_eq_some env fuel m s sel hsel
  have hstasks : s.cfTasks = tasks := by rw [hs]
  rw [hstasks] at hj
  have hlen := (selectLoop_descriptor env fuel _ _ m.sched.cfTasks 0 _ tasks sel hloop).1
  have hjlt : j < m.sched.cfTasks.length := by
    rw [← hlen]
    exact (List.getElem?_eq_some_iff.mp hj).1
  have ht : m.sched.cfTasks[j]? = some (m.sched.cfTasks[j]) := List.getElem?_eq_getElem hjlt
  obtain ⟨ideal, waiting, hout⟩ := selectLoop_descriptor_fields env fuel _ _
    m.sched.cfTasks 0 _ tasks sel hloop j _ ht
  rw [hj] at hout
  have htj := Option.some.inj hout
  refine ⟨_, ht, List.getElem_mem hjlt, ?_, ?_, ?_⟩
  · rw [htj]
  · rw [htj]
  · rw [htj]

/-- Work conservation of the passes that return: in a state whose enabled
tasks have `desiredPeriod ≥ 100` and a priority of at most
`TASK_PRIORITY_REALTIME` (itself at most 99, so that no score wraps), a pass
whose main loop returns dispatches a task if and only
if, after the readiness update, some task is enabled, waiting and eligible
(the pass is outside the realtime guard, or the task's priority is
`TASK_PRIORITY_REALTIME`). A realtime task that is waiting after the readiness
update, or enabled and waiting before the pass, makes the pass dispatch a
task. When no enabled task is realtime and the guard is below `UINT32_MAX`,
the pass is outside the guard and every enabled waiting task makes it dispatch
a task. The main loop returns when, for every enabled task, the clock plus
the period does not wrap and the fuel exceeds `currentTime / 100`. -/
theorem work_conservation {W : Type} (env : Env W) (fuel : Nat) (m : Machine W)
    (hrt : env.TASK_PRIORITY_REALTIME ≤ 99)
    (htasks : ∀ task ∈ m.sched.cfTasks, task.isEnabled = true →
      100 ≤ task.desiredPeriod ∧ task.priority ≤ env.TASK_PRIORITY_REALTIME) :
    (∀ (s : State) (sel : Selection W), schedulerSelect env fuel m = some (s, sel) →
        dispatchedTask env fuel m = some sel.selectedTask ∧
        (sel.selectedTask.isSome = true ↔
          ∃ (j : Nat) (tj : cfTask_t), s.cfTasks[j]? = some tj ∧
            IsCandidate env.TASK_PRIORITY_REALTIME (outsideRealtimeGuardInterval env m) tj) ∧
        (∀ (j : Nat) (tj : cfTask_t), s.cfTasks[j]? = some tj → tj.isEnabled = true →
          tj.isWaitingToBeRan = true → tj.priority = env.TASK_PRIORITY_REALTIME →
          sel.selectedTask.isSome = true) ∧
        (∀ (j : Nat) (t : cfTask_t), m.sched.cfTasks[j]? = some t → t.isEnabled = true →
          t.isWaitingToBeRan = true → t.priority = env.TASK_PRIORITY_REALTIME →
          sel.selectedTask.isSome = true) ∧
        ((∀ task ∈ m.sched.cfTasks, task.isEnabled = true →
            task.priority ≠ env.TASK_PRIORITY_REALTIME) →
          m.sched.realtimeGuardInterval < UINT32_MAX →
          outsideRealtimeGuardInterval env m = true ∧
          ∀ (j : Nat) (tj : cfTask_t), s.cfTasks[j]? = some tj → tj.isEnabled = true →
            tj.isWaitingToBeRan = true → sel.selectedTask.isSome = true)) ∧
      ((∀ task ∈ m.sched.cfTasks, task.isEnabled = true →
          wrap32 (env.micros m.world) + task.desiredPeriod < 4294967296) →
        wrap32 (env.micros m.world) / 100 + 1 ≤ fuel →
        ∃ s sel, schedulerSelect env fuel m = some (s, sel)) := by
  refine ⟨?_, ?_⟩
  · intro s sel hsel
    obtain ⟨tasks, hloop, hs⟩ := schedulerSelect_eq_some env fuel m s sel hsel
    have hstasks : s.cfTasks = tasks := by rw [hs]
    have hdt : dispatchedTask env fuel m = some sel.selectedTask := by
      unfold dispatchedTask
      rw [hsel]
      rfl
    have hpos : ∀ task ∈ tasks, task.isEnabled = true → task.isWaitingToBeRan = true →
        ∀ score, starvationPriority (wrap32 (env.micros m.world)) task = some score →
          0 < score := by
      intro task hmem hen _ score hscore
      obtain ⟨j, hjlt, hj⟩ := List.getElem_of_mem hmem
      have hj2 : s.cfTasks[j]? = some task := by
        rw [hstasks, List.getElem?_eq_getElem hjlt, hj]
      obtain ⟨t, _, htmem, he, hP, hp⟩ :=
        schedulerSelect_descriptor_static env fuel m s sel hsel j task hj2
      obtain ⟨h100, hprio⟩ := htasks t htmem (by rw [← he]; exact hen)
      obtain ⟨score1, hs1, hpos1⟩ := starvationPriority_pos (wrap32 (env.micros m.world))
        env.TASK_PRIORITY_REALTIME task hrt (by rw [hP]; exact h100) (by rw [hp]; exact hprio)
      rw [hscore] at hs1
      rw [Option.some.inj hs1]
      exact hpos1
    have hwork := selectLoop_work env fuel _ _ m.sched.cfTasks 0 _ tasks sel hloop hpos
      (fun _ => rfl)
    have hiff : sel.selectedTask.isSome = true ↔
        ∃ (j : Nat) (tj : cfTask_t), s.cfTasks[j]? = some tj ∧
          IsCandidate env.TASK_PRIORITY_REALTIME (outsideRealtimeGuardInterval env m) tj := by
      constructor
      · intro hsome
        obtain ⟨i, hi⟩ := Option.isSome_iff_exists.mp hsome
        obtain ⟨ti, h1, h2⟩ := schedulerSelect_selected_candidate env fuel m s sel i hsel hi
        exact ⟨i, ti, h1, h2⟩
      · rintro ⟨j, tj, hj, hc⟩
        cases hnone : sel.selectedTask with
        | some i => rfl
        | none =>
          rw [hstasks] at hj
          exact absurd hc ((hwork hnone).2.2 j tj hj)
    have hreal : ∀ (j : Nat) (tj : cfTask_t), s.cfTasks[j]? = some tj → tj.isEnabled = true →
        tj.isWaitingToBeRan = true → tj.priority = env.TASK_PRIORITY_REALTIME →
        sel.selectedTask.isSome = true :=
      fun j tj hj hen hw hp => hiff.mpr ⟨j, tj, hj, hen, hw, Or.inr hp⟩
    refine ⟨hdt, hiff, hreal, ?_, ?_⟩
    · intro j t ht hen hw hp
      obtain ⟨world, calls, t1, world1, calls1, hupd, hout⟩ :=
        ((selectLoop_descriptor env fuel _ _ m.sched.cfTasks 0 _ tasks sel hloop).2 j t ht).2 hen
      rw [updateReadiness_waiting env fuel _ _ t world calls hw] at hupd
      have ht1 : t = t1 := (Prod.mk.inj (Option.some.inj hupd)).1
      rw [← ht1, ← hstasks] at hout
      exact hreal j t hout hen hw hp
    · intro hnort hguard
      have hout : outsideRealtimeGuardInterval env m = true := by
        unfold outsideRealtimeGuardInterval
        rw [timeToNextRealtimeTask_none env.TASK_PRIORITY_REALTIME _ m.sched.cfTasks UINT32_MAX
          (fun task ht hen => lt_of_le_of_ne (htasks task ht hen).2 (hnort task ht hen))]
        exact decide_eq_true hguard
      refine ⟨hout, ?_⟩
      intro j tj hj hen hw
      exact hiff.mpr ⟨j, tj, hj, hen, hw, Or.inl hout⟩
  · intro hclock hfuel
    obtain ⟨r, hr⟩ := selectLoop_returns env fuel (wrap32 (env.micros m.world))
      (decide (timeToNextRealtimeTask env.TASK_PRIORITY_REALTIME
        (wrap32 (env.micros m.world)) m.sched.cfTasks UINT32_MAX
          > m.sched.realtimeGuardInterval))
      m.sched.cfTasks 0
      { selectedTask := none, selectedTaskStarvationPriority := 0,
        world := m.world, calls := m.calls }
      (by
        intro task ht hen
        obtain ⟨h100, _⟩ := htasks task ht hen
        have hdiv : wrap32 (env.micros m.world) / task.desiredPeriod
            ≤ wrap32 (env.micros m.world) / 100 := Nat.div_le_div_left h100 (by decide)
        exact ⟨by omega, hclock task ht hen, by omega⟩)
    have hsome : ∃ x, schedulerSelect env fuel m = some x := by
      unfold schedulerSelect
      dsimp only
      rw [hr]
      exact ⟨_, rfl⟩
    obtain ⟨⟨s, sel⟩, h⟩ := hsome
    exact ⟨s, sel, h⟩

/-- Work conservation on `BasicEventTask` before the pass at 50000, with RX
waiting and GYROPID (realtime) due: the hypotheses hold, the main loop returns,
and the pass dispatches GYROPID. -/
theorem work_conservation_witness :
    dispatchedTask testEnv 501 (testEventMachine 14) = some (some 1) ∧
      ∃ s sel, schedulerSelect testEnv 501 (testEventMachine 14) = some (s, sel) :=
  ⟨by decide!,
    (work_conservation testEnv 501 (testEventMachine 14) (by decide) (by decide!)).2
      (by decide!) (by decide!)⟩

/-! ## Work conservation at the top of the clock range -/

/-- At `currentTime = 2^32 - 1` the readiness update of an enabled, not-waiting
time-driven task does not return, whatever the fuel. -/
theorem updateReadiness_diverges {W : Type} (env : Env W) (fuel ii : Nat) (task : cfTask_t)
    (world : W) (calls : List Call)
    (hw : task.isWaitingToBeRan = false) (hc : task.checkFunc = none) :
    updateReadiness env fuel 4294967295 ii task world calls = none := by
  unfold updateReadiness
  have hcond : wrap32 (task.lastIdealExecutionTime + task.desiredPeriod) ≤ 4294967295 := by
    unfold wrap32
    omega
  simp only [hw, hc, Bool.not_false, if_true]
  rw [if_pos hcond, catchUp_diverges]

/-- At `currentTime = 2^32 - 1` the main loop does not return when the part of
the table it scans holds an enabled, not-waiting time-driven task, whatever
the fuel and whatever it has selected before. -/
theorem selectLoop_diverges {W : Type} (env : Env W) (fuel : Nat) (outside : Bool)
    (tasks : List cfTask_t) :
    (∃ task ∈ tasks, task.isEnabled = true ∧ task.isWaitingToBeRan = false ∧
      task.checkFunc = none) →
    ∀ (ii : Nat) (sel : Selection W),
      selectLoop env fuel 4294967295 outside ii tasks sel = none := by
  induction tasks with
  | nil =>
    rintro ⟨task, hmem, _⟩
    exact absurd hmem (List.not_mem_nil _)
  | cons head rest ih =>
    rintro ⟨task, hmem, hen, hw, hc⟩ ii sel
    unfold selectLoop
    rcases List.mem_cons.mp hmem with hhead | hrest
    · rw [← hhead, if_neg (by simp [hen]),
        updateReadiness_diverges env fuel ii task sel.world sel.calls hw hc]
    · have hr := ih ⟨task, hrest, hen, hw, hc⟩
      split
      · rw [hr]
        rfl
      · split
        · rfl
        · split
          · rfl
          · rw [hr]
            rfl

/-- A pass at `currentTime = 2^32 - 1` on a table that holds an enabled,
not-waiting time-driven task does not return and dispatches nothing, whatever
the fuel. -/
theorem schedulerSelect_diverges {W : Type} (env : Env W) (fuel : Nat) (m : Machine W)
    (ht : wrap32 (env.micros m.world) = 4294967295)
    (hex : ∃ task ∈ m.sched.cfTasks, task.isEnabled = true ∧ task.isWaitingToBeRan = false ∧
      task.checkFunc = none) :
    schedulerSelect env fuel m = none ∧ dispatchedTask env fuel m = none ∧
      schedulerExecute env fuel m = none := by
  have hsel : schedulerSelect env fuel m = none := by
    unfold schedulerSelect
    dsimp only
    rw [ht, selectLoop_diverges env fuel _ m.sched.cfTasks hex]
    rfl
  refine ⟨hsel, ?_, ?_⟩
  · unfold dispatchedTask
    rw [hsel]
    rfl
  · unfold schedulerExecute
    rw [hsel]

/-- C23: work conservation fails at the top of the clock range. At
`currentTime = 2^32 - 1` a pass over a table that holds an enabled, not-waiting
time-driven task never returns and dispatches nothing, whatever else is ready.
On `exampleWrapRealtimeMachine` every enabled task has `desiredPeriod ≥ 100`
and a priority of at most `TASK_PRIORITY_REALTIME`, the task at index 0 is
enabled, waiting and realtime (a candidate both before the pass and, since the
readiness update leaves a waiting task as it is, after its own update), and
yet for every fuel the main loop does not return, no task is dispatched and
`schedulerExecute` does not return. -/
theorem work_conservation_fails_at_wrap :
    (∀ (W : Type) (env : Env W) (fuel : Nat) (m : Machine W),
        wrap32 (env.micros m.world) = 4294967295 →
        (∃ task ∈ m.sched.cfTasks, task.isEnabled = true ∧ task.isWaitingToBeRan = false ∧
          task.checkFunc = none) →
        schedulerSelect env fuel m = none ∧ dispatchedTask env fuel m = none ∧
          schedulerExecute env fuel m = none) ∧
      (∀ task ∈ exampleWrapRealtimeMachine.sched.cfTasks, task.isEnabled = true →
        100 ≤ task.desiredPeriod ∧ task.priority ≤ exampleEnv.TASK_PRIORITY_REALTIME) ∧
      exampleEnv.micros exampleWrapRealtimeMachine.world = 4294967295 ∧
      exampleWrapRealtimeMachine.sched.cfTasks.map
          (fun t => (t.isEnabled, t.isWaitingToBeRan, t.checkFunc, t.priority,
            t.desiredPeriod, t.lastIdealExecutionTime))
        = [(true, true, none, 6, 1000, 0), (true, false, none, 1, 100, 0)] ∧
      (∃ t0, exampleWrapRealtimeMachine.sched.cfTasks[0]? = some t0 ∧
        IsCandidate exampleEnv.TASK_PRIORITY_REALTIME
          (outsideRealtimeGuardInterval exampleEnv exampleWrapRealtimeMachine) t0 ∧
        ∀ (fuel : Nat) (world : Nat) (calls : List Call),
          updateReadiness exampleEnv fuel 4294967295 0 t0 world calls
            = some (t0, world, calls)) ∧
      (∀ fuel : Nat,
        schedulerSelect exampleEnv fuel exampleWrapRealtimeMachine = none ∧
          dispatchedTask exampleEnv fuel exampleWrapRealtimeMachine = none ∧
          schedulerExecute exampleEnv fuel exampleWrapRealtimeMachine = none) := by
  refine ⟨?_, by decide, by decide, by decide, ?_, ?_⟩
  · intro W env fuel m ht hex
    exact schedulerSelect_diverges env fuel m ht hex
  · refine ⟨_, rfl, ⟨by decide, by decide, Or.inr (by decide)⟩, ?_⟩
    intro fuel world calls
    exact updateReadiness_waiting exampleEnv fuel _ _ _ world calls (by decide)
  · intro fuel
    exact schedulerSelect_diverges exampleEnv fuel exampleWrapRealtimeMachine (by decide)
      ⟨{ exampleTask "SERIAL" 1 100 0 with isEnabled := true }, by decide, by decide,
        by decide, by decide⟩

end Scheduler
